import Mathlib

/-!
# MRO_CPPBRIDGE: gimbal transmitter, image bridge, datagram relay, capture logger

A shallow embedding of `src/core/gimbal_control.cpp`, `src/core/udp_relay.cpp`,
`src/core/image_stream_bridge.cpp`, `src/network/socket_utils.cpp`, `src/utils/json.cpp`,
`src/utils/settings.cpp` and the configuration handling of `src/main.cpp`, followed by
theorems about that embedding.

Conventions of the embedding:

* a byte is a natural number below 256; a packet is a `List Nat`;
* a `double` is the rational number it denotes, and a product of two `double` values is the
  exact product rounded to the nearest `double`, ties to even (`double_mul`), as IEEE-754
  binary64 arithmetic does;
* `int32_t` is an `Int` wrapped into `[-2^31, 2^31)`; `std::size_t` counters are naturals;
* system calls (`socket`, `bind`, `listen`, `recvfrom`, `inet_pton`, the clock, opening a file)
  have their results supplied as explicit inputs;
* a `std::thread` member is an `Option`: `none` is a handle that is not joinable, `some pc` is a
  joinable handle whose thread stands at program point `pc`;
* calls of `log_packet` from several threads are interleavings of the steps of each call;
* a `std::string` is a list of characters, one per byte; a JSON object, a `std::map`, is the
  list of its entries, looked up by key;
* a method of the JSON parser returns a `Res`: a value, an exception, a read of the text
  outside its bounds, or the exhaustion of the bound given to a loop or to the nesting of
  `parse_value`; `std::stod` is a parameter.
-/

namespace core

/-! ## gimbal_control.cpp: `build_packet` -/

/-- Two's-complement wrap of an integer into the range of `int32_t`. -/
def wrap_int32 (x : Int) : Int := (x + 2147483648) % 4294967296 - 2147483648

/-- Truncation toward zero of a rational: the value of a floating-to-integer conversion. -/
def trunc_toward_zero (value : ℚ) : Int := Int.tdiv value.num value.den

/-- The conversion `static_cast<int32_t>(value)` of gimbal_control.cpp:24: the fractional part
is discarded. Outside the `int32_t` range the C++ conversion is undefined; the embedding wraps. -/
def static_cast_int32 (value : ℚ) : Int := wrap_int32 (trunc_toward_zero value)

/-- The four bytes taken from a scaled value, gimbal_control.cpp:25-30:
`(scaled >> 24) & 0xFF`, `(scaled >> 16) & 0xFF`, `(scaled >> 8) & 0xFF`, `scaled & 0xFF`,
each converted to `uint8_t`. The shift is the arithmetic shift on signed integers. -/
def encode_scaled (scaled : Int) : List Nat :=
  [ (Int.land (scaled >>> (24 : Nat)) 0xFF).toNat,
    (Int.land (scaled >>> (16 : Nat)) 0xFF).toNat,
    (Int.land (scaled >>> (8 : Nat)) 0xFF).toNat,
    (Int.land scaled 0xFF).toNat ]

/-- The number of binary digits of `n`, by halving; the first argument bounds the number of
halvings. -/
def bit_length_loop : Nat → Nat → Nat
  | 0, _ => 0
  | fuel + 1, n => if n = 0 then 0 else bit_length_loop fuel (n / 2) + 1

/-- The number of binary digits of a natural number: `2^(bit_length n - 1) ≤ n < 2^bit_length n`
for positive `n`. -/
def bit_length (n : Nat) : Nat := bit_length_loop n n

/-- The binary exponent of a positive fraction: the `e` with `2^e ≤ n / d < 2^(e+1)`. -/
def floor_log2 (n d : Nat) : Int :=
  let e0 : Int := (bit_length n : Int) - (bit_length d : Int)
  if d * 2 ^ e0.toNat ≤ n * 2 ^ (-e0).toNat then e0 else e0 - 1

/-- The integer nearest to `n / d`, a tie going to the even one. -/
def round_half_even (n d : Nat) : Nat :=
  let q := n / d
  let r := n % d
  if 2 * r < d then q else if d < 2 * r then q + 1 else if q % 2 = 0 then q else q + 1

/-- The `double` nearest to `n / d` in the IEEE-754 binary64 format, as the pair `(m, k)` that
stands for `m * 2^k`: `2^k` is the unit in the last place, 52 binary places below the exponent
of `n / d` and never below `2^(-1074)`, and `m` is `n / d` in that unit rounded to nearest,
ties to even. -/
def double_parts (n d : Nat) : Nat × Int :=
  let e := max (floor_log2 n d) (-1022)
  let k := e - 52
  (round_half_even (n * 2 ^ (-k).toNat) (d * 2 ^ k.toNat), k)

/-- The rounding of a real result to a `double`, in the default rounding mode (to nearest,
ties to even). A magnitude beyond the largest `double` would become an infinity; it is left
at its rounded value here, and the conversion of such a value to an integer is outside the
`int32_t` range in either case. -/
def round_to_double (q : ℚ) : ℚ :=
  let p := double_parts q.num.natAbs q.den
  let v : ℚ := (p.1 : ℚ) * (2 : ℚ) ^ p.2
  if q.num < 0 then -v else v

/-- The product `a * b` of two `double` values: the exact product rounded to a `double`. -/
def double_mul (a b : ℚ) : ℚ := round_to_double (a * b)

/-- The lambda `encode` of gimbal_control.cpp:23-31; `value * 100.0` is a product of
`double` values. -/
def encode (value : ℚ) : List Nat :=
  let scaled : Int := static_cast_int32 (double_mul value 100)
  encode_scaled scaled

/-- The call `std::copy(src.begin(), src.end(), dst.begin() + off)`. -/
def std_copy (src dst : List Nat) (off : Nat) : List Nat :=
  dst.take off ++ src ++ dst.drop (off + src.length)

/-- The function `build_packet` of gimbal_control.cpp:21-41. -/
def build_packet (yaw pitch roll zoom : ℚ) : List Nat :=
  let packet := List.replicate 32 0
  let yaw_bytes := encode yaw
  let pitch_bytes := encode pitch
  let roll_bytes := encode roll
  let zoom_bytes := encode zoom
  let packet := std_copy yaw_bytes packet 0
  let packet := std_copy pitch_bytes packet 4
  let packet := std_copy roll_bytes packet 8
  let packet := std_copy zoom_bytes packet 12
  packet

/-- The reading of four bytes as a big-endian signed 32-bit integer (two's complement). -/
def decode_be_int32 (bytes : List Nat) : Int :=
  wrap_int32 (bytes.foldl (fun acc b => acc * 256 + (b : Int)) 0)

/-- Rounding to the nearest integer, halves away from zero (the C library `round`), as the
specification words the scaled value. -/
def round_half_away (q : ℚ) : Int :=
  if 0 ≤ q then Rat.floor (q + 1 / 2) else - Rat.floor (-q + 1 / 2)

/-- The bytes `off .. off+3` of a packet. -/
def bytes_at (packet : List Nat) (off : Nat) : List Nat := (packet.drop off).take 4

/-- A value fits in `int32_t`. -/
def fits_int32 (x : Int) : Prop := -2147483648 ≤ x ∧ x < 2147483648

instance (x : Int) : Decidable (fits_int32 x) := by
  unfold fits_int32; infer_instance

/-! ## socket_utils.cpp and the settings records -/

/-- The record `sockaddr_in`: the parsed IPv4 address and the port. -/
structure sockaddr_in where
  sin_addr : Nat
  sin_port : Nat
deriving DecidableEq, Repr

/-- The results of the system calls made during one call into a service. -/
structure Sys where
  /-- The value returned by `::socket(AF_INET, SOCK_DGRAM, 0)`. -/
  udp_socket_ret : Int
  /-- The value returned by `::socket(AF_INET, SOCK_STREAM, 0)`. -/
  tcp_socket_ret : Int
  /-- The library call `inet_pton(AF_INET, ip, ..)`: the parsed address, or `none` when the
  result is not 1. -/
  inet_pton : String → Option Nat
  /-- The value returned by `bind` on the datagram socket. -/
  udp_bind_ret : Int
  /-- The value returned by `bind` on the stream socket. -/
  tcp_bind_ret : Int
  /-- The value returned by `listen` on the stream socket. -/
  listen_ret : Int

/-- The result of a call: it returned, it raised an exception that left the call, the process
was ended by `std::terminate`, or the call never returns. -/
inductive Outcome (σ : Type) where
  | returned (s : σ)
  | threw (s : σ) (what : String)
  | terminated
  | blocked
deriving Repr

/-- The state after a call that returned. -/
def Outcome.state {σ : Type} : Outcome σ → Option σ
  | .returned s => some s
  | _ => none

/-- The function `create_udp_socket` of socket_utils.cpp:16-22. -/
def create_udp_socket (sys : Sys) : Except String Int :=
  let fd := sys.udp_socket_ret
  if fd < 0 then .error "Failed to create UDP socket" else .ok fd

/-- The function `create_tcp_socket` of socket_utils.cpp:24-30. -/
def create_tcp_socket (sys : Sys) : Except String Int :=
  let fd := sys.tcp_socket_ret
  if fd < 0 then .error "Failed to create TCP socket" else .ok fd

/-- The function `close_socket` of socket_utils.cpp:32-40, on the table of open descriptors. -/
def close_socket (fd : Int) (open_fds : List Int) : List Int :=
  if fd ≥ 0 then open_fds.erase fd else open_fds

/-- The conversion `static_cast<std::uint16_t>(port)` of an `int`. -/
def static_cast_uint16 (port : Int) : Nat := (port % 65536).toNat

/-- The function `make_address` of socket_utils.cpp:42-50. -/
def make_address (sys : Sys) (ip : String) (port : Nat) : Except String sockaddr_in :=
  match sys.inet_pton ip with
  | some a => .ok { sin_addr := a, sin_port := port }
  | none => .error ("Invalid IPv4 address: " ++ ip)

/-- The record `settings::BridgeSettings` of settings.hpp:11-20. -/
structure BridgeSettings where
  ip : String := "0.0.0.0"
  tcp_port : Int := 9999
  udp_port : Int := 9998
  realtime_dir : String := ""
  predefined_dir : String := ""
  image_source_mode : String := "realtime"
  console_echo : Bool := true
  show_hud : Bool := true

/-- The record `settings::GimbalSettings`. -/
structure GimbalSettings where
  bind_ip : String := "0.0.0.0"
  bind_port : Int := 10705
  generator_ip : String := "127.0.0.1"
  generator_port : Int := 10706
  sensor_type : Int := 0
  sensor_id : Int := 1
  control_method : String := "tcp"
  show_packets : Bool := false

/-- The record `settings::RelaySettings`. -/
structure RelaySettings where
  bind_ip : String := "0.0.0.0"
  bind_port : Int := 10707
  raw_ip : String := "127.0.0.1"
  raw_port : Int := 10708
  proc_ip : String := "127.0.0.1"
  proc_port : Int := 10709
  enable : Bool := true
  log_packets : Bool := false

/-- One `sendto` / `send` call: the socket, the destination, the bytes handed over and the
value the call returned. -/
structure Sent where
  sock : Int
  dest : Option sockaddr_in
  data : List Nat
  ret : Int
deriving DecidableEq, Repr

/-- The effect of `recvfrom` on the receive buffer: the datagram is cut to the buffer size and
written over the front of the buffer. -/
def recv_into (buffer datagram : List Nat) : List Nat :=
  datagram.take buffer.length ++ buffer.drop (datagram.take buffer.length).length

/-- The byte count returned by a successful `recvfrom`. -/
def recv_count (buffer datagram : List Nat) : Nat := (datagram.take buffer.length).length

/-! ## udp_relay.cpp: `hex_dump`, `timestamp_string`, `RoverRelayLogger` -/

/-- The manipulators `std::setw(w) << std::setfill(fill)` applied to the next item. -/
def setw_setfill (w : Nat) (fill : Char) (item : List Char) : List Char :=
  List.replicate (w - item.length) fill ++ item

/-- The insertion of a non-negative `int` under `std::hex`: lowercase digits, no prefix. -/
def put_hex (v : Nat) : List Char := Nat.toDigits 16 v

/-- The insertion of a non-negative integer in decimal. -/
def put_dec (v : Nat) : List Char := Nat.toDigits 10 v

/-- The loop of `hex_dump`, udp_relay.cpp:27-31, from index `i` on, `oss` being the stream. -/
def hex_dump_loop : List Nat → Nat → List Char → List Char
  | [], _, oss => oss
  | b :: rest, i, oss =>
    let oss := if i > 0 then oss ++ [' '] else oss
    let oss := oss ++ setw_setfill 2 '0' (put_hex b)
    hex_dump_loop rest (i + 1) oss

/-- The function `hex_dump` of udp_relay.cpp:25-33. -/
def hex_dump (data : List Nat) : List Char := hex_dump_loop data 0 []

/-- The reading of the clock: the local calendar fields as `strftime` prints them and the
milliseconds within the second. -/
structure Clock where
  year : Nat
  month : Nat
  day : Nat
  hour : Nat
  minute : Nat
  second : Nat
  ms : Nat
deriving DecidableEq, Repr

/-- The function `timestamp_string` of udp_relay.cpp:35-50: `%Y-%m-%d %H:%M:%S`, a dot and the
milliseconds on three digits. -/
def timestamp_string (now : Clock) : List Char :=
  let buf := put_dec now.year ++ ['-'] ++ setw_setfill 2 '0' (put_dec now.month) ++ ['-']
    ++ setw_setfill 2 '0' (put_dec now.day) ++ [' '] ++ setw_setfill 2 '0' (put_dec now.hour)
    ++ [':'] ++ setw_setfill 2 '0' (put_dec now.minute) ++ [':']
    ++ setw_setfill 2 '0' (put_dec now.second)
  buf ++ ['.'] ++ setw_setfill 3 '0' (put_dec now.ms)

/-- The name `rover-%Y%m%d-%H%M%S.log` built in `open_file`, udp_relay.cpp:164. -/
def log_file_name (now : Clock) : List Char :=
  ['r', 'o', 'v', 'e', 'r', '-'] ++ put_dec now.year ++ setw_setfill 2 '0' (put_dec now.month)
    ++ setw_setfill 2 '0' (put_dec now.day) ++ ['-'] ++ setw_setfill 2 '0' (put_dec now.hour)
    ++ setw_setfill 2 '0' (put_dec now.minute) ++ setw_setfill 2 '0' (put_dec now.second)
    ++ ['.', 'l', 'o', 'g']

/-- The member `std::ofstream file_`: whether a file is open, the error state that
`!file_` tests, and the path of the file. -/
structure OFStream where
  is_open : Bool := false
  fail : Bool := false
  path : List Char := []
deriving DecidableEq, Repr

/-- One append to a file: the path and the characters. -/
structure FileWrite where
  path : List Char
  text : List Char
deriving DecidableEq, Repr

/-- The class `RoverRelayLogger` of udp_relay.hpp:50-71, with the appends made to files and the
messages given to the application logger. -/
structure RoverRelayLogger where
  directory_ : List Char := []
  file_ : OFStream := {}
  active_ : Bool := false
  lines_ : Nat := 0
  written : List FileWrite := []
  logged : List String := []
deriving DecidableEq, Repr

/-- The insertion of text into `file_`: appended to the open file, and the stream goes to
the error state when no file is open. A write to an open file succeeds. -/
def RoverRelayLogger.put (text : List Char) (s : RoverRelayLogger) : RoverRelayLogger :=
  if s.file_.fail then s
  else if s.file_.is_open then
    { s with written := s.written ++ [{ path := s.file_.path, text := text }] }
  else { s with file_ := { s.file_ with fail := true } }

/-- The method `RoverRelayLogger::open_file` of udp_relay.cpp:152-173. `mkdir_ok` is whether
`create_directories` succeeds (it raises otherwise) and `open_ok` whether the file opens. -/
def RoverRelayLogger.open_file (now : Clock) (mkdir_ok open_ok : Bool) (s : RoverRelayLogger) :
    Outcome RoverRelayLogger :=
  if !mkdir_ok then .threw s "filesystem error: cannot create directories"
  else
    let sep := if s.directory_ = [] ∨ s.directory_.getLast? = some '/' then [] else ['/']
    let path := s.directory_ ++ sep ++ log_file_name now
    let s :=
      if s.file_.is_open then { s with file_ := { s.file_ with fail := true } }
      else if open_ok then { s with file_ := { is_open := true, fail := false, path := path } }
      else { s with file_ := { s.file_ with fail := true } }
    if s.file_.fail then
      .returned { s with logged := s.logged ++ ["Failed to open rover relay log file"],
                         active_ := false }
    else
      .returned { s with logged := s.logged ++ ["Logging rover relay to " ++ String.mk path] }

/-- The method `RoverRelayLogger::close_file` of udp_relay.cpp:175-180. -/
def RoverRelayLogger.close_file (s : RoverRelayLogger) : RoverRelayLogger :=
  if !s.file_.fail then
    let s := { s with logged := s.logged ++ ["Rover relay logging stopped"] }
    if s.file_.is_open then { s with file_ := { s.file_ with is_open := false } }
    else { s with file_ := { s.file_ with fail := true } }
  else s

/-- The method `RoverRelayLogger::start` of udp_relay.cpp:131-135. -/
def RoverRelayLogger.start (now : Clock) (mkdir_ok open_ok : Bool) (s : RoverRelayLogger) :
    Outcome RoverRelayLogger :=
  if s.active_ then .returned s
  else
    let s := { s with active_ := true }
    s.open_file now mkdir_ok open_ok

/-- The method `RoverRelayLogger::stop` of udp_relay.cpp:137-141. -/
def RoverRelayLogger.stop (s : RoverRelayLogger) : RoverRelayLogger :=
  if !s.active_ then s
  else
    let s := { s with active_ := false }
    s.close_file

/-- The line that `log_packet` inserts into `file_`, udp_relay.cpp:145. -/
def log_line (now : Clock) (packet : List Nat) : List Char :=
  timestamp_string now ++ ['\t', 'l', 'e', 'n', '='] ++ put_dec packet.length ++ ['\t']
    ++ hex_dump packet ++ ['\n']

/-- The method `RoverRelayLogger::log_packet` of udp_relay.cpp:143-147. -/
def RoverRelayLogger.log_packet (now : Clock) (packet : List Nat) (s : RoverRelayLogger) :
    RoverRelayLogger :=
  if !s.active_ || s.file_.fail then s
  else
    let s := s.put (log_line now packet)
    { s with lines_ := s.lines_ + 1 }

/-- The method `RoverRelayLogger::active` of udp_relay.cpp:149. -/
def RoverRelayLogger.active (s : RoverRelayLogger) : Bool := s.active_

/-- The method `RoverRelayLogger::lines_written` of udp_relay.cpp:150. -/
def RoverRelayLogger.lines_written (s : RoverRelayLogger) : Nat := s.lines_

/-! ## udp_relay.cpp: `UdpRelay` -/

/-- The record `RelayStatus` of udp_relay.hpp:17-21. -/
structure RelayStatus where
  running : Bool := false
  forwarded_packets : Nat := 0
  forwarded_bytes : Nat := 0
deriving DecidableEq, Repr

/-- The program point of the thread that runs `UdpRelay::worker`: not yet entered, blocked in
`recvfrom` (udp_relay.cpp:96) with its locals, or returned. -/
inductive RelayPc where
  | entry
  | recv (sock : Int) (raw_addr proc_addr : sockaddr_in) (buffer : List Nat)
  | done
deriving DecidableEq, Repr

/-- One call `rover_logger_->log_packet(packet)` made by the relay worker: the bytes passed and
the values the two counters had at the moment of the call. -/
structure Handed where
  packet : List Nat
  forwarded_packets : Nat
  forwarded_bytes : Nat
deriving DecidableEq, Repr

/-- The class `UdpRelay` of udp_relay.hpp:25-48. `rover_logger_` is the pointer given at
construction (`none` is the null pointer) with the logger it points to; `open_fds`, `sent` and
`logged` record the descriptors the worker holds open, the `sendto` calls and the messages given
to the application logger, and `handed` the calls of `log_packet` on the capture logger. -/
structure UdpRelay where
  config_ : RelaySettings := {}
  rover_logger_ : Option RoverRelayLogger := none
  running_ : Bool := false
  worker_thread_ : Option RelayPc := none
  forwarded_packets_ : Nat := 0
  forwarded_bytes_ : Nat := 0
  open_fds : List Int := []
  sent : List Sent := []
  logged : List String := []
  handed : List Handed := []

/-- What one return of `recvfrom` brings: the datagram (`none` when the call returns a negative
value), the values the two `sendto` calls will return, and the clock for the capture logger. -/
structure RelayEvent where
  datagram : Option (List Nat)
  send_raw_ret : Int
  send_proc_ret : Int
  now : Clock

/-- The method `UdpRelay::start` of udp_relay.cpp:58-63. Assigning a new thread to a handle
that is still joinable ends the process. -/
def UdpRelay.start (s : UdpRelay) : Outcome UdpRelay :=
  if s.running_ || !s.config_.enable then .returned s
  else
    let s := { s with running_ := true }
    match s.worker_thread_ with
    | some _ => .terminated
    | none =>
      let s := { s with worker_thread_ := some .entry }
      .returned { s with logged := s.logged ++ ["UDP relay started"] }

/-- The method `UdpRelay::status` of udp_relay.cpp:72-75. -/
def UdpRelay.status (s : UdpRelay) : RelayStatus :=
  { running := s.running_, forwarded_packets := s.forwarded_packets_,
    forwarded_bytes := s.forwarded_bytes_ }

/-- The handler `catch (const std::exception& ex)` of udp_relay.cpp:120-123 followed by the
final `close_socket(sock)`. -/
def UdpRelay.worker_catch (what : String) (sock : Int) (s : UdpRelay) : UdpRelay :=
  { s with logged := s.logged ++ ["UDP relay error: " ++ what],
           open_fds := close_socket sock s.open_fds,
           worker_thread_ := some .done }

/-- The test `while (running_)` of udp_relay.cpp:93: the worker blocks in `recvfrom`, or leaves
the loop, closes its socket and returns. -/
def UdpRelay.worker_loop_head (sock : Int) (raw_addr proc_addr : sockaddr_in)
    (buffer : List Nat) (s : UdpRelay) : UdpRelay :=
  if s.running_ then { s with worker_thread_ := some (.recv sock raw_addr proc_addr buffer) }
  else { s with open_fds := close_socket sock s.open_fds, worker_thread_ := some .done }

/-- The method `UdpRelay::worker` of udp_relay.cpp:77-93, from its entry to the first
`recvfrom`. -/
def UdpRelay.worker_entry (sys : Sys) (s : UdpRelay) : UdpRelay :=
  match s.worker_thread_ with
  | some .entry =>
    match create_udp_socket sys with
    | .error what => s.worker_catch what (-1)
    | .ok sock =>
      let s := { s with open_fds := sock :: s.open_fds }
      match make_address sys s.config_.bind_ip (static_cast_uint16 s.config_.bind_port) with
      | .error what => s.worker_catch what sock
      | .ok _ =>
        if sys.udp_bind_ret < 0 then
          let s := { s with logged := s.logged ++ ["Failed to bind UDP relay socket"] }
          let s := { s with running_ := false }
          { s with open_fds := close_socket sock s.open_fds, worker_thread_ := some .done }
        else
          match make_address sys s.config_.raw_ip (static_cast_uint16 s.config_.raw_port) with
          | .error what => s.worker_catch what sock
          | .ok raw_addr =>
            match make_address sys s.config_.proc_ip
                (static_cast_uint16 s.config_.proc_port) with
            | .error what => s.worker_catch what sock
            | .ok proc_addr =>
              let buffer := List.replicate (64 * 1024) 0
              s.worker_loop_head sock raw_addr proc_addr buffer
  | _ => s

/-- The method `UdpRelay::worker` of udp_relay.cpp:96-119: one return of `recvfrom` and the
rest of the loop body, up to the next `recvfrom` or the end of the worker. -/
def UdpRelay.worker_recv (ev : RelayEvent) (s : UdpRelay) : UdpRelay :=
  match s.worker_thread_ with
  | some (.recv sock raw_addr proc_addr buffer) =>
    match ev.datagram with
    | none =>
      -- received < 0: `if (!running_) break; continue;`
      s.worker_loop_head sock raw_addr proc_addr buffer
    | some datagram =>
      let bytes := recv_count buffer datagram
      let buffer := recv_into buffer datagram
      let packet := buffer.take bytes
      let s := { s with sent := s.sent ++ [Sent.mk sock (some raw_addr) packet ev.send_raw_ret] }
      let s := { s with sent := s.sent ++ [Sent.mk sock (some proc_addr) packet ev.send_proc_ret] }
      let s :=
        match s.rover_logger_ with
        | some lg =>
          if lg.active then
            { s with rover_logger_ := some (lg.log_packet ev.now packet),
                     handed := s.handed
                       ++ [Handed.mk packet s.forwarded_packets_ s.forwarded_bytes_] }
          else s
        | none => s
      let s := { s with forwarded_packets_ := s.forwarded_packets_ + 1,
                        forwarded_bytes_ := s.forwarded_bytes_ + packet.length }
      s.worker_loop_head sock raw_addr proc_addr buffer
  | _ => s

/-- The call `worker_thread_.join()`: the worker runs to its end. A worker not yet entered runs
its set-up; a worker blocked in `recvfrom` needs `wake`, one more return of that call, and
without it the join never returns. -/
def UdpRelay.join (sys : Sys) (wake : Option RelayEvent) (s : UdpRelay) : Outcome UdpRelay :=
  let s := s.worker_entry sys
  let s := match wake with
    | some ev => s.worker_recv ev
    | none => s
  match s.worker_thread_ with
  | some .done => .returned { s with worker_thread_ := none }
  | _ => .blocked

/-- The method `UdpRelay::stop` of udp_relay.cpp:65-70. -/
def UdpRelay.stop (sys : Sys) (wake : Option RelayEvent) (s : UdpRelay) : Outcome UdpRelay :=
  if !s.running_ then .returned s
  else
    let s := { s with running_ := false }
    match s.worker_thread_ with
    | some _ =>
      match s.join sys wake with
      | .returned s => .returned { s with logged := s.logged ++ ["UDP relay stopped"] }
      | o => o
    | none => .returned { s with logged := s.logged ++ ["UDP relay stopped"] }

/-! ## gimbal_control.cpp: `GimbalControl` -/

/-- The record `GimbalStatus` of gimbal_control.hpp:14-20. -/
structure GimbalStatus where
  running : Bool := false
  yaw : ℚ := 0
  pitch : ℚ := 0
  roll : ℚ := 0
  zoom : ℚ := 1
deriving DecidableEq, Repr

/-- The program point of the thread that runs `GimbalControl::worker`: not yet entered, inside
the loop before building the packet, asleep after the `sendto`, or returned. -/
inductive GimbalPc where
  | entry
  | cycle (sock : Int) (target : sockaddr_in)
  | sleeping (sock : Int) (target : sockaddr_in)
  | done
deriving DecidableEq, Repr

/-- The class `GimbalControl` of gimbal_control.hpp:22-49, with the descriptors the worker holds
open, the `sendto` calls and the messages given to the application logger. -/
structure GimbalControl where
  config_ : GimbalSettings := {}
  running_ : Bool := false
  worker_thread_ : Option GimbalPc := none
  yaw_ : ℚ := 0
  pitch_ : ℚ := 0
  roll_ : ℚ := 0
  zoom_ : ℚ := 1
  open_fds : List Int := []
  sent : List Sent := []
  logged : List String := []

/-- The method `GimbalControl::start` of gimbal_control.cpp:49-54. -/
def GimbalControl.start (s : GimbalControl) : Outcome GimbalControl :=
  if s.running_ then .returned s
  else
    let s := { s with running_ := true }
    match s.worker_thread_ with
    | some _ => .terminated
    | none =>
      let s := { s with worker_thread_ := some .entry }
      .returned { s with logged := s.logged ++ ["Gimbal control started"] }

/-- The method `GimbalControl::update_pose` of gimbal_control.cpp:63-69. -/
def GimbalControl.update_pose (yaw_deg pitch_deg roll_deg zoom_level : ℚ) (s : GimbalControl) :
    GimbalControl :=
  { s with yaw_ := yaw_deg, pitch_ := pitch_deg, roll_ := roll_deg, zoom_ := zoom_level }

/-- The method `GimbalControl::status` of gimbal_control.cpp:71-74. -/
def GimbalControl.status (s : GimbalControl) : GimbalStatus :=
  { running := s.running_, yaw := s.yaw_, pitch := s.pitch_, roll := s.roll_, zoom := s.zoom_ }

/-- The handler `catch (const std::exception& ex)` of gimbal_control.cpp:91-93 followed by the
final `close_socket(sock)`. -/
def GimbalControl.worker_catch (what : String) (sock : Int) (s : GimbalControl) :
    GimbalControl :=
  { s with logged := s.logged ++ ["Gimbal control error: " ++ what],
           open_fds := close_socket sock s.open_fds,
           worker_thread_ := some .done }

/-- The test `while (running_)` of gimbal_control.cpp:81. -/
def GimbalControl.worker_loop_head (sock : Int) (target : sockaddr_in) (s : GimbalControl) :
    GimbalControl :=
  if s.running_ then { s with worker_thread_ := some (.cycle sock target) }
  else { s with open_fds := close_socket sock s.open_fds, worker_thread_ := some .done }

/-- The method `GimbalControl::worker` of gimbal_control.cpp:76-81, from its entry to the
first test of the loop. -/
def GimbalControl.worker_entry (sys : Sys) (s : GimbalControl) : GimbalControl :=
  match s.worker_thread_ with
  | some .entry =>
    match create_udp_socket sys with
    | .error what => s.worker_catch what (-1)
    | .ok sock =>
      let s := { s with open_fds := sock :: s.open_fds }
      match make_address sys s.config_.generator_ip
          (static_cast_uint16 s.config_.generator_port) with
      | .error what => s.worker_catch what sock
      | .ok target => s.worker_loop_head sock target
  | _ => s

/-- The loop body of gimbal_control.cpp:82-88: the packet is built from the stored pose and
handed to `sendto`, whose return value `send_ret` is not looked at. -/
def GimbalControl.worker_send (send_ret : Int) (s : GimbalControl) : GimbalControl :=
  match s.worker_thread_ with
  | some (.cycle sock target) =>
    let packet := build_packet s.yaw_ s.pitch_ s.roll_ s.zoom_
    { s with sent := s.sent ++ [Sent.mk sock (some target) packet send_ret],
             worker_thread_ := some (.sleeping sock target) }
  | _ => s

/-- The end of the 50 ms sleep of gimbal_control.cpp:89 and the next test of the loop. -/
def GimbalControl.worker_wake (s : GimbalControl) : GimbalControl :=
  match s.worker_thread_ with
  | some (.sleeping sock target) => s.worker_loop_head sock target
  | _ => s

/-- The call `worker_thread_.join()`: the worker runs to its end. -/
def GimbalControl.join (sys : Sys) (send_ret : Int) (s : GimbalControl) :
    Outcome GimbalControl :=
  let s := s.worker_entry sys
  let s := s.worker_send send_ret
  let s := s.worker_wake
  match s.worker_thread_ with
  | some .done => .returned { s with worker_thread_ := none }
  | _ => .blocked

/-- The method `GimbalControl::stop` of gimbal_control.cpp:56-61. -/
def GimbalControl.stop (sys : Sys) (send_ret : Int) (s : GimbalControl) :
    Outcome GimbalControl :=
  if !s.running_ then .returned s
  else
    let s := { s with running_ := false }
    match s.worker_thread_ with
    | some _ =>
      match s.join sys send_ret with
      | .returned s => .returned { s with logged := s.logged ++ ["Gimbal control stopped"] }
      | o => o
    | none => .returned { s with logged := s.logged ++ ["Gimbal control stopped"] }

/-! ## image_stream_bridge.cpp: `ImageStreamBridge` -/

/-- The record `ImageStreamStatus` of image_stream_bridge.hpp:17-23. -/
structure ImageStreamStatus where
  udp_running : Bool := false
  tcp_running : Bool := false
  last_frame_bytes : Nat := 0
  last_frame_time : Nat := 0
  clients : Nat := 0
deriving DecidableEq, Repr

/-- The program point of the thread that runs `udp_loop`: not yet entered, blocked in
`recvfrom` with its buffer, or returned. -/
inductive UdpLoopPc where
  | entry
  | recv (buffer : List Nat)
  | done
deriving DecidableEq, Repr

/-- The program point of the thread that runs `tcp_loop`: not yet entered, blocked in
`accept`, or returned. -/
inductive TcpLoopPc where
  | entry
  | accept
  | done
deriving DecidableEq, Repr

/-- The program point of a detached connection thread: not yet entered, inside its loop, or
returned. -/
inductive ClientPc where
  | entry
  | loop
  | done
deriving DecidableEq, Repr

/-- A detached connection thread of image_stream_bridge.cpp:128-153 with its captured
descriptor. -/
structure Client where
  client_fd : Int
  pc : ClientPc
deriving DecidableEq, Repr

/-- The class `ImageStreamBridge` of image_stream_bridge.hpp:25-53, with the detached
connection threads, the open descriptors, the `send` calls and the messages given to the
application logger. -/
structure ImageStreamBridge where
  config_ : BridgeSettings := {}
  running_ : Bool := false
  udp_socket_ : Int := -1
  tcp_socket_ : Int := -1
  udp_thread_ : Option UdpLoopPc := none
  tcp_thread_ : Option TcpLoopPc := none
  last_frame_ : List Nat := []
  last_frame_time_ : Nat := 0
  tcp_clients_ : Nat := 0
  clients : List Client := []
  open_fds : List Int := []
  sent : List Sent := []
  logged : List String := []

/-- The method `ImageStreamBridge::start` of image_stream_bridge.cpp:27-61. The exceptions
of `create_udp_socket`, `create_tcp_socket` and `make_address` are not caught here. -/
def ImageStreamBridge.start (sys : Sys) (s : ImageStreamBridge) : Outcome ImageStreamBridge :=
  if s.running_ then .returned s
  else
    let s := { s with running_ := true }
    match create_udp_socket sys with
    | .error what => .threw s what
    | .ok fd =>
      let s := { s with udp_socket_ := fd, open_fds := fd :: s.open_fds }
      match make_address sys s.config_.ip (static_cast_uint16 s.config_.udp_port) with
      | .error what => .threw s what
      | .ok _ =>
        if sys.udp_bind_ret < 0 then
          let s := { s with logged := s.logged ++ ["Failed to bind UDP socket for image stream"] }
          let s := { s with open_fds := close_socket s.udp_socket_ s.open_fds }
          let s := { s with udp_socket_ := -1 }
          .returned { s with running_ := false }
        else
          match create_tcp_socket sys with
          | .error what => .threw s what
          | .ok tfd =>
            let s := { s with tcp_socket_ := tfd, open_fds := tfd :: s.open_fds }
            match make_address sys s.config_.ip (static_cast_uint16 s.config_.tcp_port) with
            | .error what => .threw s what
            | .ok _ =>
              if sys.tcp_bind_ret < 0 || sys.listen_ret < 0 then
                let s :=
                  { s with logged := s.logged ++ ["Failed to bind TCP socket for image stream"] }
                let s := { s with open_fds := close_socket s.tcp_socket_ s.open_fds }
                let s := { s with tcp_socket_ := -1 }
                .returned { s with running_ := false }
              else
                match s.udp_thread_, s.tcp_thread_ with
                | none, none =>
                  let s := { s with udp_thread_ := some .entry }
                  let s := { s with tcp_thread_ := some .entry }
                  .returned { s with logged := s.logged ++ ["Image stream bridge started"] }
                | _, _ => .terminated

/-- The method `ImageStreamBridge::status` of image_stream_bridge.cpp:81-90. -/
def ImageStreamBridge.status (s : ImageStreamBridge) : ImageStreamStatus :=
  { udp_running := s.running_ && decide (s.udp_socket_ ≥ 0),
    tcp_running := s.running_ && decide (s.tcp_socket_ ≥ 0),
    last_frame_bytes := s.last_frame_.length,
    last_frame_time := s.last_frame_time_,
    clients := s.tcp_clients_ }

/-- The test `while (running_)` of image_stream_bridge.cpp:94. -/
def ImageStreamBridge.udp_loop_head (buffer : List Nat) (s : ImageStreamBridge) :
    ImageStreamBridge :=
  if s.running_ then { s with udp_thread_ := some (.recv buffer) }
  else { s with udp_thread_ := some .done }

/-- The method `ImageStreamBridge::udp_loop` of image_stream_bridge.cpp:92-94, from its entry
to the first `recvfrom`. -/
def ImageStreamBridge.udp_loop_entry (s : ImageStreamBridge) : ImageStreamBridge :=
  match s.udp_thread_ with
  | some .entry =>
    let buffer := List.replicate (2 * 1024 * 1024) 0
    s.udp_loop_head buffer
  | _ => s

/-- The method `ImageStreamBridge::udp_loop` of image_stream_bridge.cpp:97-110: one return of
`recvfrom` (`none` when it returns a negative value) at clock reading `now`, and the rest of
the loop body. -/
def ImageStreamBridge.udp_loop_recv (datagram : Option (List Nat)) (now : Nat)
    (s : ImageStreamBridge) : ImageStreamBridge :=
  match s.udp_thread_ with
  | some (.recv buffer) =>
    match datagram with
    | none => s.udp_loop_head buffer
    | some d =>
      let bytes := recv_count buffer d
      let buffer := recv_into buffer d
      let s := { s with last_frame_ := buffer.take bytes, last_frame_time_ := now }
      s.udp_loop_head buffer
  | _ => s

/-- The test `while (running_)` of image_stream_bridge.cpp:114. -/
def ImageStreamBridge.tcp_loop_head (s : ImageStreamBridge) : ImageStreamBridge :=
  if s.running_ then { s with tcp_thread_ := some .accept }
  else { s with tcp_thread_ := some .done }

/-- The method `ImageStreamBridge::tcp_loop` of image_stream_bridge.cpp:113-114, from its
entry to the first `accept`. -/
def ImageStreamBridge.tcp_loop_entry (s : ImageStreamBridge) : ImageStreamBridge :=
  match s.tcp_thread_ with
  | some .entry => s.tcp_loop_head
  | _ => s

/-- The method `ImageStreamBridge::tcp_loop` of image_stream_bridge.cpp:117-153: one return of
`accept` with value `client_fd`; a connection gets a detached thread. -/
def ImageStreamBridge.tcp_loop_accept (client_fd : Int) (s : ImageStreamBridge) :
    ImageStreamBridge :=
  match s.tcp_thread_ with
  | some .accept =>
    if client_fd < 0 then s.tcp_loop_head
    else
      let s := { s with open_fds := client_fd :: s.open_fds }
      let s := { s with tcp_clients_ := s.tcp_clients_ + 1 }
      let s := { s with clients := s.clients ++ [Client.mk client_fd .entry] }
      s.tcp_loop_head
  | _ => s

/-- The end of a connection thread, image_stream_bridge.cpp:147-152. -/
def ImageStreamBridge.client_exit (i : Nat) (c : Client) (s : ImageStreamBridge) :
    ImageStreamBridge :=
  let s := { s with open_fds := close_socket c.client_fd s.open_fds }
  let s := if s.tcp_clients_ > 0 then { s with tcp_clients_ := s.tcp_clients_ - 1 } else s
  { s with logged := s.logged ++ ["TCP viewer disconnected"],
           clients := s.clients.set i { c with pc := .done } }

/-- The test `while (running_)` of image_stream_bridge.cpp:130 in connection thread `i`. -/
def ImageStreamBridge.client_loop_head (i : Nat) (c : Client) (s : ImageStreamBridge) :
    ImageStreamBridge :=
  if s.running_ then { s with clients := s.clients.set i { c with pc := .loop } }
  else s.client_exit i c

/-- The entry of connection thread `i`, image_stream_bridge.cpp:129-130. -/
def ImageStreamBridge.client_entry (i : Nat) (s : ImageStreamBridge) : ImageStreamBridge :=
  match s.clients[i]? with
  | some c =>
    match c.pc with
    | .entry =>
      let s := { s with logged := s.logged ++ ["TCP viewer connected"] }
      s.client_loop_head i c
    | _ => s
  | none => s

/-- One pass of the loop body of connection thread `i`, image_stream_bridge.cpp:131-145;
`send_ret` is the value `send` returns when it is called. -/
def ImageStreamBridge.client_iter (i : Nat) (send_ret : Int) (s : ImageStreamBridge) :
    ImageStreamBridge :=
  match s.clients[i]? with
  | some c =>
    match c.pc with
    | .loop =>
      let frame_copy := s.last_frame_
      if frame_copy.isEmpty then s.client_loop_head i c
      else
        let s := { s with sent := s.sent ++ [Sent.mk c.client_fd none frame_copy send_ret] }
        if send_ret < 0 then s.client_exit i c
        else s.client_loop_head i c
    | _ => s
  | none => s

/-- The statement `if (udp_thread_.joinable()) udp_thread_.join();` of
image_stream_bridge.cpp:76: the ingress thread runs to its end. A thread blocked in `recvfrom`
needs `udp_wake`, one more return of that call; without it the join never returns. -/
def ImageStreamBridge.join_udp (udp_wake : Option (Option (List Nat) × Nat))
    (s : ImageStreamBridge) : Outcome ImageStreamBridge :=
  match s.udp_thread_ with
  | none => .returned s
  | some _ =>
    let s := s.udp_loop_entry
    let s := match udp_wake with
      | some (d, now) => s.udp_loop_recv d now
      | none => s
    match s.udp_thread_ with
    | some .done => .returned { s with udp_thread_ := none }
    | _ => .blocked

/-- The statement `if (tcp_thread_.joinable()) tcp_thread_.join();` of
image_stream_bridge.cpp:77: the accept thread runs to its end. A thread blocked in `accept`
needs `tcp_wake`, one more return of that call; without it the join never returns. -/
def ImageStreamBridge.join_tcp (tcp_wake : Option Int) (s : ImageStreamBridge) :
    Outcome ImageStreamBridge :=
  match s.tcp_thread_ with
  | none => .returned s
  | some _ =>
    let s := s.tcp_loop_entry
    let s := match tcp_wake with
      | some fd => s.tcp_loop_accept fd
      | none => s
    match s.tcp_thread_ with
    | some .done => .returned { s with tcp_thread_ := none }
    | _ => .blocked

/-- The method `ImageStreamBridge::stop` of image_stream_bridge.cpp:63-79. -/
def ImageStreamBridge.stop (udp_wake : Option (Option (List Nat) × Nat))
    (tcp_wake : Option Int) (s : ImageStreamBridge) : Outcome ImageStreamBridge :=
  if !s.running_ then .returned s
  else
    let s := { s with running_ := false }
    let s :=
      if s.udp_socket_ ≥ 0 then
        { s with open_fds := close_socket s.udp_socket_ s.open_fds, udp_socket_ := -1 }
      else s
    let s :=
      if s.tcp_socket_ ≥ 0 then
        { s with open_fds := close_socket s.tcp_socket_ s.open_fds, tcp_socket_ := -1 }
      else s
    match s.join_udp udp_wake with
    | .returned s =>
      match s.join_tcp tcp_wake with
      | .returned s =>
        .returned { s with logged := s.logged ++ ["Image stream bridge stopped"] }
      | o => o
    | o => o

/-! ## The capture log format, in the words of the specification -/

/-- The lowercase hexadecimal digit of a value below 16. -/
def hex_digit (d : Nat) : Char := "0123456789abcdef".toList.getD d '?'

/-- A byte as exactly two lowercase hexadecimal digits. -/
def two_hex (b : Nat) : List Char := [hex_digit (b / 16), hex_digit (b % 16)]

/-- The hex dump of the specification: each byte in order as two lowercase hexadecimal
digits, single spaces between bytes, nothing before or after. -/
def spec_hex_dump (p : List Nat) : List Char := List.intercalate [' '] (p.map two_hex)

/-- The log line of the specification: timestamp, TAB, `len=` and the decimal length, TAB, the
hex dump, LF. -/
def spec_log_line (now : Clock) (p : List Nat) : List Char :=
  timestamp_string now ++ ['\t'] ++ ['l', 'e', 'n', '='] ++ Nat.toDigits 10 p.length ++ ['\t']
    ++ spec_hex_dump p ++ ['\n']

/-- A packet is a list of bytes. -/
def is_bytes (p : List Nat) : Prop := ∀ b ∈ p, b < 256

instance (p : List Nat) : Decidable (is_bytes p) := by
  unfold is_bytes; infer_instance

/-- A sequence of `log_packet` calls, each with its clock reading and its packet. -/
def RoverRelayLogger.log_packets (calls : List (Clock × List Nat)) (s : RoverRelayLogger) :
    RoverRelayLogger :=
  calls.foldl (fun s c => s.log_packet c.1 c.2) s

/-- The number of line terminators in the appends made to files. -/
def count_lf (w : List FileWrite) : Nat := (w.map (fun x => x.text.count '\n')).sum

/-! ## Concrete scenarios -/

/-- The state after a call that returned, and `dflt` otherwise. -/
def Outcome.get {σ : Type} (o : Outcome σ) (dflt : σ) : σ :=
  match o with
  | .returned s => s
  | _ => dflt

/-- System calls that all succeed: descriptors 3 and 4, every address parsed as 127.0.0.1. -/
def sys_ok : Sys :=
  { udp_socket_ret := 3, tcp_socket_ret := 4, inet_pton := fun _ => some 2130706433,
    udp_bind_ret := 0, tcp_bind_ret := 0, listen_ret := 0 }

/-- A relay with the default settings, started, whose worker has bound its socket and waits in
`recvfrom`. -/
def relay_listening : UdpRelay := ((UdpRelay.start {}).get {}).worker_entry sys_ok

/-- An image bridge with the default settings, started, whose ingress worker waits in
`recvfrom`. -/
def bridge_listening : ImageStreamBridge :=
  ((ImageStreamBridge.start sys_ok {}).get {}).udp_loop_entry

/-- Whether a call ended the process. -/
def Outcome.is_terminated {σ : Type} : Outcome σ → Bool
  | .terminated => true
  | _ => false

/-- System calls where `bind` and `listen` on the stream socket fail, the rest succeeding. -/
def sys_tcp_bind_fails : Sys := { sys_ok with tcp_bind_ret := -1, listen_ret := -1 }

/-- System calls where `bind` on the datagram socket fails, the rest succeeding. -/
def sys_udp_bind_fails : Sys := { sys_ok with udp_bind_ret := -1 }

/-- System calls where `::socket` fails for datagram sockets. -/
def sys_no_udp_socket : Sys := { sys_ok with udp_socket_ret := -1 }

/-- System calls where `::socket` fails for stream sockets, the rest succeeding. -/
def sys_no_tcp_socket : Sys := { sys_ok with tcp_socket_ret := -1 }

/-- A clock reading used in the scenarios: 2026-01-02 03:04:05.006. -/
def clock0 : Clock := Clock.mk 2026 1 2 3 4 5 6

/-- A relay with the default settings, started, whose worker failed to bind its socket and
returned. -/
def relay_bind_failed : UdpRelay := ((UdpRelay.start {}).get {}).worker_entry sys_udp_bind_fails

/-- A relay whose `enable` setting is false. -/
def relay_disabled : UdpRelay := { config_ := { enable := false } }

/-- A call on the capture logger made while it is inactive: `log_packet`, `stop()`, or a
`start()` in which the directory exists and the file does not open. -/
inductive LoggerCall where
  | log_packet (now : Clock) (packet : List Nat)
  | stop
  | start_failing (now : Clock)
deriving Repr

/-- The effect of one such call. -/
def RoverRelayLogger.call (s : RoverRelayLogger) : LoggerCall → RoverRelayLogger
  | .log_packet now packet => s.log_packet now packet
  | .stop => s.stop
  | .start_failing now => (s.start now true false).get s

/-- The effect of a sequence of such calls. -/
def RoverRelayLogger.calls (cs : List LoggerCall) (s : RoverRelayLogger) : RoverRelayLogger :=
  cs.foldl RoverRelayLogger.call s

/-- The listening relay after it has received and counted the datagram 01 02 03 04. -/
def relay_counted : UdpRelay := relay_listening.worker_recv ⟨some [1, 2, 3, 4], 4, 4, clock0⟩

/-- A datagram of two bytes that arrives while `stop()` waits for the worker. -/
def late_datagram : RelayEvent := ⟨some [9, 9], 2, 2, clock0⟩

/-! ## Fields compared across worker steps -/

/-- The running flag and the pose of `g2` are those of `g`. -/
def GimbalControl.same_data (g g2 : GimbalControl) : Prop :=
  g2.running_ = g.running_ ∧ g2.yaw_ = g.yaw_ ∧ g2.pitch_ = g.pitch_ ∧ g2.roll_ = g.roll_
    ∧ g2.zoom_ = g.zoom_

/-- The running flag and the two socket handles of `b2` are those of `b`. -/
def ImageStreamBridge.same_handles (b b2 : ImageStreamBridge) : Prop :=
  b2.running_ = b.running_ ∧ b2.udp_socket_ = b.udp_socket_ ∧ b2.tcp_socket_ = b.tcp_socket_

/-- The frame buffer and its timestamp in `b2` are those of `b`. -/
def ImageStreamBridge.same_frame (b b2 : ImageStreamBridge) : Prop :=
  b2.last_frame_ = b.last_frame_ ∧ b2.last_frame_time_ = b.last_frame_time_

/-- A wake-up of the ingress thread that brings a datagram. -/
def brings_datagram (udp_wake : Option (Option (List Nat) × Nat)) : Bool :=
  match udp_wake with
  | some (some _, _) => true
  | _ => false

/-- A wake-up of the relay worker that brings a datagram. -/
def relay_brings_datagram (wake : Option RelayEvent) : Bool :=
  match wake with
  | some ev => ev.datagram.isSome
  | none => false

/-! ## The socket addresses the services derive -/

/-- The target address of gimbal_control.cpp:80. The byte order conversion `htons` is left out:
`sin_port` holds the port number. -/
def GimbalControl.target_address (sys : Sys) (s : GimbalControl) : Except String sockaddr_in :=
  make_address sys s.config_.generator_ip (static_cast_uint16 s.config_.generator_port)

/-- The datagram bind address of image_stream_bridge.cpp:32. -/
def ImageStreamBridge.udp_address (sys : Sys) (s : ImageStreamBridge) :
    Except String sockaddr_in :=
  make_address sys s.config_.ip (static_cast_uint16 s.config_.udp_port)

/-- The stream bind address of image_stream_bridge.cpp:48. -/
def ImageStreamBridge.tcp_address (sys : Sys) (s : ImageStreamBridge) :
    Except String sockaddr_in :=
  make_address sys s.config_.ip (static_cast_uint16 s.config_.tcp_port)

/-- The bind address of udp_relay.cpp:81. -/
def UdpRelay.bind_address (sys : Sys) (s : UdpRelay) : Except String sockaddr_in :=
  make_address sys s.config_.bind_ip (static_cast_uint16 s.config_.bind_port)

/-- The raw destination address of udp_relay.cpp:89. -/
def UdpRelay.raw_address (sys : Sys) (s : UdpRelay) : Except String sockaddr_in :=
  make_address sys s.config_.raw_ip (static_cast_uint16 s.config_.raw_port)

/-- The proc destination address of udp_relay.cpp:90. -/
def UdpRelay.proc_address (sys : Sys) (s : UdpRelay) : Except String sockaddr_in :=
  make_address sys s.config_.proc_ip (static_cast_uint16 s.config_.proc_port)

/-! ## settings.hpp and main.cpp: the configuration and its normalisation -/

/-- The record `settings::RoverSettings` of settings.hpp:44-47. -/
structure RoverSettings where
  enable_logging : Bool := false
  log_directory : String := ""

/-- The record `settings::AppConfig` of settings.hpp:49-59; `hud_interval` is a `double`. -/
structure AppConfig where
  bridge : BridgeSettings := {}
  gimbal : GimbalSettings := {}
  relay : RelaySettings := {}
  rover : RoverSettings := {}
  console_hud : Bool := true
  hud_interval : ℚ := 1

/-- The expression `(fs::path(a) / b).string()` for a relative `b`: a separator is put between
the two unless `a` is empty or already ends in one. -/
def join_path (a b : String) : String :=
  if a.isEmpty || a.back == '/' then a ++ b else a ++ "/" ++ b

/-- The normalisation of main.cpp:255-258: relay logging gives way to rover logging. -/
def normalise_logging (config : AppConfig) : AppConfig :=
  if config.relay.log_packets && config.rover.enable_logging then
    { config with relay := { config.relay with log_packets := false } }
  else config

/-- The decision of main.cpp:262-272: `none` when no packet logger is created, and otherwise
the directory the logger is constructed with. -/
def packet_logger_directory (program_dir : String) (config : AppConfig) : Option String :=
  if config.relay.log_packets || config.rover.enable_logging then
    let base :=
      if config.rover.log_directory.isEmpty then join_path program_dir "savedata"
      else config.rover.log_directory
    let base := if config.relay.log_packets then join_path base "gazebo" else join_path base "rover"
    some base
  else none

/-! ## Runs of the image bridge -/

/-- The first part of `ImageStreamBridge::stop`, image_stream_bridge.cpp:64-74, up to the two
joins: the state other threads see while the caller waits. -/
def ImageStreamBridge.stop_signal (s : ImageStreamBridge) : ImageStreamBridge :=
  if !s.running_ then s
  else
    let s := { s with running_ := false }
    let s :=
      if s.udp_socket_ ≥ 0 then
        { s with open_fds := close_socket s.udp_socket_ s.open_fds, udp_socket_ := -1 }
      else s
    if s.tcp_socket_ ≥ 0 then
      { s with open_fds := close_socket s.tcp_socket_ s.open_fds, tcp_socket_ := -1 }
    else s

/-- One step of the image bridge: a call of `start()` or `stop()` by its owner, or a step of
one of its threads. -/
inductive BridgeOp where
  | start (sys : Sys)
  | stop (udp_wake : Option (Option (List Nat) × Nat)) (tcp_wake : Option Int)
  | udp_entry
  | udp_recv (datagram : Option (List Nat)) (now : Nat)
  | tcp_entry
  | tcp_accept (client_fd : Int)
  | client_entry (i : Nat)
  | client_iter (i : Nat) (send_ret : Int)

/-- The state after one step. A `start()` that raises leaves the state it had reached; a
`stop()` that does not return leaves the state it had reached before the joins. -/
def ImageStreamBridge.apply (s : ImageStreamBridge) : BridgeOp → ImageStreamBridge
  | .start sys =>
    match s.start sys with
    | .returned s2 => s2
    | .threw s2 _ => s2
    | _ => s
  | .stop udp_wake tcp_wake =>
    match s.stop udp_wake tcp_wake with
    | .returned s2 => s2
    | _ => s.stop_signal
  | .udp_entry => s.udp_loop_entry
  | .udp_recv datagram now => s.udp_loop_recv datagram now
  | .tcp_entry => s.tcp_loop_entry
  | .tcp_accept client_fd => s.tcp_loop_accept client_fd
  | .client_entry i => s.client_entry i
  | .client_iter i send_ret => s.client_iter i send_ret

/-- The state after a sequence of steps. -/
def ImageStreamBridge.run (ops : List BridgeOp) (s : ImageStreamBridge) : ImageStreamBridge :=
  ops.foldl ImageStreamBridge.apply s

/-- The number of accepted connections whose thread has not returned. -/
def ImageStreamBridge.live_clients (s : ImageStreamBridge) : Nat :=
  s.clients.countP (fun c => c.pc != .done)

/-! ## `log_packet` called from several threads -/

/-- The program point of a call of `log_packet`, udp_relay.cpp:143-147: the test of line 144,
the six insertions of line 145 in their order, the increment of line 146, the return. -/
inductive LogPc where
  | test
  | put_timestamp
  | put_label
  | put_size
  | put_tab
  | put_hex_dump
  | put_newline
  | count
  | done
deriving DecidableEq, Repr

/-- A call of `log_packet` on some thread: its argument, the clock reading that its
`timestamp_string()` gets, and where it stands. -/
structure LogCall where
  now : Clock
  packet : List Nat
  pc : LogPc := .test
deriving DecidableEq, Repr

/-- One step of a call of `log_packet`. The class has no mutex (udp_relay.hpp:65-70) and the
method takes no lock, so the steps of another call may come between any two of these. -/
def RoverRelayLogger.log_packet_step (c : LogCall) (s : RoverRelayLogger) :
    LogCall × RoverRelayLogger :=
  match c.pc with
  | .test =>
    if !s.active_ || s.file_.fail then ({ c with pc := .done }, s)
    else ({ c with pc := .put_timestamp }, s)
  | .put_timestamp => ({ c with pc := .put_label }, s.put (timestamp_string c.now))
  | .put_label => ({ c with pc := .put_size }, s.put ['\t', 'l', 'e', 'n', '='])
  | .put_size => ({ c with pc := .put_tab }, s.put (put_dec c.packet.length))
  | .put_tab => ({ c with pc := .put_hex_dump }, s.put ['\t'])
  | .put_hex_dump => ({ c with pc := .put_newline }, s.put (hex_dump c.packet))
  | .put_newline => ({ c with pc := .count }, s.put ['\n'])
  | .count => ({ c with pc := .done }, { s with lines_ := s.lines_ + 1 })
  | .done => (c, s)

/-- The calls in flight and the logger after thread `t` takes one step. -/
def log_packet_turn (st : List LogCall × RoverRelayLogger) (t : Nat) :
    List LogCall × RoverRelayLogger :=
  match st.1[t]? with
  | some c => (st.1.set t (st.2.log_packet_step c).1, (st.2.log_packet_step c).2)
  | none => st

/-- The calls in flight and the logger after the threads step in the order `sched`. -/
def log_packet_sched (sched : List Nat) (calls : List LogCall) (s : RoverRelayLogger) :
    List LogCall × RoverRelayLogger :=
  sched.foldl log_packet_turn (calls, s)

/-- The calls of `log_packet` with the given clock readings and packets, not yet begun. -/
def fresh_calls (calls : List (Clock × List Nat)) : List LogCall :=
  calls.map (fun c => { now := c.1, packet := c.2 })

/-- The same calls, returned. -/
def done_calls (calls : List (Clock × List Nat)) : List LogCall :=
  calls.map (fun c => { now := c.1, packet := c.2, pc := .done })

/-- The order in which `n` calls do not overlap: each takes its eight steps before the next
begins. -/
def serial_schedule (n : Nat) : List Nat :=
  (List.range n).flatMap (fun t => List.replicate 8 t)

/-- The characters the appends put in the file, in order. -/
def file_text (w : List FileWrite) : List Char := (w.map (fun x => x.text)).flatten

/-! ## json.hpp and json.cpp: `Value` -/

/-- The class `mini_json::Value` of json.hpp:10-48: the variant `data_`. An object, a
`std::map` from strings to values, is the list of its entries, and a number is a `double`. -/
inductive Value where
  | null
  | bool (b : Bool)
  | number (num : ℚ)
  | string (str : String)
  | object (obj : List (String × Value))
  | array (arr : List Value)

/-- The type `Value::Object` of json.hpp:12. -/
abbrev Object := List (String × Value)

/-- The call `obj.find(key)`: the entry's value, `none` for `obj.end()`. -/
def Object.find (obj : Object) (key : String) : Option Value := List.lookup key obj

/-- The call `obj.count(key)` used as a condition. -/
def Object.count (obj : Object) (key : String) : Bool := (obj.find key).isSome

/-- The read `obj[key]`; for a missing key the map supplies a default-constructed value. -/
def Object.index (obj : Object) (key : String) : Value := (obj.find key).getD .null

/-- The assignment `obj[key] = v`: the entry is replaced, or added when there is none. -/
def Object.assign (obj : Object) (key : String) (v : Value) : Object :=
  if obj.count key then obj.map (fun e => if e.1 == key then (key, v) else e)
  else obj ++ [(key, v)]

/-- The call `obj.emplace(key, v)`: an entry is added only when the key has none. -/
def Object.emplace (obj : Object) (key : String) (v : Value) : Object :=
  if obj.count key then obj else obj ++ [(key, v)]

/-- The method `Value::is_object` of json.cpp:266. -/
def Value.is_object : Value → Bool
  | .object _ => true
  | _ => false

/-- The method `Value::as_bool` of json.cpp:269-274. -/
def Value.as_bool (v : Value) (fallback : Bool) : Bool :=
  match v with
  | .bool b => b
  | _ => fallback

/-- The method `Value::as_number` of json.cpp:276-281. -/
def Value.as_number (v : Value) (fallback : ℚ) : ℚ :=
  match v with
  | .number num => num
  | _ => fallback

/-- The method `Value::as_string` of json.cpp:283-288. -/
def Value.as_string (v : Value) (fallback : String) : String :=
  match v with
  | .string str => str
  | _ => fallback

/-- The method `Value::as_object` of json.cpp:290-293. -/
def Value.as_object (v : Value) : Except String Object :=
  if !v.is_object then .error "JSON value is not an object"
  else
    match v with
    | .object obj => .ok obj
    | _ => .error "bad_variant_access"

/-! ## settings.cpp: `AppConfig::to_json` and `AppConfig::from_json` -/

/-- The function `object_or` of settings.cpp:29-34. -/
def object_or (value : Value) : Except String Object :=
  if value.is_object then value.as_object else .ok []

/-- The conversion `static_cast<double>(n)` of an `int`. -/
def static_cast_double (n : Int) : ℚ := (n : ℚ)

/-- The method `AppConfig::to_json` of settings.cpp:42-87. -/
def AppConfig.to_json (c : AppConfig) : Value :=
  let root : Object := []
  let bridge_obj : Object := []
  let bridge_obj := bridge_obj.assign "ip" (.string c.bridge.ip)
  let bridge_obj := bridge_obj.assign "tcp_port" (.number (static_cast_double c.bridge.tcp_port))
  let bridge_obj := bridge_obj.assign "udp_port" (.number (static_cast_double c.bridge.udp_port))
  let bridge_obj := bridge_obj.assign "realtime_dir" (.string c.bridge.realtime_dir)
  let bridge_obj := bridge_obj.assign "predefined_dir" (.string c.bridge.predefined_dir)
  let bridge_obj := bridge_obj.assign "image_source_mode" (.string c.bridge.image_source_mode)
  let bridge_obj := bridge_obj.assign "console_echo" (.bool c.bridge.console_echo)
  let bridge_obj := bridge_obj.assign "show_hud" (.bool c.bridge.show_hud)
  let gimbal_obj : Object := []
  let gimbal_obj := gimbal_obj.assign "bind_ip" (.string c.gimbal.bind_ip)
  let gimbal_obj := gimbal_obj.assign "bind_port" (.number (static_cast_double c.gimbal.bind_port))
  let gimbal_obj := gimbal_obj.assign "generator_ip" (.string c.gimbal.generator_ip)
  let gimbal_obj :=
    gimbal_obj.assign "generator_port" (.number (static_cast_double c.gimbal.generator_port))
  let gimbal_obj :=
    gimbal_obj.assign "sensor_type" (.number (static_cast_double c.gimbal.sensor_type))
  let gimbal_obj := gimbal_obj.assign "sensor_id" (.number (static_cast_double c.gimbal.sensor_id))
  let gimbal_obj := gimbal_obj.assign "gimbal_control_method" (.string c.gimbal.control_method)
  let gimbal_obj := gimbal_obj.assign "show_packets" (.bool c.gimbal.show_packets)
  let relay_obj : Object := []
  let relay_obj := relay_obj.assign "bind_ip" (.string c.relay.bind_ip)
  let relay_obj := relay_obj.assign "bind_port" (.number (static_cast_double c.relay.bind_port))
  let relay_obj := relay_obj.assign "raw_ip" (.string c.relay.raw_ip)
  let relay_obj := relay_obj.assign "raw_port" (.number (static_cast_double c.relay.raw_port))
  let relay_obj := relay_obj.assign "proc_ip" (.string c.relay.proc_ip)
  let relay_obj := relay_obj.assign "proc_port" (.number (static_cast_double c.relay.proc_port))
  let relay_obj := relay_obj.assign "enable" (.bool c.relay.enable)
  let relay_obj := relay_obj.assign "log_packets" (.bool c.relay.log_packets)
  let rover_obj : Object := []
  let rover_obj := rover_obj.assign "enable_logging" (.bool c.rover.enable_logging)
  let rover_obj := rover_obj.assign "log_directory" (.string c.rover.log_directory)
  let root := root.assign "bridge" (.object bridge_obj)
  let root := root.assign "gimbal" (.object gimbal_obj)
  let root := root.assign "relay" (.object relay_obj)
  let root := root.assign "rover" (.object rover_obj)
  let root := root.assign "console_hud" (.bool c.console_hud)
  let root := root.assign "hud_interval" (.number c.hud_interval)
  .object root

/-- The block of settings.cpp:101-110 on the `bridge` section; each line
`if (bridge_obj.count(k)) cfg.bridge.f = bridge_obj[k].as_..(cfg.bridge.f);` assigns one field. -/
def from_json_bridge (bridge_obj : Object) (cfg : AppConfig) : AppConfig :=
  if !bridge_obj.isEmpty then
    let cfg := { cfg with bridge := { cfg.bridge with
      ip :=
        if bridge_obj.count "ip" then
          (bridge_obj.index "ip").as_string cfg.bridge.ip
        else cfg.bridge.ip } }
    let cfg := { cfg with bridge := { cfg.bridge with
      tcp_port :=
        if bridge_obj.count "tcp_port" then
          static_cast_int32
            ((bridge_obj.index "tcp_port").as_number (static_cast_double cfg.bridge.tcp_port))
        else cfg.bridge.tcp_port } }
    let cfg := { cfg with bridge := { cfg.bridge with
      udp_port :=
        if bridge_obj.count "udp_port" then
          static_cast_int32
            ((bridge_obj.index "udp_port").as_number (static_cast_double cfg.bridge.udp_port))
        else cfg.bridge.udp_port } }
    let cfg := { cfg with bridge := { cfg.bridge with
      realtime_dir :=
        if bridge_obj.count "realtime_dir" then
          (bridge_obj.index "realtime_dir").as_string cfg.bridge.realtime_dir
        else cfg.bridge.realtime_dir } }
    let cfg := { cfg with bridge := { cfg.bridge with
      predefined_dir :=
        if bridge_obj.count "predefined_dir" then
          (bridge_obj.index "predefined_dir").as_string cfg.bridge.predefined_dir
        else cfg.bridge.predefined_dir } }
    let cfg := { cfg with bridge := { cfg.bridge with
      image_source_mode :=
        if bridge_obj.count "image_source_mode" then
          (bridge_obj.index "image_source_mode").as_string cfg.bridge.image_source_mode
        else cfg.bridge.image_source_mode } }
    let cfg := { cfg with bridge := { cfg.bridge with
      console_echo :=
        if bridge_obj.count "console_echo" then
          (bridge_obj.index "console_echo").as_bool cfg.bridge.console_echo
        else cfg.bridge.console_echo } }
    let cfg := { cfg with bridge := { cfg.bridge with
      show_hud :=
        if bridge_obj.count "show_hud" then
          (bridge_obj.index "show_hud").as_bool cfg.bridge.show_hud
        else cfg.bridge.show_hud } }
    cfg
  else cfg

/-- The block of settings.cpp:114-123 on the `gimbal` section; each line
`if (gimbal_obj.count(k)) cfg.gimbal.f = gimbal_obj[k].as_..(cfg.gimbal.f);` assigns one field. -/
def from_json_gimbal (gimbal_obj : Object) (cfg : AppConfig) : AppConfig :=
  if !gimbal_obj.isEmpty then
    let cfg := { cfg with gimbal := { cfg.gimbal with
      bind_ip :=
        if gimbal_obj.count "bind_ip" then
          (gimbal_obj.index "bind_ip").as_string cfg.gimbal.bind_ip
        else cfg.gimbal.bind_ip } }
    let cfg := { cfg with gimbal := { cfg.gimbal with
      bind_port :=
        if gimbal_obj.count "bind_port" then
          static_cast_int32
            ((gimbal_obj.index "bind_port").as_number (static_cast_double cfg.gimbal.bind_port))
        else cfg.gimbal.bind_port } }
    let cfg := { cfg with gimbal := { cfg.gimbal with
      generator_ip :=
        if gimbal_obj.count "generator_ip" then
          (gimbal_obj.index "generator_ip").as_string cfg.gimbal.generator_ip
        else cfg.gimbal.generator_ip } }
    let cfg := { cfg with gimbal := { cfg.gimbal with
      generator_port :=
        if gimbal_obj.count "generator_port" then
          static_cast_int32
            ((gimbal_obj.index "generator_port").as_number (static_cast_double cfg.gimbal.generator_port))
        else cfg.gimbal.generator_port } }
    let cfg := { cfg with gimbal := { cfg.gimbal with
      sensor_type :=
        if gimbal_obj.count "sensor_type" then
          static_cast_int32
            ((gimbal_obj.index "sensor_type").as_number (static_cast_double cfg.gimbal.sensor_type))
        else cfg.gimbal.sensor_type } }
    let cfg := { cfg with gimbal := { cfg.gimbal with
      sensor_id :=
        if gimbal_obj.count "sensor_id" then
          static_cast_int32
            ((gimbal_obj.index "sensor_id").as_number (static_cast_double cfg.gimbal.sensor_id))
        else cfg.gimbal.sensor_id } }
    let cfg := { cfg with gimbal := { cfg.gimbal with
      control_method :=
        if gimbal_obj.count "gimbal_control_method" then
          (gimbal_obj.index "gimbal_control_method").as_string cfg.gimbal.control_method
        else cfg.gimbal.control_method } }
    let cfg := { cfg with gimbal := { cfg.gimbal with
      show_packets :=
        if gimbal_obj.count "show_packets" then
          (gimbal_obj.index "show_packets").as_bool cfg.gimbal.show_packets
        else cfg.gimbal.show_packets } }
    cfg
  else cfg

/-- The block of settings.cpp:127-136 on the `relay` section; each line
`if (relay_obj.count(k)) cfg.relay.f = relay_obj[k].as_..(cfg.relay.f);` assigns one field. -/
def from_json_relay (relay_obj : Object) (cfg : AppConfig) : AppConfig :=
  if !relay_obj.isEmpty then
    let cfg := { cfg with relay := { cfg.relay with
      bind_ip :=
        if relay_obj.count "bind_ip" then
          (relay_obj.index "bind_ip").as_string cfg.relay.bind_ip
        else cfg.relay.bind_ip } }
    let cfg := { cfg with relay := { cfg.relay with
      bind_port :=
        if relay_obj.count "bind_port" then
          static_cast_int32
            ((relay_obj.index "bind_port").as_number (static_cast_double cfg.relay.bind_port))
        else cfg.relay.bind_port } }
    let cfg := { cfg with relay := { cfg.relay with
      raw_ip :=
        if relay_obj.count "raw_ip" then
          (relay_obj.index "raw_ip").as_string cfg.relay.raw_ip
        else cfg.relay.raw_ip } }
    let cfg := { cfg with relay := { cfg.relay with
      raw_port :=
        if relay_obj.count "raw_port" then
          static_cast_int32
            ((relay_obj.index "raw_port").as_number (static_cast_double cfg.relay.raw_port))
        else cfg.relay.raw_port } }
    let cfg := { cfg with relay := { cfg.relay with
      proc_ip :=
        if relay_obj.count "proc_ip" then
          (relay_obj.index "proc_ip").as_string cfg.relay.proc_ip
        else cfg.relay.proc_ip } }
    let cfg := { cfg with relay := { cfg.relay with
      proc_port :=
        if relay_obj.count "proc_port" then
          static_cast_int32
            ((relay_obj.index "proc_port").as_number (static_cast_double cfg.relay.proc_port))
        else cfg.relay.proc_port } }
    let cfg := { cfg with relay := { cfg.relay with
      enable :=
        if relay_obj.count "enable" then
          (relay_obj.index "enable").as_bool cfg.relay.enable
        else cfg.relay.enable } }
    let cfg := { cfg with relay := { cfg.relay with
      log_packets :=
        if relay_obj.count "log_packets" then
          (relay_obj.index "log_packets").as_bool cfg.relay.log_packets
        else cfg.relay.log_packets } }
    cfg
  else cfg

/-- The block of settings.cpp:140-143 on the `rover` section; each line
`if (rover_obj.count(k)) cfg.rover.f = rover_obj[k].as_..(cfg.rover.f);` assigns one field. -/
def from_json_rover (rover_obj : Object) (cfg : AppConfig) : AppConfig :=
  if !rover_obj.isEmpty then
    let cfg := { cfg with rover := { cfg.rover with
      enable_logging :=
        if rover_obj.count "enable_logging" then
          (rover_obj.index "enable_logging").as_bool cfg.rover.enable_logging
        else cfg.rover.enable_logging } }
    let cfg := { cfg with rover := { cfg.rover with
      log_directory :=
        if rover_obj.count "log_directory" then
          (rover_obj.index "log_directory").as_string cfg.rover.log_directory
        else cfg.rover.log_directory } }
    cfg
  else cfg

/-- The expression `it != root.end() ? object_or(it->second) : Object{}` of settings.cpp:100,
113, 126 and 139. -/
def section_object (root : Object) (key : String) : Except String Object :=
  match root.find key with
  | some v => object_or v
  | none => .ok []

/-- The method `AppConfig::from_json` of settings.cpp:89-149. -/
def AppConfig.from_json (value : Value) (base_dir : String) : Except String AppConfig :=
  let cfg : AppConfig := {}
  let cfg := { cfg with bridge := { cfg.bridge with
    realtime_dir := join_path base_dir "SaveFile" } }
  let cfg := { cfg with bridge := { cfg.bridge with
    predefined_dir := join_path base_dir "PreDefinedImageSet" } }
  let cfg := { cfg with rover := { cfg.rover with log_directory := join_path base_dir "savedata" } }
  if !value.is_object then .ok cfg
  else
    match value.as_object with
    | .error what => .error what
    | .ok root =>
      match section_object root "bridge" with
      | .error what => .error what
      | .ok bridge_obj =>
        let cfg := from_json_bridge bridge_obj cfg
        match section_object root "gimbal" with
        | .error what => .error what
        | .ok gimbal_obj =>
          let cfg := from_json_gimbal gimbal_obj cfg
          match section_object root "relay" with
          | .error what => .error what
          | .ok relay_obj =>
            let cfg := from_json_relay relay_obj cfg
            match section_object root "rover" with
            | .error what => .error what
            | .ok rover_obj =>
              let cfg := from_json_rover rover_obj cfg
              let cfg := match root.find "console_hud" with
                | some v => { cfg with console_hud := v.as_bool cfg.console_hud }
                | none => cfg
              let cfg := match root.find "hud_interval" with
                | some v => { cfg with hud_interval := v.as_number cfg.hud_interval }
                | none => cfg
              .ok cfg

/-- The method `ConfigManager::defaults` of settings.cpp:153-159. -/
def ConfigManager.defaults (base_dir : String) : AppConfig :=
  let cfg : AppConfig := {}
  let cfg := { cfg with bridge := { cfg.bridge with
    realtime_dir := join_path base_dir "SaveFile" } }
  let cfg := { cfg with bridge := { cfg.bridge with
    predefined_dir := join_path base_dir "PreDefinedImageSet" } }
  { cfg with rover := { cfg.rover with log_directory := join_path base_dir "savedata" } }

/-! ## The fallback of `from_json`, in the words of the specification -/

/-- The value supplied for `key` of section `sect`: present when the document is an object,
the section is there and is an object, and the key is in it. -/
def supplied (v : Value) (sect key : String) : Option Value :=
  match v with
  | .object root =>
    match List.lookup sect root with
    | some (.object sec) => List.lookup key sec
    | _ => none
  | _ => none

/-- The value supplied for a top-level `key`. -/
def supplied_top (v : Value) (key : String) : Option Value :=
  match v with
  | .object root => List.lookup key root
  | _ => none

/-- A text field: the supplied value when it is a string, and otherwise the default. -/
def spec_string (x : Option Value) (dflt : String) : String :=
  match x with
  | some (.string s) => s
  | _ => dflt

/-- A flag: the supplied value when it is a boolean, and otherwise the default. -/
def spec_bool (x : Option Value) (dflt : Bool) : Bool :=
  match x with
  | some (.bool b) => b
  | _ => dflt

/-- A number field: the supplied value when it is a number, and otherwise the default. -/
def spec_number (x : Option Value) (dflt : ℚ) : ℚ :=
  match x with
  | some (.number n) => n
  | _ => dflt

/-- An integer field: the supplied number converted to `int`, and otherwise the default. -/
def spec_int (x : Option Value) (dflt : Int) : Int :=
  match x with
  | some (.number n) => static_cast_int32 n
  | _ => dflt

/-- The configuration the specification describes for a document `v`: field by field, the
supplied value of the right type, and otherwise the default of `base_dir`. -/
def spec_from_json (v : Value) (base_dir : String) : AppConfig :=
  let d := ConfigManager.defaults base_dir
  { bridge :=
      { ip := spec_string (supplied v "bridge" "ip") d.bridge.ip,
        tcp_port := spec_int (supplied v "bridge" "tcp_port") d.bridge.tcp_port,
        udp_port := spec_int (supplied v "bridge" "udp_port") d.bridge.udp_port,
        realtime_dir := spec_string (supplied v "bridge" "realtime_dir") d.bridge.realtime_dir,
        predefined_dir :=
          spec_string (supplied v "bridge" "predefined_dir") d.bridge.predefined_dir,
        image_source_mode :=
          spec_string (supplied v "bridge" "image_source_mode") d.bridge.image_source_mode,
        console_echo := spec_bool (supplied v "bridge" "console_echo") d.bridge.console_echo,
        show_hud := spec_bool (supplied v "bridge" "show_hud") d.bridge.show_hud },
    gimbal :=
      { bind_ip := spec_string (supplied v "gimbal" "bind_ip") d.gimbal.bind_ip,
        bind_port := spec_int (supplied v "gimbal" "bind_port") d.gimbal.bind_port,
        generator_ip := spec_string (supplied v "gimbal" "generator_ip") d.gimbal.generator_ip,
        generator_port :=
          spec_int (supplied v "gimbal" "generator_port") d.gimbal.generator_port,
        sensor_type := spec_int (supplied v "gimbal" "sensor_type") d.gimbal.sensor_type,
        sensor_id := spec_int (supplied v "gimbal" "sensor_id") d.gimbal.sensor_id,
        control_method :=
          spec_string (supplied v "gimbal" "gimbal_control_method") d.gimbal.control_method,
        show_packets := spec_bool (supplied v "gimbal" "show_packets") d.gimbal.show_packets },
    relay :=
      { bind_ip := spec_string (supplied v "relay" "bind_ip") d.relay.bind_ip,
        bind_port := spec_int (supplied v "relay" "bind_port") d.relay.bind_port,
        raw_ip := spec_string (supplied v "relay" "raw_ip") d.relay.raw_ip,
        raw_port := spec_int (supplied v "relay" "raw_port") d.relay.raw_port,
        proc_ip := spec_string (supplied v "relay" "proc_ip") d.relay.proc_ip,
        proc_port := spec_int (supplied v "relay" "proc_port") d.relay.proc_port,
        enable := spec_bool (supplied v "relay" "enable") d.relay.enable,
        log_packets := spec_bool (supplied v "relay" "log_packets") d.relay.log_packets },
    rover :=
      { enable_logging :=
          spec_bool (supplied v "rover" "enable_logging") d.rover.enable_logging,
        log_directory := spec_string (supplied v "rover" "log_directory") d.rover.log_directory },
    console_hud := spec_bool (supplied_top v "console_hud") d.console_hud,
    hud_interval := spec_number (supplied_top v "hud_interval") d.hud_interval }

/-- Every `int` field of a configuration holds a value of the type `int`. -/
def AppConfig.ints_fit (c : AppConfig) : Prop :=
  fits_int32 c.bridge.tcp_port ∧ fits_int32 c.bridge.udp_port ∧ fits_int32 c.gimbal.bind_port
    ∧ fits_int32 c.gimbal.generator_port ∧ fits_int32 c.gimbal.sensor_type
    ∧ fits_int32 c.gimbal.sensor_id ∧ fits_int32 c.relay.bind_port
    ∧ fits_int32 c.relay.raw_port ∧ fits_int32 c.relay.proc_port

/-! ## json.cpp: `Parser`, `escape_string` and `parse` -/

/-- The result of a method of `Parser`: it returned `value` and left `pos_` at `pos`; it raised
an exception with `pos_` at `pos`; it read `text_` at an index at or beyond the length of the
text; or it used up the steps it was given. -/
inductive Res (α : Type) where
  | ok (value : α) (pos : Nat)
  | error (what : String) (pos : Nat)
  | out_of_bounds
  | out_of_fuel

/-- One parser step followed by another. -/
def Res.bind {α β : Type} (r : Res α) (f : α → Nat → Res β) : Res β :=
  match r with
  | .ok value pos => f value pos
  | .error what pos => .error what pos
  | .out_of_bounds => .out_of_bounds
  | .out_of_fuel => .out_of_fuel

/-- The library function `std::isspace` in the "C" locale. -/
def isspace (ch : Char) : Bool :=
  ch == ' ' || ch == '\t' || ch == '\n' || ch == '\x0b' || ch == '\x0c' || ch == '\r'

/-- The library function `std::isdigit`. -/
def isdigit (ch : Char) : Bool := decide ('0' ≤ ch) && decide (ch ≤ '9')

/-- The read `text_[i]`. -/
def text_at (text : List Char) (i : Nat) : Option Char := text[i]?

/-- The method `Parser::eof` of json.cpp:195. -/
def eof (text : List Char) (pos : Nat) : Bool := decide (pos ≥ text.length)

/-- The method `Parser::peek` of json.cpp:196. -/
def peek (text : List Char) (pos : Nat) : Res Char :=
  if eof text pos then .ok (Char.ofNat 0) pos
  else
    match text_at text pos with
    | some ch => .ok ch pos
    | none => .out_of_bounds

/-- The method `Parser::advance` of json.cpp:197. -/
def advance (text : List Char) (pos : Nat) : Res Char :=
  match text_at text pos with
  | some ch => .ok ch (pos + 1)
  | none => .out_of_bounds

/-- The method `Parser::match` of json.cpp:199-206; `compare` raises `std::out_of_range` for a
position beyond the length. -/
def match_ (text : List Char) (token : List Char) (pos : Nat) : Res Bool :=
  let len := token.length
  if pos > text.length then .error "basic_string::compare" pos
  else if (text.drop pos).take len = token then .ok true (pos + len)
  else .ok false pos

/-- The method `Parser::expect(const char*)` of json.cpp:208-212. -/
def expect (text : List Char) (token : List Char) (pos : Nat) : Res Unit :=
  (match_ text token pos).bind fun matched pos =>
    if !matched then .error "Unexpected token in JSON input" pos else .ok () pos

/-- The method `Parser::expect(char)` of json.cpp:214-219. -/
def expect_char (text : List Char) (token : Char) (pos : Nat) : Res Unit :=
  if eof text pos then .error "Unexpected character in JSON input" pos
  else
    match text_at text pos with
    | none => .out_of_bounds
    | some ch =>
      if ch ≠ token then .error "Unexpected character in JSON input" pos
      else .ok () (pos + 1)

/-- The condition `!eof() && p(peek())` of the loops and tests of json.cpp:58-72 and 190. -/
def not_eof_and (text : List Char) (p : Char → Bool) (pos : Nat) : Res Bool :=
  if eof text pos then .ok false pos
  else (peek text pos).bind fun ch pos => .ok (p ch) pos

/-- The loop of `Parser::skip_ws`, json.cpp:190-192. -/
def skip_ws_loop (text : List Char) : Nat → Nat → Res Unit
  | 0, _ => .out_of_fuel
  | fuel + 1, pos =>
    (not_eof_and text isspace pos).bind fun go pos =>
      if go then (advance text pos).bind fun _ pos => skip_ws_loop text fuel pos
      else .ok () pos

/-- The method `Parser::skip_ws` of json.cpp:189-193. -/
def skip_ws (text : List Char) (pos : Nat) : Res Unit :=
  skip_ws_loop text (text.length + 1) pos

/-- The method `Parser::parse_null` of json.cpp:42-45. -/
def parse_null (text : List Char) (pos : Nat) : Res Value :=
  (expect text ['n', 'u', 'l', 'l'] pos).bind fun _ pos => .ok .null pos

/-- The method `Parser::parse_bool` of json.cpp:47-53. -/
def parse_bool (text : List Char) (pos : Nat) : Res Value :=
  (match_ text ['t', 'r', 'u', 'e'] pos).bind fun matched pos =>
    if matched then .ok (.bool true) pos
    else (expect text ['f', 'a', 'l', 's', 'e'] pos).bind fun _ pos => .ok (.bool false) pos

/-- The loop `while (!eof() && std::isdigit(peek())) advance();` of json.cpp:58-60, 63-65 and
72-74. -/
def digits_loop (text : List Char) : Nat → Nat → Res Unit
  | 0, _ => .out_of_fuel
  | fuel + 1, pos =>
    (not_eof_and text isdigit pos).bind fun go pos =>
      if go then (advance text pos).bind fun _ pos => digits_loop text fuel pos
      else .ok () pos

/-- The method `Parser::parse_number` of json.cpp:55-78. The library function `std::stod` is
the parameter `stod`; it raises an exception where it returns an error. -/
def parse_number (stod : List Char → Except String ℚ) (text : List Char) (pos : Nat) :
    Res Value :=
  let start := pos
  (peek text pos).bind fun ch pos =>
  (if ch = '-' then (advance text pos).bind fun _ pos => .ok () pos
    else .ok () pos).bind fun _ pos =>
  (digits_loop text (text.length + 1) pos).bind fun _ pos =>
  (not_eof_and text (fun ch => ch == '.') pos).bind fun dot pos =>
  (if dot then
      (advance text pos).bind fun _ pos => digits_loop text (text.length + 1) pos
    else .ok () pos).bind fun _ pos =>
  (not_eof_and text (fun ch => ch == 'e' || ch == 'E') pos).bind fun exp pos =>
  (if exp then
      (advance text pos).bind fun _ pos =>
      (not_eof_and text (fun ch => ch == '+' || ch == '-') pos).bind fun sign pos =>
      (if sign then (advance text pos).bind fun _ pos => .ok () pos
        else .ok () pos).bind fun _ pos =>
      digits_loop text (text.length + 1) pos
    else .ok () pos).bind fun _ pos =>
  match stod ((text.drop start).take (pos - start)) with
  | .ok value => .ok (.number value) pos
  | .error what => .error what pos

/-- The value of a hexadecimal digit. -/
def hex_value (ch : Char) : Option Nat :=
  if '0' ≤ ch ∧ ch ≤ '9' then some (ch.toNat - 48)
  else if 'a' ≤ ch ∧ ch ≤ 'f' then some (ch.toNat - 87)
  else if 'A' ≤ ch ∧ ch ≤ 'F' then some (ch.toNat - 55)
  else none

/-- The library call `std::stoi(str, nullptr, 16)`: white space, an optional sign and an
optional `0x` are passed over and the longest run of hexadecimal digits is read; the call
raises `std::invalid_argument` when there is no digit and `std::out_of_range` when the
value is no `int`. -/
def stoi_hex (str : List Char) : Except String Int :=
  let s := str.dropWhile isspace
  let neg := s.head? = some '-'
  let s := if s.head? = some '-' ∨ s.head? = some '+' then s.drop 1 else s
  let s :=
    match s with
    | '0' :: x :: d :: rest =>
      if (x = 'x' ∨ x = 'X') ∧ (hex_value d).isSome then d :: rest else s
    | _ => s
  let ds := s.takeWhile (fun ch => (hex_value ch).isSome)
  if ds.isEmpty then .error "stoi"
  else
    let v : Int := ds.foldl (fun acc ch => acc * 16 + ((hex_value ch).getD 0 : Nat)) 0
    let v := if neg then -v else v
    if fits_int32 v then .ok v else .error "stoi"

/-- The conversion `static_cast<char16_t>(n)` of an `int`. -/
def static_cast_char16 (n : Int) : Nat := (n % 65536).toNat

/-- The bytes written for a code unit, json.cpp:109-118. -/
def put_code (code : Nat) : List Char :=
  if code < 0x80 then [Char.ofNat code]
  else if code < 0x800 then
    [Char.ofNat (0xC0 ||| ((code >>> 6) &&& 0x1F)), Char.ofNat (0x80 ||| (code &&& 0x3F))]
  else
    [Char.ofNat (0xE0 ||| ((code >>> 12) &&& 0x0F)),
      Char.ofNat (0x80 ||| ((code >>> 6) &&& 0x3F)), Char.ofNat (0x80 ||| (code &&& 0x3F))]

/-- The loop of json.cpp:104-107, `n` passes left: four characters are taken. -/
def read_hex (text : List Char) : Nat → List Char → Nat → Res (List Char)
  | 0, hex, pos => .ok hex pos
  | n + 1, hex, pos =>
    if eof text pos then .error "Invalid unicode escape" pos
    else (advance text pos).bind fun ch pos => read_hex text n (hex ++ [ch]) pos

/-- The switch of json.cpp:93-123 on the character after a backslash: the characters put in
`oss`. -/
def parse_escape (text : List Char) (esc : Char) (pos : Nat) : Res (List Char) :=
  if esc = '"' then .ok ['"'] pos
  else if esc = '\\' then .ok ['\\'] pos
  else if esc = '/' then .ok ['/'] pos
  else if esc = 'b' then .ok ['\x08'] pos
  else if esc = 'f' then .ok ['\x0c'] pos
  else if esc = 'n' then .ok ['\n'] pos
  else if esc = 'r' then .ok ['\r'] pos
  else if esc = 't' then .ok ['\t'] pos
  else if esc = 'u' then
    (read_hex text 4 [] pos).bind fun hex pos =>
      match stoi_hex hex with
      | .error what => .error what pos
      | .ok n => .ok (put_code (static_cast_char16 n)) pos
  else .error "Unknown escape sequence" pos

/-- The loop of `Parser::parse_string`, json.cpp:83-128. -/
def parse_string_loop (text : List Char) : Nat → List Char → Nat → Res Value
  | 0, _, _ => .out_of_fuel
  | fuel + 1, oss, pos =>
    if eof text pos then .error "Unterminated string literal" pos
    else
      (advance text pos).bind fun ch pos =>
        if ch = '"' then .ok (.string (String.mk oss)) pos
        else if ch = '\\' then
          if eof text pos then .error "Invalid escape sequence" pos
          else
            (advance text pos).bind fun esc pos =>
            (parse_escape text esc pos).bind fun put pos =>
              parse_string_loop text fuel (oss ++ put) pos
        else parse_string_loop text fuel (oss ++ [ch]) pos

/-- The method `Parser::parse_string` of json.cpp:80-129. -/
def parse_string (text : List Char) (pos : Nat) : Res Value :=
  (expect_char text '"' pos).bind fun _ pos =>
    parse_string_loop text (text.length + 1) [] pos

/-- The loop of `Parser::parse_array`, json.cpp:139-152; `pv` is `parse_value`. -/
def parse_array_loop (text : List Char) (pv : Nat → Res Value) :
    Nat → List Value → Nat → Res Value
  | 0, _, _ => .out_of_fuel
  | fuel + 1, arr, pos =>
    (pv pos).bind fun v pos =>
    let arr := arr ++ [v]
    (skip_ws text pos).bind fun _ pos =>
    (peek text pos).bind fun ch pos =>
      if ch = ',' then
        (advance text pos).bind fun _ pos =>
        (skip_ws text pos).bind fun _ pos => parse_array_loop text pv fuel arr pos
      else
        (peek text pos).bind fun ch pos =>
          if ch = ']' then (advance text pos).bind fun _ pos => .ok (.array arr) pos
          else .error "Expected ',' or ']'" pos

/-- The method `Parser::parse_array` of json.cpp:131-154; `pv` is `parse_value`. -/
def parse_array (text : List Char) (pv : Nat → Res Value) (pos : Nat) : Res Value :=
  (expect_char text '[' pos).bind fun _ pos =>
  let arr : List Value := []
  (skip_ws text pos).bind fun _ pos =>
  (peek text pos).bind fun ch pos =>
    if ch = ']' then (advance text pos).bind fun _ pos => .ok (.array arr) pos
    else parse_array_loop text pv (text.length + 1) arr pos

/-- The loop of `Parser::parse_object`, json.cpp:164-185; `pv` is `parse_value`. -/
def parse_object_loop (text : List Char) (pv : Nat → Res Value) :
    Nat → Object → Nat → Res Value
  | 0, _, _ => .out_of_fuel
  | fuel + 1, obj, pos =>
    (skip_ws text pos).bind fun _ pos =>
    (peek text pos).bind fun ch pos =>
      if ch ≠ '"' then .error "Expected string key" pos
      else
        (parse_string text pos).bind fun k pos =>
        let key := k.as_string ""
        (skip_ws text pos).bind fun _ pos =>
        (expect_char text ':' pos).bind fun _ pos =>
        (skip_ws text pos).bind fun _ pos =>
        (pv pos).bind fun v pos =>
        let obj := obj.emplace key v
        (skip_ws text pos).bind fun _ pos =>
        (peek text pos).bind fun ch pos =>
          if ch = ',' then
            (advance text pos).bind fun _ pos =>
            (skip_ws text pos).bind fun _ pos => parse_object_loop text pv fuel obj pos
          else
            (peek text pos).bind fun ch pos =>
              if ch = '}' then (advance text pos).bind fun _ pos => .ok (.object obj) pos
              else .error "Expected ',' or '\x7d' in object" pos

/-- The method `Parser::parse_object` of json.cpp:156-187; `pv` is `parse_value`. -/
def parse_object (text : List Char) (pv : Nat → Res Value) (pos : Nat) : Res Value :=
  (expect_char text '{' pos).bind fun _ pos =>
  let obj : Object := []
  (skip_ws text pos).bind fun _ pos =>
  (peek text pos).bind fun ch pos =>
    if ch = '}' then (advance text pos).bind fun _ pos => .ok (.object obj) pos
    else parse_object_loop text pv (text.length + 1) obj pos

/-- The method `Parser::parse_value` of json.cpp:17-32. The first argument bounds the depth of
the calls of `parse_value` within one another. -/
def parse_value (stod : List Char → Except String ℚ) (text : List Char) :
    Nat → Nat → Res Value
  | 0, _ => .out_of_fuel
  | depth + 1, pos =>
    (skip_ws text pos).bind fun _ pos =>
      if eof text pos then .error "Unexpected end of JSON input" pos
      else
        (peek text pos).bind fun ch pos =>
          if ch = 'n' then parse_null text pos
          else if ch = 't' ∨ ch = 'f' then parse_bool text pos
          else if ch = '"' then parse_string text pos
          else if ch = '{' then parse_object text (parse_value stod text depth) pos
          else if ch = '[' then parse_array text (parse_value stod text depth) pos
          else if ch = '-' ∨ isdigit ch = true then parse_number stod text pos
          else .error "Invalid JSON token" pos

/-- The method `Parser::ensure_consumed` of json.cpp:34-39. -/
def ensure_consumed (text : List Char) (pos : Nat) : Res Unit :=
  (skip_ws text pos).bind fun _ pos =>
    if !eof text pos then .error "Extra data after JSON value" pos else .ok () pos

/-- The function `mini_json::parse` of json.cpp:370-375. Each nested value takes at least one
character, so a text of `n` characters nests `parse_value` at most `n + 1` deep. -/
def parse (stod : List Char → Except String ℚ) (text : List Char) : Res Value :=
  (parse_value stod text (text.length + 1) 0).bind fun root pos =>
  (ensure_consumed text pos).bind fun _ pos => .ok root pos

/-- The switch of `escape_string`, json.cpp:229-244: the characters written for `ch`. -/
def escape_char (ch : Char) : List Char :=
  if ch = '\\' then ['\\', '\\']
  else if ch = '"' then ['\\', '"']
  else if ch = '\x08' then ['\\', 'b']
  else if ch = '\x0c' then ['\\', 'f']
  else if ch = '\n' then ['\\', 'n']
  else if ch = '\r' then ['\\', 'r']
  else if ch = '\t' then ['\\', 't']
  else if ch.toNat < 0x20 then ['\\', 'u'] ++ setw_setfill 4 '0' (put_hex ch.toNat)
  else [ch]

/-- The function `escape_string` of json.cpp:225-248. -/
def escape_string (s : String) : List Char :=
  let oss := ['"']
  let oss := s.toList.foldl (fun oss ch => oss ++ escape_char ch) oss
  oss ++ ['"']

/-- A parser result that stayed inside the text: a value or an exception, with `pos_` at
least `lo` for a value and at most `n` in both cases. -/
def Res.within {α : Type} (n lo : Nat) : Res α → Prop
  | .ok _ pos => lo ≤ pos ∧ pos ≤ n
  | .error _ pos => pos ≤ n
  | .out_of_bounds => False
  | .out_of_fuel => False

/-! ## Theorems: the gimbal packet -/

theorem land_255 (x : Int) : Int.land x 255 = x % 256 := by
  cases x with
  | ofNat m =>
    show Int.land (Int.ofNat m) (Int.ofNat 255) = _
    simp only [Int.land]
    have := Nat.and_pow_two_sub_one_eq_mod m 8
    simp at this
    rw [this]
    simp
  | negSucc m =>
    show Int.land (Int.negSucc m) (Int.ofNat 255) = _
    simp only [Int.land]
    have h : Nat.ldiff 255 m = 255 - m % 256 := by
      apply Nat.eq_of_testBit_eq
      intro i
      rw [Nat.testBit_ldiff]
      have h1 : (255 : Nat) = 2 ^ 8 - 1 := by norm_num
      have h2 : 255 - m % 256 = 2 ^ 8 - (m % 2 ^ 8 + 1) := by omega
      rw [h2, Nat.testBit_two_pow_sub_succ (Nat.mod_lt _ (by norm_num)), h1,
        Nat.testBit_two_pow_sub_one, Nat.testBit_mod_two_pow]
      by_cases hi : i < 8 <;> simp [hi]
    rw [h, Int.negSucc_eq]
    omega

theorem encode_scaled_eq (s : Int) :
    encode_scaled s =
      [ ((s / 16777216) % 256).toNat, ((s / 65536) % 256).toNat,
        ((s / 256) % 256).toNat, (s % 256).toNat ] := by
  have h24 : s >>> (24 : Nat) = s / 16777216 := by rw [Int.shiftRight_eq_div_pow]; norm_num
  have h16 : s >>> (16 : Nat) = s / 65536 := by rw [Int.shiftRight_eq_div_pow]; norm_num
  have h8 : s >>> (8 : Nat) = s / 256 := by rw [Int.shiftRight_eq_div_pow]; norm_num
  simp only [encode_scaled, land_255, h24, h16, h8]

theorem decode_encode_scaled (s : Int) (h : fits_int32 s) :
    decode_be_int32 (encode_scaled s) = s := by
  rw [encode_scaled_eq]
  obtain ⟨h1, h2⟩ := h
  simp only [decode_be_int32, List.foldl, wrap_int32]
  omega

theorem wrap_int32_of_fits (s : Int) (h : fits_int32 s) : wrap_int32 s = s := by
  obtain ⟨h1, h2⟩ := h
  simp only [wrap_int32]; omega

theorem encode_scaled_length (s : Int) : (encode_scaled s).length = 4 := rfl

theorem encode_length (v : ℚ) : (encode v).length = 4 := rfl

theorem build_packet_bytes (yaw pitch roll zoom : ℚ) :
    build_packet yaw pitch roll zoom
      = encode yaw ++ (encode pitch ++ (encode roll ++ (encode zoom ++ List.replicate 16 0))) := by
  simp [build_packet, std_copy, encode, encode_scaled]

theorem decode_encode (v : ℚ) (h : fits_int32 (trunc_toward_zero (double_mul v 100))) :
    decode_be_int32 (encode v) = trunc_toward_zero (double_mul v 100) := by
  simp only [encode, static_cast_int32]
  rw [wrap_int32_of_fits _ h]
  exact decode_encode_scaled _ h

/-- Truncation toward zero is the floor of a non-negative value and the ceiling of a negative
one. -/
theorem trunc_toward_zero_eq (q : ℚ) :
    trunc_toward_zero q = if 0 ≤ q then ⌊q⌋ else ⌈q⌉ := by
  unfold trunc_toward_zero
  split
  · next h =>
    rw [Rat.floor_def, Int.tdiv_eq_ediv (Rat.num_nonneg.mpr h) (by positivity)]
  · next h =>
    have hq : 0 ≤ -q := by linarith
    have : ⌈q⌉ = -⌊-q⌋ := by rw [← Int.ceil_neg, neg_neg]
    rw [this, Rat.floor_def, Rat.neg_num, Rat.neg_den,
      ← Int.tdiv_eq_ediv (by simpa using Rat.num_nonneg.mpr hq) (by positivity), Int.neg_tdiv,
      neg_neg]

theorem trunc_toward_zero_intCast (n : Int) : trunc_toward_zero (n : ℚ) = n := by
  simp [trunc_toward_zero]

/-- The product of two `double` values from the numerator and the denominator of the exact
product and the significand and exponent of its rounding. -/
theorem double_mul_eval (a b : ℚ) (n : Int) (d m : Nat) (k : Int)
    (hn : (a * b).num = n) (hd : (a * b).den = d) (hp : double_parts n.natAbs d = (m, k)) :
    double_mul a b = if n < 0 then -((m : ℚ) * (2 : ℚ) ^ k) else (m : ℚ) * (2 : ℚ) ^ k := by
  simp only [double_mul, round_to_double, hn, hd, hp]

theorem double_mul_one_128 : double_mul (1 / 128) 100 = 25 / 32 := by
  rw [double_mul_eval (1 / 128) 100 25 32 7036874417766400 (-53) (by norm_num) (by norm_num)
    (by decide)]
  norm_num

theorem trunc_one_128_mul_100 : trunc_toward_zero (double_mul (1 / 128) 100) = 0 := by
  have hn : ((25 / 32 : ℚ)).num = 25 := by norm_num
  have hd : ((25 / 32 : ℚ)).den = 32 := by norm_num
  rw [double_mul_one_128, trunc_toward_zero, hn, hd]
  decide

theorem round_one_128_mul_100 : round_half_away ((1 / 128 : ℚ) * 100) = 1 := by
  have h : ((1 / 128 : ℚ) * 100) = 25 / 32 := by norm_num
  rw [h, round_half_away, if_pos (by norm_num)]
  change ⌊(25 / 32 + 1 / 2 : ℚ)⌋ = 1
  rw [Int.floor_eq_iff]
  norm_num

theorem bytes_at_0 (a b : List Nat) (h : a.length = 4) : bytes_at (a ++ b) 0 = a := by
  simp [bytes_at, ← h]

theorem bytes_at_4 (a b c : List Nat) (ha : a.length = 4) (hb : b.length = 4) :
    bytes_at (a ++ (b ++ c)) 4 = b := by
  have h1 : (a ++ (b ++ c)).drop 4 = b ++ c := by rw [← ha, List.drop_left]
  simp only [bytes_at, h1]
  rw [← hb, List.take_left]

theorem bytes_at_8 (a b c d : List Nat) (ha : a.length = 4) (hb : b.length = 4)
    (hc : c.length = 4) : bytes_at (a ++ (b ++ (c ++ d))) 8 = c := by
  have h : a ++ (b ++ (c ++ d)) = (a ++ b) ++ (c ++ d) := by simp
  have h8 : (a ++ b).length = 8 := by simp [ha, hb]
  rw [h, bytes_at, ← h8, List.drop_left, ← hc, List.take_left]

theorem bytes_at_12 (a b c d e : List Nat) (ha : a.length = 4) (hb : b.length = 4)
    (hc : c.length = 4) (hd : d.length = 4) :
    bytes_at (a ++ (b ++ (c ++ (d ++ e)))) 12 = d := by
  have h : a ++ (b ++ (c ++ (d ++ e))) = (a ++ b ++ c) ++ (d ++ e) := by simp
  have h12 : (a ++ b ++ c).length = 12 := by simp [ha, hb, hc]
  rw [h, bytes_at, ← h12, List.drop_left, ← hd, List.take_left]

/-- C1 (as the code has it): for every pose whose scaled values fit in a signed 32-bit integer,
bytes 0-3, 4-7, 8-11 and 12-15 of the packet built by `build_packet` decode, as big-endian
signed 32-bit integers, to the `double` products `yaw * 100.0`, `pitch * 100.0`,
`roll * 100.0` and `zoom * 100.0` truncated toward zero. -/
theorem build_packet_decodes_truncated (yaw pitch roll zoom : ℚ)
    (hy : fits_int32 (trunc_toward_zero (double_mul yaw 100)))
    (hp : fits_int32 (trunc_toward_zero (double_mul pitch 100)))
    (hr : fits_int32 (trunc_toward_zero (double_mul roll 100)))
    (hz : fits_int32 (trunc_toward_zero (double_mul zoom 100))) :
    decode_be_int32 (bytes_at (build_packet yaw pitch roll zoom) 0)
        = trunc_toward_zero (double_mul yaw 100)
      ∧ decode_be_int32 (bytes_at (build_packet yaw pitch roll zoom) 4)
        = trunc_toward_zero (double_mul pitch 100)
      ∧ decode_be_int32 (bytes_at (build_packet yaw pitch roll zoom) 8)
        = trunc_toward_zero (double_mul roll 100)
      ∧ decode_be_int32 (bytes_at (build_packet yaw pitch roll zoom) 12)
        = trunc_toward_zero (double_mul zoom 100) := by
  rw [build_packet_bytes]
  refine ⟨?_, ?_, ?_, ?_⟩
  · rw [bytes_at_0 _ _ (encode_length _)]; exact decode_encode _ hy
  · rw [bytes_at_4 _ _ _ (encode_length _) (encode_length _)]; exact decode_encode _ hp
  · rw [bytes_at_8 _ _ _ _ (encode_length _) (encode_length _) (encode_length _)]
    exact decode_encode _ hr
  · rw [bytes_at_12 _ _ _ _ _ (encode_length _) (encode_length _) (encode_length _)
      (encode_length _)]
    exact decode_encode _ hz

theorem trunc_of_double_mul (a : ℚ) (v : Int) (h : double_mul a 100 = (v : ℚ)) :
    trunc_toward_zero (double_mul a 100) = v := by
  rw [h, trunc_toward_zero_intCast]

theorem trunc_neg_three_halves : trunc_toward_zero (double_mul (-3 / 2) 100) = -150 := by
  apply trunc_of_double_mul
  rw [double_mul_eval (-3 / 2) 100 (-150) 1 5277655813324800 (-45) (by norm_num) (by norm_num)
    (by decide)]
  norm_num

theorem trunc_zero_mul : trunc_toward_zero (double_mul 0 100) = 0 := by
  apply trunc_of_double_mul
  rw [double_mul_eval 0 100 0 1 0 (-54) (by norm_num) (by norm_num) (by decide)]
  norm_num

theorem trunc_one_mul : trunc_toward_zero (double_mul 1 100) = 100 := by
  apply trunc_of_double_mul
  rw [double_mul_eval 1 100 100 1 7036874417766400 (-46) (by norm_num) (by norm_num)
    (by decide)]
  norm_num

/-- The `double` nearest to 0.35 times 100: the exact product is a little below 35 and the
multiplication rounds it to 35. -/
theorem trunc_double_035 :
    trunc_toward_zero (double_mul (3152519739159347 / 9007199254740992) 100) = 35 := by
  apply trunc_of_double_mul
  rw [double_mul_eval (3152519739159347 / 9007199254740992) 100 78812993478983675
    2251799813685248 4925812092436480 (-47) (by norm_num) (by norm_num) (by decide)]
  norm_num

/-- The `double` nearest to 0.03 times 100 is 3. -/
theorem trunc_double_003 :
    trunc_toward_zero (double_mul (1080863910568919 / 36028797018963968) 100) = 3 := by
  apply trunc_of_double_mul
  rw [double_mul_eval (1080863910568919 / 36028797018963968) 100 27021597764222975
    9007199254740992 6755399441055744 (-51) (by norm_num) (by norm_num) (by decide)]
  norm_num

/-- The `double` nearest to -0.35 times 100 is -35. -/
theorem trunc_double_neg_035 :
    trunc_toward_zero (double_mul (-3152519739159347 / 9007199254740992) 100) = -35 := by
  apply trunc_of_double_mul
  rw [double_mul_eval (-3152519739159347 / 9007199254740992) 100 (-78812993478983675)
    2251799813685248 4925812092436480 (-47) (by norm_num) (by norm_num) (by decide)]
  norm_num

/-- The `double` nearest to 21474836.47 times 100 is 2147483647: the exact product lies
halfway between two `double` values and the tie goes to the even significand. -/
theorem trunc_double_max :
    trunc_toward_zero (double_mul (720575940043735 / 33554432) 100) = 2147483647 := by
  apply trunc_of_double_mul
  rw [double_mul_eval (720575940043735 / 33554432) 100 18014398501093375 8388608
    9007199250546688 (-22) (by norm_num) (by norm_num) (by decide)]
  norm_num

/-- The pose (-1.5, 1/128, 0, 1) decodes to -150, 0, 0, 100, and the pose of the `double`
values nearest to 0.35, 0.03, -0.35 and 21474836.47 decodes to 35, 3, -35 and 2147483647. -/
theorem build_packet_decodes_truncated_witness :
    (decode_be_int32 (bytes_at (build_packet (-3 / 2) (1 / 128) 0 1) 0) = -150
      ∧ decode_be_int32 (bytes_at (build_packet (-3 / 2) (1 / 128) 0 1) 4) = 0
      ∧ decode_be_int32 (bytes_at (build_packet (-3 / 2) (1 / 128) 0 1) 8) = 0
      ∧ decode_be_int32 (bytes_at (build_packet (-3 / 2) (1 / 128) 0 1) 12) = 100)
      ∧ (decode_be_int32 (bytes_at (build_packet (3152519739159347 / 9007199254740992)
            (1080863910568919 / 36028797018963968) (-3152519739159347 / 9007199254740992)
            (720575940043735 / 33554432)) 0) = 35
        ∧ decode_be_int32 (bytes_at (build_packet (3152519739159347 / 9007199254740992)
            (1080863910568919 / 36028797018963968) (-3152519739159347 / 9007199254740992)
            (720575940043735 / 33554432)) 4) = 3
        ∧ decode_be_int32 (bytes_at (build_packet (3152519739159347 / 9007199254740992)
            (1080863910568919 / 36028797018963968) (-3152519739159347 / 9007199254740992)
            (720575940043735 / 33554432)) 8) = -35
        ∧ decode_be_int32 (bytes_at (build_packet (3152519739159347 / 9007199254740992)
            (1080863910568919 / 36028797018963968) (-3152519739159347 / 9007199254740992)
            (720575940043735 / 33554432)) 12) = 2147483647) := by
  have h := build_packet_decodes_truncated (-3 / 2) (1 / 128) 0 1
    (by rw [trunc_neg_three_halves]; decide) (by rw [trunc_one_128_mul_100]; decide)
    (by rw [trunc_zero_mul]; decide) (by rw [trunc_one_mul]; decide)
  rw [trunc_neg_three_halves, trunc_one_128_mul_100, trunc_zero_mul, trunc_one_mul] at h
  have h2 := build_packet_decodes_truncated (3152519739159347 / 9007199254740992)
    (1080863910568919 / 36028797018963968) (-3152519739159347 / 9007199254740992)
    (720575940043735 / 33554432)
    (by rw [trunc_double_035]; decide) (by rw [trunc_double_003]; decide)
    (by rw [trunc_double_neg_035]; decide) (by rw [trunc_double_max]; decide)
  rw [trunc_double_035, trunc_double_003, trunc_double_neg_035, trunc_double_max] at h2
  exact ⟨h, h2⟩

/-- C1 (as stated) fails: for the yaw 1/128 = 0.0078125, whose product with 100 is 0.78125
exactly, also as a `double`, bytes 0-3 decode to 0 while `round(yaw*100)` is 1. -/
theorem build_packet_not_rounded :
    fits_int32 (round_half_away ((1 / 128 : ℚ) * 100))
      ∧ double_mul (1 / 128) 100 = (1 / 128 : ℚ) * 100
      ∧ decode_be_int32 (bytes_at (build_packet (1 / 128) 0 0 0) 0) = 0
      ∧ round_half_away ((1 / 128 : ℚ) * 100) = 1
      ∧ decode_be_int32 (bytes_at (build_packet (1 / 128) 0 0 0) 0)
          ≠ round_half_away ((1 / 128 : ℚ) * 100) := by
  have hd : decode_be_int32 (bytes_at (build_packet (1 / 128) 0 0 0) 0) = 0 := by
    rw [build_packet_bytes, bytes_at_0 _ _ (encode_length _),
      decode_encode _ (by rw [trunc_one_128_mul_100]; decide), trunc_one_128_mul_100]
  refine ⟨?_, ?_, hd, round_one_128_mul_100, ?_⟩
  · rw [round_one_128_mul_100]; decide
  · rw [double_mul_one_128]; norm_num
  · rw [hd, round_one_128_mul_100]; decide

/-! ## Theorems: the capture logger -/

set_option maxRecDepth 100000 in
theorem put_hex_byte : ∀ b, b < 256 → setw_setfill 2 '0' (put_hex b) = two_hex b := by
  decide

theorem hex_dump_loop_eq (p : List Nat) (hp : is_bytes p) (i : Nat) (oss : List Char) :
    hex_dump_loop p i oss
      = oss ++ (if i > 0 ∧ p ≠ [] then [' '] else []) ++ spec_hex_dump p := by
  induction p generalizing i oss with
  | nil => simp [hex_dump_loop, spec_hex_dump, List.intercalate]
  | cons b rest ih =>
    have hb : b < 256 := hp b (by simp)
    have hrest : is_bytes rest := fun x hx => hp x (by simp [hx])
    rw [hex_dump_loop, ih hrest, put_hex_byte b hb]
    cases rest with
    | nil => by_cases hi : i > 0 <;> simp [hi, spec_hex_dump, List.intercalate]
    | cons c rest2 =>
      by_cases hi : i > 0 <;> simp [hi, spec_hex_dump, List.intercalate, List.intersperse]

theorem hex_dump_eq_spec (p : List Nat) (hp : is_bytes p) : hex_dump p = spec_hex_dump p := by
  simp [hex_dump, hex_dump_loop_eq p hp]

theorem log_line_eq_spec (now : Clock) (p : List Nat) (hp : is_bytes p) :
    log_line now p = spec_log_line now p := by
  simp [log_line, spec_log_line, hex_dump_eq_spec p hp, put_dec]

/-- C5: a packet logged while the logger is active is appended to the open file as exactly
timestamp, TAB, `len=` and the decimal length, TAB, the hex dump (two lowercase hexadecimal
digits per byte, single spaces between them, the empty string for an empty packet), LF; and
nothing else is appended. -/
theorem log_packet_line_format (now : Clock) (p : List Nat) (s : RoverRelayLogger)
    (hp : is_bytes p) (hactive : s.active = true) :
    (s.log_packet now p).written
      = if s.file_.is_open && !s.file_.fail then
          s.written ++ [FileWrite.mk s.file_.path
            (timestamp_string now ++ ['\t'] ++ ['l', 'e', 'n', '='] ++ Nat.toDigits 10 p.length
              ++ ['\t'] ++ List.intercalate [' '] (p.map two_hex) ++ ['\n'])]
        else s.written := by
  have hl := log_line_eq_spec now p hp
  simp only [spec_log_line, spec_hex_dump] at hl
  simp only [RoverRelayLogger.active] at hactive
  simp only [RoverRelayLogger.log_packet, RoverRelayLogger.put, hactive, hl]
  cases hf : s.file_.fail <;> cases ho : s.file_.is_open <;> simp

/-- An active logger with its file open logs the packet 01 02 0a ff at
2026-01-02 03:04:05.006. -/
theorem log_packet_line_format_witness :
    (RoverRelayLogger.log_packet (Clock.mk 2026 1 2 3 4 5 6) [1, 2, 10, 255]
        { active_ := true, file_ := { is_open := true, path := ['f'] } }).written
      = [FileWrite.mk ['f']
          ['2', '0', '2', '6', '-', '0', '1', '-', '0', '2', ' ', '0', '3', ':', '0', '4', ':',
           '0', '5', '.', '0', '0', '6', '\t', 'l', 'e', 'n', '=', '4', '\t',
           '0', '1', ' ', '0', '2', ' ', '0', 'a', ' ', 'f', 'f', '\n']] := by
  have h := log_packet_line_format (Clock.mk 2026 1 2 3 4 5 6) [1, 2, 10, 255]
    { active_ := true, file_ := { is_open := true, path := ['f'] } } (by decide) rfl
  rw [h]
  decide

theorem digitChar_ne_lf (k : Nat) : Nat.digitChar k ≠ '\n' := by
  by_cases h : k < 16
  · have hsmall : ∀ j, j < 16 → Nat.digitChar j ≠ '\n' := by decide
    exact hsmall k h
  · obtain ⟨m, rfl⟩ : ∃ m, k = m + 16 := ⟨k - 16, by omega⟩
    simp [Nat.digitChar]

theorem toDigitsCore_no_lf (base : Nat) (fuel n : Nat) (ds : List Char)
    (hds : '\n' ∉ ds) : '\n' ∉ Nat.toDigitsCore base fuel n ds := by
  induction fuel generalizing n ds with
  | zero => simpa [Nat.toDigitsCore] using hds
  | succ f ih =>
    have hcons : '\n' ∉ Nat.digitChar (n % base) :: ds := by
      intro h
      rcases List.mem_cons.mp h with h1 | h1
      · exact digitChar_ne_lf _ h1.symm
      · exact hds h1
    rw [Nat.toDigitsCore]
    split
    · exact hcons
    · exact ih _ _ hcons

theorem toDigits_no_lf (base n : Nat) : '\n' ∉ Nat.toDigits base n :=
  toDigitsCore_no_lf base _ _ [] (by simp)

theorem setw_setfill_no_lf (w : Nat) (item : List Char) (h : '\n' ∉ item) :
    '\n' ∉ setw_setfill w '0' item := by
  simp only [setw_setfill, List.mem_append, not_or]
  refine ⟨?_, h⟩
  intro hm
  have := List.eq_of_mem_replicate hm
  exact absurd this (by decide)

theorem no_lf_append (a b : List Char) (ha : '\n' ∉ a) (hb : '\n' ∉ b) : '\n' ∉ a ++ b := by
  simp only [List.mem_append, not_or]; exact ⟨ha, hb⟩

theorem timestamp_string_no_lf (now : Clock) : '\n' ∉ timestamp_string now := by
  have hd : ∀ n, '\n' ∉ put_dec n := fun n => toDigits_no_lf 10 n
  have hs : ∀ w n, '\n' ∉ setw_setfill w '0' (put_dec n) :=
    fun w n => setw_setfill_no_lf w (put_dec n) (hd n)
  simp only [timestamp_string]
  refine no_lf_append _ _ (no_lf_append _ _ ?_ (by decide)) (hs _ _)
  refine no_lf_append _ _ (no_lf_append _ _ ?_ (by decide)) (hs _ _)
  refine no_lf_append _ _ (no_lf_append _ _ ?_ (by decide)) (hs _ _)
  refine no_lf_append _ _ (no_lf_append _ _ ?_ (by decide)) (hs _ _)
  refine no_lf_append _ _ (no_lf_append _ _ ?_ (by decide)) (hs _ _)
  refine no_lf_append _ _ (no_lf_append _ _ ?_ (by decide)) (hs _ _)
  exact hd _

theorem hex_dump_loop_no_lf (p : List Nat) (i : Nat) (oss : List Char) (h : '\n' ∉ oss) :
    '\n' ∉ hex_dump_loop p i oss := by
  induction p generalizing i oss with
  | nil => simpa [hex_dump_loop] using h
  | cons b rest ih =>
    rw [hex_dump_loop]
    apply ih
    have h1 : '\n' ∉ (if i > 0 then oss ++ [' '] else oss) := by
      split
      · simp only [List.mem_append, not_or]; exact ⟨h, by decide⟩
      · exact h
    simp only [List.mem_append, not_or]
    exact ⟨h1, setw_setfill_no_lf 2 _ (toDigits_no_lf 16 b)⟩

theorem log_line_count_lf (now : Clock) (p : List Nat) : (log_line now p).count '\n' = 1 := by
  have h1 : (timestamp_string now).count '\n' = 0 :=
    List.count_eq_zero.mpr (timestamp_string_no_lf now)
  have h2 : (put_dec p.length).count '\n' = 0 := List.count_eq_zero.mpr (toDigits_no_lf 10 _)
  have h3 : (hex_dump p).count '\n' = 0 :=
    List.count_eq_zero.mpr (hex_dump_loop_no_lf p 0 [] (by simp))
  simp only [log_line, List.count_append, h1, h2, h3]
  decide

theorem log_line_getLast (now : Clock) (p : List Nat) :
    (log_line now p).getLast? = some '\n' := by
  rw [log_line]
  exact List.getLast?_concat _

theorem log_packet_open (now : Clock) (p : List Nat) (s : RoverRelayLogger)
    (hactive : s.active_ = true) (hopen : s.file_.is_open = true)
    (hgood : s.file_.fail = false) :
    s.log_packet now p
      = { s with written := s.written ++ [FileWrite.mk s.file_.path (log_line now p)],
                 lines_ := s.lines_ + 1 } := by
  simp [RoverRelayLogger.log_packet, RoverRelayLogger.put, hactive, hopen, hgood]

theorem count_lf_append (a b : List FileWrite) : count_lf (a ++ b) = count_lf a + count_lf b := by
  simp [count_lf]

/-- C6: N `log_packet` calls on a logger that is active with its file open append exactly N
lines, one per call and each ended by its only line terminator, so the number of line
terminators written grows by N, and `lines_written()` grows by N. -/
theorem log_packets_appends_n_lines (calls : List (Clock × List Nat)) (s : RoverRelayLogger)
    (hactive : s.active = true) (hopen : s.file_.is_open = true)
    (hgood : s.file_.fail = false) :
    (s.log_packets calls).lines_written = s.lines_written + calls.length
      ∧ (s.log_packets calls).written
          = s.written ++ calls.map (fun c => FileWrite.mk s.file_.path (log_line c.1 c.2))
      ∧ count_lf (s.log_packets calls).written = count_lf s.written + calls.length
      ∧ (∀ c ∈ calls, (log_line c.1 c.2).count '\n' = 1
          ∧ (log_line c.1 c.2).getLast? = some '\n')
      ∧ (s.log_packets calls).active = true
      ∧ (s.log_packets calls).file_ = s.file_ := by
  induction calls generalizing s with
  | nil => simp [RoverRelayLogger.log_packets, RoverRelayLogger.lines_written, hactive]
  | cons c rest ih =>
    have hstep := log_packet_open c.1 c.2 s hactive hopen hgood
    have hfold : s.log_packets (c :: rest) = (s.log_packet c.1 c.2).log_packets rest := rfl
    have h := ih (s.log_packet c.1 c.2) (by rw [hstep]; exact hactive) (by rw [hstep]; exact hopen)
      (by rw [hstep]; exact hgood)
    obtain ⟨h1, h2, h3, h4, h5, h6⟩ := h
    rw [hfold]
    refine ⟨?_, ?_, ?_, ?_, h5, ?_⟩
    · rw [h1, hstep]; simp only [RoverRelayLogger.lines_written, List.length_cons]; omega
    · rw [h2, hstep]; simp
    · rw [h3, hstep]
      simp only [count_lf_append, List.length_cons]
      have : count_lf [FileWrite.mk s.file_.path (log_line c.1 c.2)] = 1 := by
        simp [count_lf, log_line_count_lf]
      omega
    · intro x hx
      rcases List.mem_cons.mp hx with hx | hx
      · subst hx; exact ⟨log_line_count_lf _ _, log_line_getLast _ _⟩
      · exact h4 x hx
    · rw [h6, hstep]

/-- Three packets logged by an active logger with its file open: three lines. -/
theorem log_packets_appends_n_lines_witness :
    (RoverRelayLogger.log_packets
        [(Clock.mk 2026 1 2 3 4 5 6, [1, 2]), (Clock.mk 2026 1 2 3 4 5 7, []),
         (Clock.mk 2026 1 2 3 4 5 8, [255])]
        { active_ := true, file_ := { is_open := true, path := ['f'] } }).lines_written = 3
      ∧ count_lf (RoverRelayLogger.log_packets
        [(Clock.mk 2026 1 2 3 4 5 6, [1, 2]), (Clock.mk 2026 1 2 3 4 5 7, []),
         (Clock.mk 2026 1 2 3 4 5 8, [255])]
        { active_ := true, file_ := { is_open := true, path := ['f'] } }).written = 3 := by
  have h := log_packets_appends_n_lines
    [(Clock.mk 2026 1 2 3 4 5 6, [1, 2]), (Clock.mk 2026 1 2 3 4 5 7, []),
     (Clock.mk 2026 1 2 3 4 5 8, [255])]
    { active_ := true, file_ := { is_open := true, path := ['f'] } } rfl rfl rfl
  exact ⟨by rw [h.1]; rfl, by rw [h.2.2.1]; rfl⟩

theorem stop_inactive (s : RoverRelayLogger) : s.stop.active_ = false := by
  unfold RoverRelayLogger.stop RoverRelayLogger.close_file
  cases ha : s.active_ <;> cases hf : s.file_.fail <;> cases ho : s.file_.is_open <;> simp [ha, hf, ho]

theorem log_packet_of_inactive (now : Clock) (p : List Nat) (s : RoverRelayLogger)
    (h : s.active_ = false) : s.log_packet now p = s := by
  simp [RoverRelayLogger.log_packet, h]

/-- C7: `log_packet` on a logger that was never started, or after `stop()`, changes nothing:
nothing is written to any file and `lines_written()` is unchanged. -/
theorem log_packet_inactive_noop (now : Clock) (p : List Nat) (directory : List Char)
    (s : RoverRelayLogger) :
    RoverRelayLogger.log_packet now p { directory_ := directory } = { directory_ := directory }
      ∧ s.stop.log_packet now p = s.stop
      ∧ (s.stop.log_packet now p).written = s.stop.written
      ∧ (s.stop.log_packet now p).lines_written = s.stop.lines_written
      ∧ (s.stop.log_packet now p).active = false := by
  have h := log_packet_of_inactive now p s.stop (stop_inactive s)
  refine ⟨log_packet_of_inactive now p _ rfl, h, by rw [h], by rw [h], ?_⟩
  rw [h]; exact stop_inactive s


/-! ## Theorems: the datagram relay and the image ingress loop -/

theorem recv_packet_eq (buffer P : List Nat) (h : P.length ≤ buffer.length) :
    (recv_into buffer P).take (recv_count buffer P) = P := by
  simp [recv_into, recv_count, List.take_of_length_le h]

theorem recv_count_eq (buffer P : List Nat) (h : P.length ≤ buffer.length) :
    recv_count buffer P = P.length := by
  simp [recv_count, List.take_of_length_le h]

theorem worker_loop_head_counters (sock : Int) (raw proc : sockaddr_in) (buffer : List Nat)
    (s : UdpRelay) :
    (s.worker_loop_head sock raw proc buffer).forwarded_packets_ = s.forwarded_packets_
      ∧ (s.worker_loop_head sock raw proc buffer).forwarded_bytes_ = s.forwarded_bytes_
      ∧ (s.worker_loop_head sock raw proc buffer).sent = s.sent
      ∧ (s.worker_loop_head sock raw proc buffer).running_ = s.running_ := by
  unfold UdpRelay.worker_loop_head
  split <;> simp

/-- C2: for every datagram with payload P the relay loop receives, `forwarded_packets` grows by
exactly 1 and `forwarded_bytes` by exactly len(P), whatever the two `sendto` calls return. -/
theorem relay_counts_datagram (s : UdpRelay) (P : List Nat) (send_raw_ret send_proc_ret : Int)
    (now : Clock) (sock : Int) (raw proc : sockaddr_in) (buffer : List Nat)
    (hpc : s.worker_thread_ = some (.recv sock raw proc buffer))
    (hbuf : buffer.length = 64 * 1024) (hP : P.length ≤ 64 * 1024) :
    (s.worker_recv ⟨some P, send_raw_ret, send_proc_ret, now⟩).status.forwarded_packets
        = s.status.forwarded_packets + 1
      ∧ (s.worker_recv ⟨some P, send_raw_ret, send_proc_ret, now⟩).status.forwarded_bytes
        = s.status.forwarded_bytes + P.length := by
  have hle : P.length ≤ buffer.length := by omega
  simp only [UdpRelay.worker_recv, hpc, UdpRelay.status, worker_loop_head_counters,
    recv_packet_eq buffer P hle]
  cases s.rover_logger_ with
  | none => simp
  | some lg => cases hl : lg.active <;> simp [hl]

theorem worker_recv_running (ev : RelayEvent) (s : UdpRelay) :
    (s.worker_recv ev).running_ = s.running_ := by
  unfold UdpRelay.worker_recv
  split
  · split
    · simp [worker_loop_head_counters]
    · simp only [worker_loop_head_counters]
      cases s.rover_logger_ with
      | none => simp
      | some lg => cases hl : lg.active <;> simp [hl]
  · rfl

/-- A fresh relay that has received only the datagram 01 02 03 04 reports one forwarded packet
and four forwarded bytes, both `sendto` calls failing. -/
theorem relay_counts_datagram_witness :
    relay_listening.worker_thread_
        = some (.recv 3 ⟨2130706433, 10708⟩ ⟨2130706433, 10709⟩ (List.replicate (64 * 1024) 0))
      ∧ (relay_listening.worker_recv
          ⟨some [1, 2, 3, 4], -1, -1, Clock.mk 2026 1 2 3 4 5 6⟩).status.forwarded_packets = 1
      ∧ (relay_listening.worker_recv
          ⟨some [1, 2, 3, 4], -1, -1, Clock.mk 2026 1 2 3 4 5 6⟩).status.forwarded_bytes = 4
      ∧ (relay_listening.worker_recv
          ⟨some [1, 2, 3, 4], -1, -1, Clock.mk 2026 1 2 3 4 5 6⟩).status.running = true := by
  have hpc : relay_listening.worker_thread_
      = some (.recv 3 ⟨2130706433, 10708⟩ ⟨2130706433, 10709⟩ (List.replicate (64 * 1024) 0)) :=
    rfl
  have h := relay_counts_datagram relay_listening [1, 2, 3, 4] (-1) (-1)
    (Clock.mk 2026 1 2 3 4 5 6) 3 ⟨2130706433, 10708⟩ ⟨2130706433, 10709⟩
    (List.replicate (64 * 1024) 0) hpc (List.length_replicate _ _) (by decide)
  refine ⟨hpc, ?_, ?_, ?_⟩
  · rw [h.1]; rfl
  · rw [h.2]; rfl
  · simp only [UdpRelay.status, worker_recv_running]
    rfl

/-- C3: for every datagram with payload P (up to the 64 KiB receive buffer) the relay loop
receives, the iteration issues exactly two sends and no others, the first to the raw
destination and the second to the proc destination, each carrying exactly the bytes of P. -/
theorem relay_forwards_two_copies (s : UdpRelay) (P : List Nat)
    (send_raw_ret send_proc_ret : Int) (now : Clock) (sock : Int) (raw proc : sockaddr_in)
    (buffer : List Nat)
    (hpc : s.worker_thread_ = some (.recv sock raw proc buffer))
    (hbuf : buffer.length = 64 * 1024) (hP : P.length ≤ 64 * 1024) :
    (s.worker_recv ⟨some P, send_raw_ret, send_proc_ret, now⟩).sent
      = s.sent ++ [Sent.mk sock (some raw) P send_raw_ret,
                   Sent.mk sock (some proc) P send_proc_ret] := by
  have hle : P.length ≤ buffer.length := by omega
  simp only [UdpRelay.worker_recv, hpc, worker_loop_head_counters, recv_packet_eq buffer P hle]
  cases s.rover_logger_ with
  | none => simp
  | some lg => cases hl : lg.active <;> simp [hl]

/-- The relay with default settings forwards 01 02 03 04 to ports 10708 and 10709. -/
theorem relay_forwards_two_copies_witness :
    (relay_listening.worker_recv
        ⟨some [1, 2, 3, 4], 4, 4, Clock.mk 2026 1 2 3 4 5 6⟩).sent
      = [Sent.mk 3 (some ⟨2130706433, 10708⟩) [1, 2, 3, 4] 4,
         Sent.mk 3 (some ⟨2130706433, 10709⟩) [1, 2, 3, 4] 4] := by
  have h := relay_forwards_two_copies relay_listening [1, 2, 3, 4] 4 4
    (Clock.mk 2026 1 2 3 4 5 6) 3 ⟨2130706433, 10708⟩ ⟨2130706433, 10709⟩
    (List.replicate (64 * 1024) 0) rfl (List.length_replicate _ _) (by decide)
  rw [h]; rfl

theorem udp_loop_head_frame (buffer : List Nat) (s : ImageStreamBridge) :
    (s.udp_loop_head buffer).last_frame_ = s.last_frame_
      ∧ (s.udp_loop_head buffer).last_frame_time_ = s.last_frame_time_ := by
  unfold ImageStreamBridge.udp_loop_head
  split <;> simp

/-- C4: for every datagram of N bytes (0 <= N <= 2 MiB) the ingress loop receives, the next
`status()` reports `last_frame_bytes == N`, whatever the frame buffer held before. -/
theorem bridge_frame_size (s : ImageStreamBridge) (P : List Nat) (now : Nat)
    (buffer : List Nat) (hpc : s.udp_thread_ = some (.recv buffer))
    (hbuf : buffer.length = 2 * 1024 * 1024) (hP : P.length ≤ 2 * 1024 * 1024) :
    (s.udp_loop_recv (some P) now).status.last_frame_bytes = P.length
      ∧ (s.udp_loop_recv (some P) now).last_frame_ = P := by
  have hle : P.length ≤ buffer.length := by omega
  simp [ImageStreamBridge.udp_loop_recv, hpc, ImageStreamBridge.status, udp_loop_head_frame,
    recv_packet_eq buffer P hle]

/-- A bridge holding an old frame of two bytes receives a datagram of three bytes. -/
theorem bridge_frame_size_witness :
    (ImageStreamBridge.udp_loop_recv (some [7, 8, 9]) 100
        { bridge_listening with last_frame_ := [1, 2] }).status.last_frame_bytes = 3
      ∧ (ImageStreamBridge.udp_loop_recv (some [7, 8, 9]) 100
        { bridge_listening with last_frame_ := [1, 2] }).last_frame_ = [7, 8, 9] :=
  bridge_frame_size { bridge_listening with last_frame_ := [1, 2] } [7, 8, 9] 100
    (List.replicate (2 * 1024 * 1024) 0) rfl (List.length_replicate _ _) (by decide)


/-! ## Theorems: failures during start-up -/

/-- The datagram path of `ImageStreamBridge::start`: when `bind` on the datagram socket fails,
the socket is closed, both handles are -1, no thread is spawned and `running_` is false. -/
theorem bridge_start_udp_bind_failure_rolls_back :
    (ImageStreamBridge.start sys_udp_bind_fails {}).state.map
        (fun s => (s.running_, s.udp_socket_, s.tcp_socket_, s.open_fds,
          s.udp_thread_.isSome, s.tcp_thread_.isSome))
      = some (false, -1, -1, [], false, false) := by
  decide

/-- C8 at its failing input: when `bind`/`listen` on the stream socket fails, `start()`
returns with `running_` false and the stream handle -1, but the datagram socket opened by the
same call (descriptor 3) is still open and still stored in `udp_socket_`; a following `stop()`
returns at once and leaves it open. -/
theorem bridge_start_tcp_failure_leaves_udp_open :
    (ImageStreamBridge.start sys_tcp_bind_fails {}).state.map
        (fun s => (s.running_, s.udp_socket_, s.tcp_socket_, s.open_fds,
          s.udp_thread_.isSome, s.tcp_thread_.isSome))
      = some (false, 3, -1, [3], false, false)
    ∧ (((ImageStreamBridge.start sys_tcp_bind_fails {}).get {}).stop none none).state.map
        (fun s => (s.udp_socket_, s.open_fds))
      = some (3, [3]) := by
  decide


/-- C9 (as stated) fails: after `create_udp_socket` raises in the worker, the gimbal
transmitter and the relay still report `running == true`; after `create_tcp_socket` raises in
`ImageStreamBridge::start`, the bridge reports `udp_running == true`. -/
theorem socket_failure_leaves_running_flag :
    (((GimbalControl.start {}).get {}).worker_entry sys_no_udp_socket).status.running = true
      ∧ (((UdpRelay.start {}).get {}).worker_entry sys_no_udp_socket).status.running = true
      ∧ (match ImageStreamBridge.start sys_no_tcp_socket {} with
          | .threw s _ => s.status.udp_running
          | _ => false) = true := by
  decide

/-- C9 (as the code has it): a failure of socket creation does not clear the running flag.
The gimbal and relay workers log the error and end with nothing opened and nothing sent, and
`status()` keeps the value of `running` that `start()` set; `ImageStreamBridge::start` raises
with `running_` left true, so that `status()` reports `udp_running` and `tcp_running` true
exactly for the handles that are not negative: both as they were when `create_udp_socket`
fails, and `udp_running == true` when `create_tcp_socket` fails. -/
theorem socket_failure_keeps_running (g : GimbalControl) (r : UdpRelay) (b : ImageStreamBridge)
    (sys sys2 : Sys) (a : Nat)
    (hg : g.worker_thread_ = some .entry) (hr : r.worker_thread_ = some .entry)
    (hb : b.running_ = false)
    (hudp : sys.udp_socket_ret < 0)
    (hudp2 : 0 ≤ sys2.udp_socket_ret) (hip : sys2.inet_pton b.config_.ip = some a)
    (hbind : 0 ≤ sys2.udp_bind_ret) (htcp : sys2.tcp_socket_ret < 0) :
    ((g.worker_entry sys).status.running = g.status.running
        ∧ (g.worker_entry sys).worker_thread_ = some .done
        ∧ (g.worker_entry sys).open_fds = g.open_fds
        ∧ (g.worker_entry sys).sent = g.sent
        ∧ (g.worker_entry sys).logged
            = g.logged ++ ["Gimbal control error: Failed to create UDP socket"])
      ∧ ((r.worker_entry sys).status.running = r.status.running
        ∧ (r.worker_entry sys).worker_thread_ = some .done
        ∧ (r.worker_entry sys).open_fds = r.open_fds
        ∧ (r.worker_entry sys).sent = r.sent
        ∧ (r.worker_entry sys).logged
            = r.logged ++ ["UDP relay error: Failed to create UDP socket"])
      ∧ (b.start sys = .threw { b with running_ := true } "Failed to create UDP socket"
        ∧ ({ b with running_ := true } : ImageStreamBridge).status.udp_running
            = decide (b.udp_socket_ ≥ 0)
        ∧ ({ b with running_ := true } : ImageStreamBridge).status.tcp_running
            = decide (b.tcp_socket_ ≥ 0))
      ∧ (b.start sys2
          = .threw { b with running_ := true, udp_socket_ := sys2.udp_socket_ret,
                            open_fds := sys2.udp_socket_ret :: b.open_fds }
              "Failed to create TCP socket"
        ∧ ({ b with running_ := true, udp_socket_ := sys2.udp_socket_ret,
                    open_fds := sys2.udp_socket_ret :: b.open_fds } :
              ImageStreamBridge).status.udp_running = true) := by
  have hn : ¬ (0 ≤ sys.udp_socket_ret) := by omega
  have hn2 : ¬ (sys2.udp_socket_ret < 0) := by omega
  have hn3 : ¬ (sys2.udp_bind_ret < 0) := by omega
  refine ⟨?_, ?_, ?_, ?_⟩
  · simp [GimbalControl.worker_entry, hg, create_udp_socket, hudp, GimbalControl.worker_catch,
      GimbalControl.status, close_socket]
  · simp [UdpRelay.worker_entry, hr, create_udp_socket, hudp, UdpRelay.worker_catch,
      UdpRelay.status, close_socket]
  · simp [ImageStreamBridge.start, hb, create_udp_socket, hudp, ImageStreamBridge.status]
  · simp [ImageStreamBridge.start, hb, create_udp_socket, hn2, make_address, hip, hn3,
      create_tcp_socket, htcp, ImageStreamBridge.status, hudp2]

/-- The three services with default settings, the socket calls failing. -/
theorem socket_failure_keeps_running_witness :
    (((GimbalControl.start {}).get {}).worker_entry sys_no_udp_socket).status.running
        = ((GimbalControl.start {}).get {}).status.running
      ∧ (((UdpRelay.start {}).get {}).worker_entry sys_no_udp_socket).status.running
        = ((UdpRelay.start {}).get {}).status.running
      ∧ ImageStreamBridge.start sys_no_udp_socket {}
        = .threw { running_ := true } "Failed to create UDP socket"
      ∧ ImageStreamBridge.start sys_no_tcp_socket {}
        = .threw { running_ := true, udp_socket_ := 3, open_fds := [3] }
            "Failed to create TCP socket" := by
  have h := socket_failure_keeps_running ((GimbalControl.start {}).get {})
    ((UdpRelay.start {}).get {}) {} sys_no_udp_socket sys_no_tcp_socket 2130706433
    rfl rfl rfl (by decide) (by decide) rfl (by decide) (by decide)
  exact ⟨h.1.1, h.2.1.1, h.2.2.1.1, h.2.2.2.1⟩

/-- C10 at its failing input: a relay is started, its worker fails to bind and ends itself
(clearing `running_`), and `stop()` is called. `stop()` returns at its first line without
joining: the thread handle is still joinable. A later `start()` then assigns to the joinable
handle, which ends the process. -/
theorem relay_stop_after_bind_failure_not_joined :
    (((UdpRelay.start {}).get {}).worker_entry sys_udp_bind_fails).running_ = false
      ∧ (((UdpRelay.start {}).get {}).worker_entry sys_udp_bind_fails).worker_thread_
          = some .done
      ∧ ((((UdpRelay.start {}).get {}).worker_entry sys_udp_bind_fails).stop sys_ok none).state.map
          (fun s => s.worker_thread_) = some (some .done)
      ∧ ((((((UdpRelay.start {}).get {}).worker_entry sys_udp_bind_fails).stop sys_ok none).get
          {}).start).is_terminated = true := by
  decide

theorem gimbal_join_not_joinable (sys : Sys) (send_ret : Int) (s s2 : GimbalControl)
    (h : s.join sys send_ret = .returned s2) : s2.worker_thread_ = none := by
  simp only [GimbalControl.join] at h
  split at h
  · simp only [Outcome.returned.injEq] at h
    rw [← h]
  · cases h

/-- The gimbal transmitter: in a state where a cleared `running_` comes with a handle that is
not joinable (every state reached by `start()`, worker steps and `stop()`, as only `stop()`
clears the flag), the handle is not joinable after `stop()` returns. -/
theorem gimbal_stop_joins (sys : Sys) (send_ret : Int) (s s2 : GimbalControl)
    (hinv : s.running_ = false → s.worker_thread_ = none)
    (h : s.stop sys send_ret = .returned s2) : s2.worker_thread_ = none := by
  unfold GimbalControl.stop at h
  cases hr : s.running_ with
  | false =>
    simp only [hr, Bool.not_false, if_true, Outcome.returned.injEq] at h
    rw [← h]; exact hinv hr
  | true =>
    simp only [hr, Bool.not_true] at h
    cases ht : s.worker_thread_ with
    | none =>
      simp only [ht, Bool.false_eq_true, if_false, Outcome.returned.injEq] at h
      rw [← h]
    | some pc =>
      simp only [ht, Bool.false_eq_true, if_false] at h
      generalize hj : GimbalControl.join sys send_ret _ = o at h
      cases o with
      | returned s3 =>
        simp only [Outcome.returned.injEq] at h
        rw [← h]
        exact gimbal_join_not_joinable _ _ _ s3 hj
      | threw s3 w => cases h
      | terminated => cases h
      | blocked => cases h


/-- The stream failure branch of `ImageStreamBridge::start` from any stopped state: the call
returns with `running_` false and the stream handle -1, while the datagram socket it opened is
still open and still stored in `udp_socket_`. -/
theorem bridge_start_tcp_failure_general (s : ImageStreamBridge) (sys : Sys) (a : Nat)
    (hstopped : s.running_ = false) (hudp : 0 ≤ sys.udp_socket_ret)
    (hip : sys.inet_pton s.config_.ip = some a) (hbind : 0 ≤ sys.udp_bind_ret)
    (htcp : 0 ≤ sys.tcp_socket_ret) (hfail : sys.tcp_bind_ret < 0 ∨ sys.listen_ret < 0) :
    ∃ s2, s.start sys = .returned s2 ∧ s2.running_ = false ∧ s2.tcp_socket_ = -1
      ∧ s2.udp_socket_ = sys.udp_socket_ret
      ∧ s2.open_fds = sys.udp_socket_ret :: s.open_fds := by
  have h1 : ¬ (sys.udp_socket_ret < 0) := by omega
  have h2 : ¬ (sys.udp_bind_ret < 0) := by omega
  have h3 : ¬ (sys.tcp_socket_ret < 0) := by omega
  have h4 : (decide (sys.tcp_bind_ret < 0) || decide (sys.listen_ret < 0)) = true := by
    rcases hfail with h | h <;> simp [h]
  simp [ImageStreamBridge.start, hstopped, create_udp_socket, h1, make_address, hip, h2,
    create_tcp_socket, h3, h4, close_socket, htcp]

theorem tcp_loop_head_udp_thread (s : ImageStreamBridge) :
    s.tcp_loop_head.udp_thread_ = s.udp_thread_ := by
  unfold ImageStreamBridge.tcp_loop_head; split <;> rfl

theorem tcp_loop_entry_udp_thread (s : ImageStreamBridge) :
    s.tcp_loop_entry.udp_thread_ = s.udp_thread_ := by
  unfold ImageStreamBridge.tcp_loop_entry; split
  · exact tcp_loop_head_udp_thread s
  · rfl

theorem tcp_loop_accept_udp_thread (fd : Int) (s : ImageStreamBridge) :
    (s.tcp_loop_accept fd).udp_thread_ = s.udp_thread_ := by
  unfold ImageStreamBridge.tcp_loop_accept; split
  · split
    · exact tcp_loop_head_udp_thread s
    · simp only [tcp_loop_head_udp_thread]
  · rfl

theorem bridge_join_udp_not_joinable (uw : Option (Option (List Nat) × Nat))
    (s s2 : ImageStreamBridge) (h : s.join_udp uw = .returned s2) :
    s2.udp_thread_ = none := by
  unfold ImageStreamBridge.join_udp at h
  split at h
  · next hn =>
    simp only [Outcome.returned.injEq] at h
    rw [← h]; exact hn
  · simp only [] at h
    split at h
    · simp only [Outcome.returned.injEq] at h
      rw [← h]
    · cases h

theorem bridge_join_tcp_not_joinable (tw : Option Int) (s s2 : ImageStreamBridge)
    (h : s.join_tcp tw = .returned s2) :
    s2.tcp_thread_ = none ∧ s2.udp_thread_ = s.udp_thread_ := by
  unfold ImageStreamBridge.join_tcp at h
  split at h
  · next hn =>
    simp only [Outcome.returned.injEq] at h
    rw [← h]; exact ⟨hn, rfl⟩
  · simp only [] at h
    split at h
    · simp only [Outcome.returned.injEq] at h
      rw [← h]
      refine ⟨rfl, ?_⟩
      cases tw with
      | none => exact tcp_loop_entry_udp_thread s
      | some fd =>
        show (s.tcp_loop_entry.tcp_loop_accept fd).udp_thread_ = s.udp_thread_
        rw [tcp_loop_accept_udp_thread, tcp_loop_entry_udp_thread]
    · cases h

/-- The image bridge: in a state where a cleared `running_` comes with handles that are not
joinable (every state reached by `start()`, worker steps and `stop()`, as only `start()` and
`stop()` clear the flag), neither handle is joinable after `stop()` returns. -/
theorem bridge_stop_joins (uw : Option (Option (List Nat) × Nat)) (tw : Option Int)
    (s s2 : ImageStreamBridge)
    (hinv : s.running_ = false → s.udp_thread_ = none ∧ s.tcp_thread_ = none)
    (h : s.stop uw tw = .returned s2) : s2.udp_thread_ = none ∧ s2.tcp_thread_ = none := by
  unfold ImageStreamBridge.stop at h
  cases hr : s.running_ with
  | false =>
    simp only [hr, Bool.not_false, if_true, Outcome.returned.injEq] at h
    rw [← h]; exact hinv hr
  | true =>
    simp only [hr, Bool.not_true, Bool.false_eq_true, if_false] at h
    generalize hj : ImageStreamBridge.join_udp uw _ = o at h
    cases o with
    | returned s3 =>
      simp only [] at h
      generalize hj2 : ImageStreamBridge.join_tcp tw s3 = o2 at h
      cases o2 with
      | returned s4 =>
        simp only [Outcome.returned.injEq] at h
        have h1 := bridge_join_udp_not_joinable _ _ s3 hj
        have h2 := bridge_join_tcp_not_joinable _ _ s4 hj2
        rw [← h]
        exact ⟨by rw [← h1, ← h2.2], h2.1⟩
      | threw s4 w => cases h
      | terminated => cases h
      | blocked => cases h
    | threw s3 w => cases h
    | terminated => cases h
    | blocked => cases h


/-! ## Theorems: the gimbal pose and the packet layout -/

/-- C13: after `update_pose(y, p, r, z)` the next `status()` returns that pose and the same
`running` value; `update_pose` emits no packet and does not move the worker; of two successive
updates only the last is kept, and it is the one the next transmit cycle encodes and sends. -/
theorem update_pose_last_write_wins (g : GimbalControl) (a b c d y p r z : ℚ) (sock : Int)
    (target : sockaddr_in) (send_ret : Int) :
    (g.update_pose y p r z).status
        = { running := g.status.running, yaw := y, pitch := p, roll := r, zoom := z }
      ∧ (g.update_pose y p r z).sent = g.sent
      ∧ (g.update_pose y p r z).worker_thread_ = g.worker_thread_
      ∧ (g.update_pose a b c d).update_pose y p r z = g.update_pose y p r z
      ∧ ((g.update_pose a b c d).update_pose y p r z).status
          = { running := g.status.running, yaw := y, pitch := p, roll := r, zoom := z }
      ∧ (GimbalControl.worker_send send_ret
            (GimbalControl.update_pose y p r z
              (GimbalControl.update_pose a b c d
                { g with worker_thread_ := some (.cycle sock target) }))).sent
          = g.sent ++ [Sent.mk sock (some target) (build_packet y p r z) send_ret] := by
  refine ⟨rfl, rfl, rfl, rfl, rfl, rfl⟩

/-- C14: for every pose, `build_packet` returns exactly 32 bytes, and bytes 16 through 31 are
all zero. -/
theorem build_packet_size_and_padding (yaw pitch roll zoom : ℚ) :
    (build_packet yaw pitch roll zoom).length = 32
      ∧ (build_packet yaw pitch roll zoom).drop 16 = List.replicate 16 0
      ∧ ∀ i, 16 ≤ i → i < 32 → (build_packet yaw pitch roll zoom)[i]? = some 0 := by
  have hb := build_packet_bytes yaw pitch roll zoom
  have hl : (build_packet yaw pitch roll zoom).length = 32 := by
    rw [hb]; simp [encode_length]
  have hd : (build_packet yaw pitch roll zoom).drop 16 = List.replicate 16 0 := by
    rw [hb]
    have h16 : (encode yaw ++ encode pitch ++ encode roll ++ encode zoom).length = 16 := by
      simp [encode_length]
    have hassoc : encode yaw ++ (encode pitch ++ (encode roll ++ (encode zoom
        ++ List.replicate 16 0)))
        = (encode yaw ++ encode pitch ++ encode roll ++ encode zoom) ++ List.replicate 16 0 := by
      simp
    rw [hassoc, ← h16, List.drop_left]
  refine ⟨hl, hd, ?_⟩
  intro i h1 h2
  have hi : (build_packet yaw pitch roll zoom)[i]?
      = ((build_packet yaw pitch roll zoom).drop 16)[i - 16]? := by
    rw [List.getElem?_drop]
    congr 1
    omega
  rw [hi, hd, List.getElem?_replicate]
  simp
  omega


/-! ## Theorems: the relay's logger hand-over, counters and start-up -/

theorem worker_loop_head_fields (sock : Int) (raw proc : sockaddr_in) (buffer : List Nat)
    (s : UdpRelay) :
    (s.worker_loop_head sock raw proc buffer).handed = s.handed
      ∧ (s.worker_loop_head sock raw proc buffer).rover_logger_ = s.rover_logger_
      ∧ (s.worker_loop_head sock raw proc buffer).config_ = s.config_ := by
  unfold UdpRelay.worker_loop_head
  split <;> simp

/-- C15: a received datagram is handed to the capture logger if and only if the logger pointer
is not null and that logger is active at that moment; what is handed over is exactly the
received payload, and the hand-over is made while the counters still have their old values,
the increment coming after it. -/
theorem relay_hands_datagram_to_logger (s : UdpRelay) (P : List Nat)
    (send_raw_ret send_proc_ret : Int) (now : Clock) (sock : Int) (raw proc : sockaddr_in)
    (buffer : List Nat)
    (hpc : s.worker_thread_ = some (.recv sock raw proc buffer))
    (hbuf : buffer.length = 64 * 1024) (hP : P.length ≤ 64 * 1024) :
    (s.worker_recv ⟨some P, send_raw_ret, send_proc_ret, now⟩).handed
        = s.handed ++ (match s.rover_logger_ with
            | some lg =>
              if lg.active then [Handed.mk P s.forwarded_packets_ s.forwarded_bytes_] else []
            | none => [])
      ∧ ((s.worker_recv ⟨some P, send_raw_ret, send_proc_ret, now⟩).handed
            = s.handed ++ [Handed.mk P s.forwarded_packets_ s.forwarded_bytes_]
          ↔ ∃ lg, s.rover_logger_ = some lg ∧ lg.active = true)
      ∧ (s.worker_recv ⟨some P, send_raw_ret, send_proc_ret, now⟩).rover_logger_
        = (match s.rover_logger_ with
            | some lg => if lg.active then some (lg.log_packet now P) else some lg
            | none => none)
      ∧ (s.worker_recv ⟨some P, send_raw_ret, send_proc_ret, now⟩).forwarded_packets_
        = s.forwarded_packets_ + 1
      ∧ (s.worker_recv ⟨some P, send_raw_ret, send_proc_ret, now⟩).forwarded_bytes_
        = s.forwarded_bytes_ + P.length := by
  have hle : P.length ≤ buffer.length := by omega
  simp only [UdpRelay.worker_recv, hpc, worker_loop_head_counters, worker_loop_head_fields,
    recv_packet_eq buffer P hle]
  cases hlg : s.rover_logger_ with
  | none => simp
  | some lg => cases hl : lg.active <;> simp [hl]

/-- A relay given an active logger hands the datagram 01 02 03 04 over once, the counters
being 0 at that moment and 1 and 4 afterwards. -/
theorem relay_hands_datagram_to_logger_witness :
    (UdpRelay.worker_recv ⟨some [1, 2, 3, 4], 4, 4, clock0⟩
        { relay_listening with
          rover_logger_ := some { active_ := true, file_ := { is_open := true } } }).handed
      = [Handed.mk [1, 2, 3, 4] 0 0]
    ∧ (UdpRelay.worker_recv ⟨some [1, 2, 3, 4], 4, 4, clock0⟩
        { relay_listening with
          rover_logger_ := some { active_ := true, file_ := { is_open := true } } }).forwarded_packets_
      = 1 := by
  have h := relay_hands_datagram_to_logger
    { relay_listening with
      rover_logger_ := some { active_ := true, file_ := { is_open := true } } }
    [1, 2, 3, 4] 4 4 clock0 3 ⟨2130706433, 10708⟩ ⟨2130706433, 10709⟩
    (List.replicate (64 * 1024) 0) rfl (List.length_replicate _ _) (by decide)
  exact ⟨by rw [h.1]; rfl, by rw [h.2.2.2.1]; rfl⟩


theorem worker_entry_counters (sys : Sys) (s : UdpRelay) :
    (s.worker_entry sys).forwarded_packets_ = s.forwarded_packets_
      ∧ (s.worker_entry sys).forwarded_bytes_ = s.forwarded_bytes_ := by
  unfold UdpRelay.worker_entry
  generalize List.replicate (64 * 1024) 0 = buf
  cases hc : create_udp_socket sys <;>
  cases hb : make_address sys s.config_.bind_ip (static_cast_uint16 s.config_.bind_port) <;>
  cases hr : make_address sys s.config_.raw_ip (static_cast_uint16 s.config_.raw_port) <;>
  cases hp : make_address sys s.config_.proc_ip (static_cast_uint16 s.config_.proc_port) <;>
  by_cases hbind : sys.udp_bind_ret < 0 <;>
  (split <;> simp [hb, hr, hp, hbind, UdpRelay.worker_catch, worker_loop_head_counters])

theorem worker_recv_counters_le (ev : RelayEvent) (s : UdpRelay) :
    s.forwarded_packets_ ≤ (s.worker_recv ev).forwarded_packets_
      ∧ s.forwarded_bytes_ ≤ (s.worker_recv ev).forwarded_bytes_ := by
  unfold UdpRelay.worker_recv
  split
  · split
    · simp [worker_loop_head_counters]
    · simp only [worker_loop_head_counters]
      cases s.rover_logger_ with
      | none => simp
      | some lg => cases hl : lg.active <;> simp [hl]
  · simp

theorem worker_recv_error_counters (ev : RelayEvent) (s : UdpRelay) (h : ev.datagram = none) :
    (s.worker_recv ev).forwarded_packets_ = s.forwarded_packets_
      ∧ (s.worker_recv ev).forwarded_bytes_ = s.forwarded_bytes_ := by
  unfold UdpRelay.worker_recv
  split
  · simp [h, worker_loop_head_counters]
  · simp

theorem relay_join_counters (sys : Sys) (wake : Option RelayEvent) (s s2 : UdpRelay)
    (h : s.join sys wake = .returned s2) :
    (s.forwarded_packets_ ≤ s2.forwarded_packets_ ∧ s.forwarded_bytes_ ≤ s2.forwarded_bytes_)
      ∧ ((∀ ev, wake = some ev → ev.datagram = none) →
          s2.forwarded_packets_ = s.forwarded_packets_
            ∧ s2.forwarded_bytes_ = s.forwarded_bytes_) := by
  simp only [UdpRelay.join] at h
  have he := worker_entry_counters sys s
  cases wake with
  | none =>
    simp only at h
    split at h
    · simp only [Outcome.returned.injEq] at h
      rw [← h]
      simp [he]
    · cases h
  | some ev =>
    simp only at h
    have hle := worker_recv_counters_le ev (s.worker_entry sys)
    split at h
    · simp only [Outcome.returned.injEq] at h
      rw [← h]
      refine ⟨⟨by simpa [he] using hle.1, by simpa [he] using hle.2⟩, ?_⟩
      intro hno
      have := worker_recv_error_counters ev (s.worker_entry sys) (hno ev rfl)
      simp [this, he]
    · cases h

theorem relay_stop_counters (sys : Sys) (wake : Option RelayEvent) (s s2 : UdpRelay)
    (h : s.stop sys wake = .returned s2) :
    (s.forwarded_packets_ ≤ s2.forwarded_packets_ ∧ s.forwarded_bytes_ ≤ s2.forwarded_bytes_)
      ∧ ((∀ ev, wake = some ev → ev.datagram = none) →
          s2.forwarded_packets_ = s.forwarded_packets_
            ∧ s2.forwarded_bytes_ = s.forwarded_bytes_) := by
  unfold UdpRelay.stop at h
  cases hr : s.running_ with
  | false =>
    simp only [hr, Bool.not_false, if_true, Outcome.returned.injEq] at h
    rw [← h]; simp
  | true =>
    simp only [hr, Bool.not_true, Bool.false_eq_true, if_false] at h
    cases ht : s.worker_thread_ with
    | none =>
      simp only [ht, Outcome.returned.injEq] at h
      rw [← h]; simp
    | some pc =>
      simp only [ht] at h
      generalize hj : UdpRelay.join sys wake _ = o at h
      cases o with
      | returned s3 =>
        simp only [Outcome.returned.injEq] at h
        have := relay_join_counters sys wake _ s3 hj
        rw [← h]
        simpa using this
      | threw s3 w => cases h
      | terminated => cases h
      | blocked => cases h

theorem relay_start_counters (s s1 : UdpRelay) (h : s.start = .returned s1) :
    s1.forwarded_packets_ = s.forwarded_packets_ ∧ s1.forwarded_bytes_ = s.forwarded_bytes_ := by
  unfold UdpRelay.start at h
  split at h
  · simp only [Outcome.returned.injEq] at h
    rw [← h]; simp
  · simp only at h
    split at h
    · cases h
    · simp only [Outcome.returned.injEq] at h
      rw [← h]; simp

/-- C16: no operation of the relay decreases `forwarded_packets` or `forwarded_bytes`:
`start()` leaves them as they are, `stop()` leaves them as they are apart from a datagram the
worker still receives while `stop()` waits for it, the worker's set-up and a receive error
leave them as they are, and a received datagram only adds to them; `stop()` followed by
`start()` does not reset them. -/
theorem relay_counters_never_reset (s s1 s2 s3 : UdpRelay) (sys : Sys)
    (wake : Option RelayEvent) (ev : RelayEvent)
    (hstart : s.start = .returned s1) (hstop : s.stop sys wake = .returned s2)
    (hrestart : s2.start = .returned s3) :
    (s1.status.forwarded_packets = s.status.forwarded_packets
        ∧ s1.status.forwarded_bytes = s.status.forwarded_bytes)
      ∧ (s.status.forwarded_packets ≤ s2.status.forwarded_packets
        ∧ s.status.forwarded_bytes ≤ s2.status.forwarded_bytes)
      ∧ (s.status.forwarded_packets ≤ (s.worker_recv ev).status.forwarded_packets
        ∧ s.status.forwarded_bytes ≤ (s.worker_recv ev).status.forwarded_bytes)
      ∧ ((s.worker_recv { ev with datagram := none }).status.forwarded_packets
          = s.status.forwarded_packets
        ∧ (s.worker_recv { ev with datagram := none }).status.forwarded_bytes
          = s.status.forwarded_bytes)
      ∧ ((s.worker_entry sys).status.forwarded_packets = s.status.forwarded_packets
        ∧ (s.worker_entry sys).status.forwarded_bytes = s.status.forwarded_bytes)
      ∧ (s3.status.forwarded_packets = s2.status.forwarded_packets
        ∧ s3.status.forwarded_bytes = s2.status.forwarded_bytes)
      ∧ (s.status.forwarded_packets ≤ s3.status.forwarded_packets
        ∧ s.status.forwarded_bytes ≤ s3.status.forwarded_bytes)
      ∧ ((∀ e, wake = some e → e.datagram = none) →
          s3.status.forwarded_packets = s.status.forwarded_packets
            ∧ s3.status.forwarded_bytes = s.status.forwarded_bytes) := by
  have h1 := relay_start_counters s s1 hstart
  have h2 := relay_stop_counters sys wake s s2 hstop
  have h3 := relay_start_counters s2 s3 hrestart
  have h4 := worker_recv_counters_le ev s
  have h5 := worker_recv_error_counters { ev with datagram := none } s rfl
  have h6 := worker_entry_counters sys s
  simp only [UdpRelay.status]
  refine ⟨h1, h2.1, h4, h5, h6, h3, ⟨by omega, by omega⟩, ?_⟩
  intro hno
  have := h2.2 hno
  omega

/-- The relay that has counted one datagram is stopped while another datagram arrives, and
started again: `forwarded_packets` goes from 1 to 2 and stays there, and `forwarded_bytes` does
not decrease. -/
theorem relay_counters_never_reset_witness :
    relay_counted.start = .returned relay_counted
      ∧ relay_counted.status.forwarded_packets = 1
      ∧ ((relay_counted.stop sys_ok (some late_datagram)).get {}).status.forwarded_packets = 2
      ∧ ((((relay_counted.stop sys_ok (some late_datagram)).get {}).start).get
          {}).status.forwarded_packets = 2
      ∧ relay_counted.status.forwarded_bytes
          ≤ ((((relay_counted.stop sys_ok (some late_datagram)).get {}).start).get
            {}).status.forwarded_bytes := by
  have h := relay_counters_never_reset relay_counted relay_counted
    ((relay_counted.stop sys_ok (some late_datagram)).get {})
    ((((relay_counted.stop sys_ok (some late_datagram)).get {}).start).get {})
    sys_ok (some late_datagram) late_datagram rfl rfl rfl
  exact ⟨rfl, rfl, rfl, rfl, h.2.2.2.2.2.2.1.2⟩

/-- C17: when `bind` fails in the relay worker, `running_` becomes false, the socket that was
created is closed, the worker returns without having sent or counted anything, and no later
return of `recvfrom` is handled by it. -/
theorem relay_bind_failure_stops (s : UdpRelay) (sys : Sys) (a : Nat) (evs : List RelayEvent)
    (hpc : s.worker_thread_ = some .entry) (hsock : 0 ≤ sys.udp_socket_ret)
    (hip : sys.inet_pton s.config_.bind_ip = some a) (hbind : sys.udp_bind_ret < 0) :
    (s.worker_entry sys).status.running = false
      ∧ (s.worker_entry sys).open_fds = s.open_fds
      ∧ (s.worker_entry sys).worker_thread_ = some .done
      ∧ (s.worker_entry sys).logged = s.logged ++ ["Failed to bind UDP relay socket"]
      ∧ (s.worker_entry sys).sent = s.sent
      ∧ (s.worker_entry sys).handed = s.handed
      ∧ (s.worker_entry sys).status.forwarded_packets = s.status.forwarded_packets
      ∧ (s.worker_entry sys).status.forwarded_bytes = s.status.forwarded_bytes
      ∧ evs.foldl (fun t ev => t.worker_recv ev) (s.worker_entry sys) = s.worker_entry sys := by
  have hn : ¬ (sys.udp_socket_ret < 0) := by omega
  have hstate : s.worker_entry sys
      = { s with logged := s.logged ++ ["Failed to bind UDP relay socket"], running_ := false,
                 worker_thread_ := some .done } := by
    simp [UdpRelay.worker_entry, hpc, create_udp_socket, hn, make_address, hip, hbind,
      close_socket, hsock]
  have hdone : ∀ (t : UdpRelay) (ev : RelayEvent), t.worker_thread_ = some .done →
      t.worker_recv ev = t := by
    intro t ev ht
    simp [UdpRelay.worker_recv, ht]
  have hfold : ∀ (l : List RelayEvent) (t : UdpRelay), t.worker_thread_ = some .done →
      l.foldl (fun t ev => t.worker_recv ev) t = t := by
    intro l
    induction l with
    | nil => intro t _; rfl
    | cons e rest ih =>
      intro t ht
      rw [List.foldl_cons, hdone t e ht]
      exact ih t ht
  refine ⟨?_, ?_, ?_, ?_, ?_, ?_, ?_, ?_, ?_⟩
  · rw [hstate]; rfl
  · rw [hstate]
  · rw [hstate]
  · rw [hstate]
  · rw [hstate]
  · rw [hstate]
  · rw [hstate]; rfl
  · rw [hstate]; rfl
  · exact hfold evs _ (by rw [hstate])

/-- The default relay, started, with `bind` failing; two datagrams offered afterwards. -/
theorem relay_bind_failure_stops_witness :
    relay_bind_failed.status = { running := false, forwarded_packets := 0, forwarded_bytes := 0 }
      ∧ relay_bind_failed.open_fds = []
      ∧ relay_bind_failed.sent = []
      ∧ [late_datagram, late_datagram].foldl (fun t ev => t.worker_recv ev) relay_bind_failed
          = relay_bind_failed := by
  have h := relay_bind_failure_stops ((UdpRelay.start {}).get {}) sys_udp_bind_fails 2130706433
    [late_datagram, late_datagram] rfl (by decide) rfl (by decide)
  exact ⟨rfl, rfl, rfl, h.2.2.2.2.2.2.2.2⟩

/-- C18: with the `enable` setting false, `UdpRelay::start()` returns the state it was given:
the running flag, the thread handle, the open descriptors and the counters are unchanged. -/
theorem relay_start_disabled_noop (s : UdpRelay) (h : s.config_.enable = false) :
    s.start = .returned s := by
  simp [UdpRelay.start, h]

/-- A disabled relay, stopped or (were it ever running) running, is left as it is. -/
theorem relay_start_disabled_noop_witness :
    relay_disabled.start = .returned relay_disabled
      ∧ UdpRelay.start { relay_disabled with forwarded_packets_ := 7, open_fds := [5] }
        = .returned { relay_disabled with forwarded_packets_ := 7, open_fds := [5] } :=
  ⟨relay_start_disabled_noop relay_disabled rfl,
    relay_start_disabled_noop { relay_disabled with forwarded_packets_ := 7, open_fds := [5] } rfl⟩


/-! ## Theorems: repeated calls of `start()` and `stop()` -/

theorem logger_start_failing (now : Clock) (s : RoverRelayLogger) (h : s.active_ = false) :
    ∃ s1, s.start now true false = .returned s1 ∧ s1.active_ = false
      ∧ s1.written = s.written ∧ s1.lines_ = s.lines_ := by
  cases ho : s.file_.is_open <;>
    simp [RoverRelayLogger.start, RoverRelayLogger.open_file, h, ho]

theorem logger_call_inactive (c : LoggerCall) (s : RoverRelayLogger) (h : s.active_ = false) :
    (s.call c).active_ = false ∧ (s.call c).written = s.written ∧ (s.call c).lines_ = s.lines_ := by
  cases c with
  | log_packet now p =>
    simp [RoverRelayLogger.call, log_packet_of_inactive now p s h, h]
  | stop =>
    have hs : s.stop = s := by simp [RoverRelayLogger.stop, h]
    simp [RoverRelayLogger.call, hs, h]
  | start_failing now =>
    obtain ⟨s1, h1, h2, h3, h4⟩ := logger_start_failing now s h
    simp [RoverRelayLogger.call, h1, Outcome.get, h2, h3, h4]

theorem logger_calls_inactive (cs : List LoggerCall) (s : RoverRelayLogger)
    (h : s.active_ = false) :
    (s.calls cs).active_ = false ∧ (s.calls cs).written = s.written
      ∧ (s.calls cs).lines_ = s.lines_ := by
  induction cs generalizing s with
  | nil => exact ⟨h, rfl, rfl⟩
  | cons c rest ih =>
    have hc := logger_call_inactive c s h
    have hr := ih (s.call c) hc.1
    have hfold : s.calls (c :: rest) = (s.call c).calls rest := rfl
    rw [hfold]
    exact ⟨hr.1, by rw [hr.2.1, hc.2.1], by rw [hr.2.2, hc.2.2]⟩

/-- C19: when the log file does not open in `RoverRelayLogger::start()`, the call returns with
`active()` false, and whatever follows short of a successful `start()` (calls of `log_packet`,
of `stop()`, further `start()` calls whose open fails) writes nothing and leaves
`lines_written()` unchanged. -/
theorem logger_open_failure_stays_inactive (s : RoverRelayLogger) (now : Clock)
    (later : List LoggerCall) (h : s.active = false) :
    ∃ s1, s.start now true false = .returned s1
      ∧ s1.active = false
      ∧ s1.written = s.written
      ∧ s1.lines_written = s.lines_written
      ∧ s1.logged = s.logged ++ ["Failed to open rover relay log file"]
      ∧ (s1.calls later).active = false
      ∧ (s1.calls later).written = s.written
      ∧ (s1.calls later).lines_written = s.lines_written := by
  have h0 : s.active_ = false := h
  have hlog : ∃ s1, s.start now true false = .returned s1 ∧ s1.active_ = false
      ∧ s1.written = s.written ∧ s1.lines_ = s.lines_
      ∧ s1.logged = s.logged ++ ["Failed to open rover relay log file"] := by
    cases ho : s.file_.is_open <;>
      simp [RoverRelayLogger.start, RoverRelayLogger.open_file, h0, ho]
  obtain ⟨s1, h1, h2, h3, h4, h5⟩ := hlog
  have hc := logger_calls_inactive later s1 h2
  exact ⟨s1, h1, h2, h3, h4, h5, hc.1, by rw [hc.2.1, h3],
    by simp only [RoverRelayLogger.lines_written]; rw [hc.2.2, h4]⟩

/-- A fresh logger whose file does not open, then two `log_packet` calls around a `stop()` and
a second failing `start()`. -/
theorem logger_open_failure_stays_inactive_witness :
    ∃ s1, RoverRelayLogger.start clock0 true false {} = .returned s1
      ∧ s1.active = false
      ∧ (s1.calls [.log_packet clock0 [1, 2], .stop, .start_failing clock0,
          .log_packet clock0 [3]]).written = []
      ∧ (s1.calls [.log_packet clock0 [1, 2], .stop, .start_failing clock0,
          .log_packet clock0 [3]]).lines_written = 0 := by
  obtain ⟨s1, h1, h2, _, _, _, _, h7, h8⟩ := logger_open_failure_stays_inactive {} clock0
    [.log_packet clock0 [1, 2], .stop, .start_failing clock0, .log_packet clock0 [3]] rfl
  exact ⟨s1, h1, h2, h7, h8⟩


theorem gimbal_start_running (g0 g1 : GimbalControl) (h : g0.start = .returned g1) :
    g1.running_ = true := by
  unfold GimbalControl.start at h
  cases hr : g0.running_ with
  | true =>
    simp only [hr, if_true, Outcome.returned.injEq] at h
    rw [← h]; exact hr
  | false =>
    simp only [hr, Bool.false_eq_true, if_false] at h
    split at h
    · cases h
    · simp only [Outcome.returned.injEq] at h
      rw [← h]

theorem relay_start_twice (r0 r1 : UdpRelay) (h : r0.start = .returned r1) :
    r1.start = .returned r1 := by
  unfold UdpRelay.start at h
  cases hr : r0.running_ with
  | true =>
    simp only [hr, Bool.true_or, if_true, Outcome.returned.injEq] at h
    rw [← h]; simp [UdpRelay.start, hr]
  | false =>
    cases he : r0.config_.enable with
    | false =>
      simp only [hr, he, Bool.not_false, Bool.or_true, if_true, Outcome.returned.injEq] at h
      rw [← h]; simp [UdpRelay.start, he]
    | true =>
      simp only [hr, he, Bool.not_true, Bool.or_false, Bool.false_eq_true, if_false] at h
      split at h
      · cases h
      · simp only [Outcome.returned.injEq] at h
        rw [← h]; simp [UdpRelay.start]

/-- C12 (as the code has it): `start()` on an instance that is already running/active and
`stop()` on one that is already stopped/inactive return the state they were given, for each of
`GimbalControl`, `ImageStreamBridge`, `UdpRelay` and `RoverRelayLogger`; hence a second
`start()` changes nothing whenever the first one left the instance running/active, which it
always does for `GimbalControl` and `UdpRelay` (the latter when enabled; when disabled both
calls change nothing). -/
theorem start_stop_idempotent (g gs : GimbalControl) (b bs : ImageStreamBridge)
    (r rs : UdpRelay) (l ls : RoverRelayLogger) (sys : Sys) (send_ret : Int)
    (uw : Option (Option (List Nat) × Nat)) (tw : Option Int) (wake : Option RelayEvent)
    (now : Clock) (mkdir_ok open_ok : Bool)
    (hg : g.running_ = true) (hgs : gs.running_ = false)
    (hb : b.running_ = true) (hbs : bs.running_ = false)
    (hr : r.running_ = true) (hrs : rs.running_ = false)
    (hl : l.active = true) (hls : ls.active = false) :
    (g.start = .returned g ∧ gs.stop sys send_ret = .returned gs)
      ∧ (b.start sys = .returned b ∧ bs.stop uw tw = .returned bs)
      ∧ (r.start = .returned r ∧ rs.stop sys wake = .returned rs)
      ∧ (l.start now mkdir_ok open_ok = .returned l ∧ ls.stop = ls)
      ∧ (∀ g0 g1 : GimbalControl, g0.start = .returned g1 → g1.start = .returned g1)
      ∧ (∀ r0 r1 : UdpRelay, r0.start = .returned r1 → r1.start = .returned r1)
      ∧ (∀ (b0 b1 : ImageStreamBridge) (sys0 sys1 : Sys), b0.start sys0 = .returned b1 →
          b1.running_ = true → b1.start sys1 = .returned b1)
      ∧ (∀ (l0 l1 : RoverRelayLogger) (t0 t1 : Clock) (m0 o0 m1 o1 : Bool),
          l0.start t0 m0 o0 = .returned l1 → l1.active = true →
          l1.start t1 m1 o1 = .returned l1) := by
  have hl0 : l.active_ = true := hl
  have hls0 : ls.active_ = false := hls
  refine ⟨⟨?_, ?_⟩, ⟨?_, ?_⟩, ⟨?_, ?_⟩, ⟨?_, ?_⟩, ?_, ?_, ?_, ?_⟩
  · simp [GimbalControl.start, hg]
  · simp [GimbalControl.stop, hgs]
  · simp [ImageStreamBridge.start, hb]
  · simp [ImageStreamBridge.stop, hbs]
  · simp [UdpRelay.start, hr]
  · simp [UdpRelay.stop, hrs]
  · simp [RoverRelayLogger.start, hl0]
  · simp [RoverRelayLogger.stop, hls0]
  · intro g0 g1 h
    have := gimbal_start_running g0 g1 h
    simp [GimbalControl.start, this]
  · exact relay_start_twice
  · intro b0 b1 sys0 sys1 _ h1
    simp [ImageStreamBridge.start, h1]
  · intro l0 l1 t0 t1 m0 o0 m1 o1 _ h1
    have h2 : l1.active_ = true := h1
    simp [RoverRelayLogger.start, h2]

/-- Running and stopped instances of the four classes with their default settings. -/
theorem start_stop_idempotent_witness :
    (GimbalControl.start { running_ := true, worker_thread_ := some .entry }
        = .returned { running_ := true, worker_thread_ := some .entry }
      ∧ GimbalControl.stop sys_ok 32 {} = .returned {})
      ∧ (ImageStreamBridge.start sys_ok bridge_listening = .returned bridge_listening
        ∧ ImageStreamBridge.stop none none {} = .returned {})
      ∧ (relay_listening.start = .returned relay_listening
        ∧ UdpRelay.stop sys_ok none {} = .returned {})
      ∧ (RoverRelayLogger.start clock0 true true
            { active_ := true, file_ := { is_open := true } }
          = .returned { active_ := true, file_ := { is_open := true } }
        ∧ RoverRelayLogger.stop {} = {}) := by
  have h := start_stop_idempotent { running_ := true, worker_thread_ := some .entry } {}
    bridge_listening {} relay_listening {} { active_ := true, file_ := { is_open := true } } {}
    sys_ok 32 none none none clock0 true true rfl rfl rfl rfl rfl rfl rfl rfl
  exact ⟨h.1, h.2.1, h.2.2.1, h.2.2.2.1⟩

/-- C12 (as stated) fails in its last part: after a first `start()` that failed, the second
`start()` is not a no-op. A logger whose file did not open is inactive after one `start()` and
active, with a file open, after a second one in which the file opens; a bridge whose datagram
`bind` failed is stopped with nothing open after one `start()` and running, with two sockets
open and two threads spawned, after a second one in which the calls succeed. -/
theorem second_start_retries_after_failure :
    ((RoverRelayLogger.start clock0 true false {}).get {}).active = false
      ∧ ((RoverRelayLogger.start clock0 true true
            ((RoverRelayLogger.start clock0 true false {}).get {})).get {}).active = true
      ∧ ((RoverRelayLogger.start clock0 true true
            ((RoverRelayLogger.start clock0 true false {}).get {})).get {}).file_.is_open = true
      ∧ ((ImageStreamBridge.start sys_udp_bind_fails {}).state.map
            (fun s => (s.running_, s.open_fds, s.udp_thread_.isSome, s.tcp_thread_.isSome)))
          = some (false, [], false, false)
      ∧ ((ImageStreamBridge.start sys_ok
            ((ImageStreamBridge.start sys_udp_bind_fails {}).get {})).state.map
            (fun s => (s.running_, s.open_fds, s.udp_thread_.isSome, s.tcp_thread_.isSome)))
          = some (true, [4, 3], true, true) := by
  decide


/-! ## Theorems: what `stop()` leaves behind -/

theorem gimbal_loop_head_data (sock : Int) (target : sockaddr_in) (g : GimbalControl) :
    g.same_data (g.worker_loop_head sock target) := by
  unfold GimbalControl.worker_loop_head GimbalControl.same_data
  split <;> simp

theorem gimbal_same_data_trans (g g2 g3 : GimbalControl) (h1 : g.same_data g2)
    (h2 : g2.same_data g3) : g.same_data g3 := by
  obtain ⟨a1, a2, a3, a4, a5⟩ := h1
  obtain ⟨b1, b2, b3, b4, b5⟩ := h2
  exact ⟨by rw [b1, a1], by rw [b2, a2], by rw [b3, a3], by rw [b4, a4], by rw [b5, a5]⟩

theorem gimbal_worker_entry_data (sys : Sys) (g : GimbalControl) :
    g.same_data (g.worker_entry sys) := by
  unfold GimbalControl.worker_entry
  cases hc : create_udp_socket sys <;>
  cases hm : make_address sys g.config_.generator_ip
    (static_cast_uint16 g.config_.generator_port) <;>
  (split <;> simp [hm, GimbalControl.worker_catch, GimbalControl.same_data,
    GimbalControl.worker_loop_head] <;> split <;> simp)

theorem gimbal_worker_send_data (send_ret : Int) (g : GimbalControl) :
    g.same_data (g.worker_send send_ret) := by
  unfold GimbalControl.worker_send GimbalControl.same_data
  split <;> simp

theorem gimbal_worker_wake_data (g : GimbalControl) : g.same_data g.worker_wake := by
  unfold GimbalControl.worker_wake
  split
  · exact gimbal_loop_head_data _ _ g
  · simp [GimbalControl.same_data]

theorem gimbal_join_data (sys : Sys) (send_ret : Int) (g g2 : GimbalControl)
    (h : g.join sys send_ret = .returned g2) : g.same_data g2 := by
  have h3 := gimbal_same_data_trans _ _ _
    (gimbal_same_data_trans _ _ _ (gimbal_worker_entry_data sys g)
      (gimbal_worker_send_data send_ret _)) (gimbal_worker_wake_data _)
  simp only [GimbalControl.join] at h
  split at h
  · simp only [Outcome.returned.injEq] at h
    rw [← h]
    exact h3
  · cases h

theorem gimbal_stop_data (sys : Sys) (send_ret : Int) (g g2 : GimbalControl)
    (h : g.stop sys send_ret = .returned g2) :
    g2.running_ = false ∧ g2.yaw_ = g.yaw_ ∧ g2.pitch_ = g.pitch_ ∧ g2.roll_ = g.roll_
      ∧ g2.zoom_ = g.zoom_ := by
  unfold GimbalControl.stop at h
  cases hr : g.running_ with
  | false =>
    simp only [hr, Bool.not_false, if_true, Outcome.returned.injEq] at h
    rw [← h]; exact ⟨hr, rfl, rfl, rfl, rfl⟩
  | true =>
    simp only [hr, Bool.not_true, Bool.false_eq_true, if_false] at h
    cases ht : g.worker_thread_ with
    | none =>
      simp only [ht, Outcome.returned.injEq] at h
      rw [← h]; exact ⟨rfl, rfl, rfl, rfl, rfl⟩
    | some pc =>
      simp only [ht] at h
      generalize hj : GimbalControl.join sys send_ret _ = o at h
      cases o with
      | returned g3 =>
        simp only [Outcome.returned.injEq] at h
        have hd := gimbal_join_data sys send_ret _ g3 hj
        rw [← h]
        exact hd
      | threw g3 w => cases h
      | terminated => cases h
      | blocked => cases h

theorem relay_worker_entry_running (sys : Sys) (s : UdpRelay) (h : s.running_ = false) :
    (s.worker_entry sys).running_ = false := by
  unfold UdpRelay.worker_entry
  generalize List.replicate (64 * 1024) 0 = buf
  cases hc : create_udp_socket sys <;>
  cases hb : make_address sys s.config_.bind_ip (static_cast_uint16 s.config_.bind_port) <;>
  cases hr : make_address sys s.config_.raw_ip (static_cast_uint16 s.config_.raw_port) <;>
  cases hp : make_address sys s.config_.proc_ip (static_cast_uint16 s.config_.proc_port) <;>
  by_cases hbind : sys.udp_bind_ret < 0 <;>
  (split <;> simp [hb, hr, hp, hbind, h, UdpRelay.worker_catch, worker_loop_head_counters])

theorem relay_stop_running (sys : Sys) (wake : Option RelayEvent) (s s2 : UdpRelay)
    (h : s.stop sys wake = .returned s2) : s2.running_ = false := by
  unfold UdpRelay.stop at h
  cases hr : s.running_ with
  | false =>
    simp only [hr, Bool.not_false, if_true, Outcome.returned.injEq] at h
    rw [← h]; exact hr
  | true =>
    simp only [hr, Bool.not_true, Bool.false_eq_true, if_false] at h
    cases ht : s.worker_thread_ with
    | none =>
      simp only [ht, Outcome.returned.injEq] at h
      rw [← h]
    | some pc =>
      simp only [ht] at h
      generalize hj : UdpRelay.join sys wake _ = o at h
      cases o with
      | returned s3 =>
        simp only [Outcome.returned.injEq] at h
        rw [← h]
        simp only [UdpRelay.join] at hj
        have he := relay_worker_entry_running sys
          { s with running_ := false, worker_thread_ := some pc } rfl
        cases wake with
        | none =>
          simp only at hj
          split at hj
          · simp only [Outcome.returned.injEq] at hj
            rw [← hj]; exact he
          · cases hj
        | some ev =>
          simp only at hj
          split at hj
          · simp only [Outcome.returned.injEq] at hj
            rw [← hj]
            show (UdpRelay.worker_recv ev _).running_ = false
            rw [worker_recv_running]; exact he
          · cases hj
      | threw s3 w => cases h
      | terminated => cases h
      | blocked => cases h


theorem bridge_same_handles_trans (b b2 b3 : ImageStreamBridge) (h1 : b.same_handles b2)
    (h2 : b2.same_handles b3) : b.same_handles b3 := by
  obtain ⟨a1, a2, a3⟩ := h1
  obtain ⟨c1, c2, c3⟩ := h2
  exact ⟨by rw [c1, a1], by rw [c2, a2], by rw [c3, a3]⟩

theorem bridge_same_frame_trans (b b2 b3 : ImageStreamBridge) (h1 : b.same_frame b2)
    (h2 : b2.same_frame b3) : b.same_frame b3 := by
  obtain ⟨a1, a2⟩ := h1
  obtain ⟨c1, c2⟩ := h2
  exact ⟨by rw [c1, a1], by rw [c2, a2]⟩

theorem udp_loop_head_same (buffer : List Nat) (b : ImageStreamBridge) :
    b.same_handles (b.udp_loop_head buffer) ∧ b.same_frame (b.udp_loop_head buffer) := by
  unfold ImageStreamBridge.udp_loop_head ImageStreamBridge.same_handles
    ImageStreamBridge.same_frame
  split <;> simp

theorem udp_loop_entry_same (b : ImageStreamBridge) :
    b.same_handles b.udp_loop_entry ∧ b.same_frame b.udp_loop_entry := by
  unfold ImageStreamBridge.udp_loop_entry
  generalize List.replicate (2 * 1024 * 1024) 0 = buf
  split
  · exact udp_loop_head_same buf b
  · simp [ImageStreamBridge.same_handles, ImageStreamBridge.same_frame]

theorem udp_loop_recv_same (d : Option (List Nat)) (now : Nat) (b : ImageStreamBridge) :
    b.same_handles (b.udp_loop_recv d now)
      ∧ (d = none → b.same_frame (b.udp_loop_recv d now)) := by
  unfold ImageStreamBridge.udp_loop_recv
  split
  · next buffer _ =>
    cases d with
    | none =>
      simp only
      exact ⟨(udp_loop_head_same buffer b).1, fun _ => (udp_loop_head_same buffer b).2⟩
    | some P =>
      simp only
      refine ⟨?_, fun h => by cases h⟩
      have := (udp_loop_head_same (recv_into buffer P)
        { b with last_frame_ := (recv_into buffer P).take (recv_count buffer P),
                 last_frame_time_ := now }).1
      exact this
  · simp [ImageStreamBridge.same_handles, ImageStreamBridge.same_frame]

theorem tcp_loop_head_same (b : ImageStreamBridge) :
    b.same_handles b.tcp_loop_head ∧ b.same_frame b.tcp_loop_head := by
  unfold ImageStreamBridge.tcp_loop_head ImageStreamBridge.same_handles
    ImageStreamBridge.same_frame
  split <;> simp

theorem tcp_loop_entry_same (b : ImageStreamBridge) :
    b.same_handles b.tcp_loop_entry ∧ b.same_frame b.tcp_loop_entry := by
  unfold ImageStreamBridge.tcp_loop_entry
  split
  · exact tcp_loop_head_same b
  · simp [ImageStreamBridge.same_handles, ImageStreamBridge.same_frame]

theorem tcp_loop_accept_same (fd : Int) (b : ImageStreamBridge) :
    b.same_handles (b.tcp_loop_accept fd) ∧ b.same_frame (b.tcp_loop_accept fd) := by
  unfold ImageStreamBridge.tcp_loop_accept
  split
  · split
    · exact tcp_loop_head_same b
    · simp only
      exact tcp_loop_head_same
        { b with open_fds := fd :: b.open_fds, tcp_clients_ := b.tcp_clients_ + 1,
                 clients := b.clients ++ [Client.mk fd .entry] }
  · simp [ImageStreamBridge.same_handles, ImageStreamBridge.same_frame]

theorem bridge_join_udp_same (uw : Option (Option (List Nat) × Nat)) (b b2 : ImageStreamBridge)
    (h : b.join_udp uw = .returned b2) :
    b.same_handles b2 ∧ (brings_datagram uw = false → b.same_frame b2) := by
  unfold ImageStreamBridge.join_udp at h
  split at h
  · simp only [Outcome.returned.injEq] at h
    rw [← h]
    simp [ImageStreamBridge.same_handles, ImageStreamBridge.same_frame]
  · simp only at h
    have he := udp_loop_entry_same b
    cases uw with
    | none =>
      simp only at h
      split at h
      · simp only [Outcome.returned.injEq] at h
        rw [← h]
        exact ⟨he.1, fun _ => he.2⟩
      · cases h
    | some w =>
      obtain ⟨d, now⟩ := w
      simp only at h
      have hr := udp_loop_recv_same d now b.udp_loop_entry
      split at h
      · simp only [Outcome.returned.injEq] at h
        rw [← h]
        refine ⟨bridge_same_handles_trans _ _ _ he.1 hr.1, ?_⟩
        intro hb
        have hd : d = none := by
          cases d with
          | none => rfl
          | some P => simp [brings_datagram] at hb
        exact bridge_same_frame_trans _ _ _ he.2 (hr.2 hd)
      · cases h

theorem bridge_join_tcp_same (tw : Option Int) (b b2 : ImageStreamBridge)
    (h : b.join_tcp tw = .returned b2) : b.same_handles b2 ∧ b.same_frame b2 := by
  unfold ImageStreamBridge.join_tcp at h
  split at h
  · simp only [Outcome.returned.injEq] at h
    rw [← h]
    simp [ImageStreamBridge.same_handles, ImageStreamBridge.same_frame]
  · simp only at h
    have he := tcp_loop_entry_same b
    cases tw with
    | none =>
      simp only at h
      split at h
      · simp only [Outcome.returned.injEq] at h
        rw [← h]
        exact he
      · cases h
    | some fd =>
      simp only at h
      have hr := tcp_loop_accept_same fd b.tcp_loop_entry
      split at h
      · simp only [Outcome.returned.injEq] at h
        rw [← h]
        exact ⟨bridge_same_handles_trans _ _ _ he.1 hr.1,
          bridge_same_frame_trans _ _ _ he.2 hr.2⟩
      · cases h

theorem bridge_stop_data (uw : Option (Option (List Nat) × Nat)) (tw : Option Int)
    (b b2 : ImageStreamBridge) (h : b.stop uw tw = .returned b2) :
    b2.running_ = false
      ∧ (b.running_ = true → b2.udp_socket_ < 0 ∧ b2.tcp_socket_ < 0)
      ∧ (brings_datagram uw = false → b.same_frame b2) := by
  unfold ImageStreamBridge.stop at h
  cases hr : b.running_ with
  | false =>
    simp only [hr, Bool.not_false, if_true, Outcome.returned.injEq] at h
    rw [← h]
    exact ⟨hr, (fun hc => by cases hc), (fun _ => ⟨rfl, rfl⟩)⟩
  | true =>
    simp only [hr, Bool.not_true, Bool.false_eq_true, if_false] at h
    generalize hs0 : (if (if b.udp_socket_ ≥ 0 then _ else _ : ImageStreamBridge).tcp_socket_ ≥ 0
      then _ else _ : ImageStreamBridge) = s0 at h
    have hs0p : s0.running_ = false ∧ s0.udp_socket_ < 0 ∧ s0.tcp_socket_ < 0
        ∧ b.same_frame s0 := by
      rw [← hs0]
      by_cases h1 : b.udp_socket_ ≥ 0 <;> by_cases h2 : b.tcp_socket_ ≥ 0 <;>
        simp [h1, h2, ImageStreamBridge.same_frame] <;> omega
    generalize hj : ImageStreamBridge.join_udp uw s0 = o at h
    cases o with
    | returned s3 =>
      simp only at h
      generalize hj2 : ImageStreamBridge.join_tcp tw s3 = o2 at h
      cases o2 with
      | returned s4 =>
        simp only [Outcome.returned.injEq] at h
        have h1 := bridge_join_udp_same uw s0 s3 hj
        have h2 := bridge_join_tcp_same tw s3 s4 hj2
        have hh := bridge_same_handles_trans _ _ _ h1.1 h2.1
        obtain ⟨q1, q2, q3⟩ := hh
        rw [← h]
        refine ⟨by simp [q1, hs0p.1], fun _ => ⟨by simp [q2, hs0p.2.1], by simp [q3, hs0p.2.2.1]⟩,
          ?_⟩
        intro hb
        have hf := bridge_same_frame_trans _ _ _ hs0p.2.2.2
          (bridge_same_frame_trans _ _ _ (h1.2 hb) h2.2)
        exact hf
      | threw s4 w => cases h
      | terminated => cases h
      | blocked => cases h
    | threw s3 w => cases h
    | terminated => cases h
    | blocked => cases h


theorem relay_stop_late_datagram (r : UdpRelay) (sys : Sys) (ev : RelayEvent) (P : List Nat)
    (sock : Int) (raw proc : sockaddr_in) (buf : List Nat)
    (hrun : r.running_ = true) (hpc : r.worker_thread_ = some (.recv sock raw proc buf))
    (hev : ev.datagram = some P) (hP : P.length ≤ buf.length) :
    ∃ r2, r.stop sys (some ev) = .returned r2
      ∧ r2.forwarded_packets_ = r.forwarded_packets_ + 1
      ∧ r2.forwarded_bytes_ = r.forwarded_bytes_ + P.length := by
  simp only [UdpRelay.stop, hrun, hpc, UdpRelay.join, UdpRelay.worker_entry,
    UdpRelay.worker_recv, hev, recv_packet_eq buf P hP, UdpRelay.worker_loop_head]
  cases r.rover_logger_ with
  | none => simp
  | some lg => cases hl : lg.active <;> simp [hl]

/-- C20 (as the code has it): `stop()` itself writes no data field and clears the running
flag(s). The gimbal's pose after `stop()` is the pose before it. The relay's counters and the
bridge's frame fields after `stop()` are those before it unless the worker receives one more
datagram while `stop()` waits for it in `join`; a relay worker parked in `recvfrom` that is
released by a datagram forwards and counts it before `stop()` returns. -/
theorem stop_keeps_data_fields (g g2 : GimbalControl) (r r2 : UdpRelay)
    (b b2 : ImageStreamBridge) (sys : Sys) (send_ret : Int) (wake : Option RelayEvent)
    (uw : Option (Option (List Nat) × Nat)) (tw : Option Int)
    (hg : g.stop sys send_ret = .returned g2) (hr : r.stop sys wake = .returned r2)
    (hb : b.stop uw tw = .returned b2) :
    g2.status = { g.status with running := false }
      ∧ (r2.status.running = false
        ∧ r.status.forwarded_packets ≤ r2.status.forwarded_packets
        ∧ r.status.forwarded_bytes ≤ r2.status.forwarded_bytes)
      ∧ (relay_brings_datagram wake = false → r2.status = { r.status with running := false })
      ∧ (∀ (sock : Int) (raw proc : sockaddr_in) (buf : List Nat) (ev : RelayEvent)
          (P : List Nat), r.running_ = true →
          r.worker_thread_ = some (.recv sock raw proc buf) → wake = some ev →
          ev.datagram = some P → P.length ≤ buf.length →
          r2.status.forwarded_packets = r.status.forwarded_packets + 1
            ∧ r2.status.forwarded_bytes = r.status.forwarded_bytes + P.length)
      ∧ (b2.status.udp_running = false ∧ b2.status.tcp_running = false)
      ∧ (brings_datagram uw = false →
          b2.status.last_frame_bytes = b.status.last_frame_bytes
            ∧ b2.status.last_frame_time = b.status.last_frame_time) := by
  have h1 := gimbal_stop_data sys send_ret g g2 hg
  have h2 := relay_stop_running sys wake r r2 hr
  have h3 := relay_stop_counters sys wake r r2 hr
  have h4 := bridge_stop_data uw tw b b2 hb
  refine ⟨?_, ⟨?_, h3.1.1, h3.1.2⟩, ?_, ?_, ⟨?_, ?_⟩, ?_⟩
  · obtain ⟨a1, a2, a3, a4, a5⟩ := h1
    simp [GimbalControl.status, a1, a2, a3, a4, a5]
  · exact h2
  · intro hw
    have hno : ∀ ev, wake = some ev → ev.datagram = none := by
      intro ev hev
      rw [hev] at hw
      simpa [relay_brings_datagram] using hw
    have := h3.2 hno
    simp [UdpRelay.status, h2, this.1, this.2]
  · intro sock raw proc buf ev P hrun hpc hw hev hP
    obtain ⟨r3, e1, e2, e3⟩ := relay_stop_late_datagram r sys ev P sock raw proc buf hrun hpc
      hev hP
    rw [hw, e1] at hr
    simp only [Outcome.returned.injEq] at hr
    rw [← hr]
    exact ⟨e2, e3⟩
  · simp [ImageStreamBridge.status, h4.1]
  · simp [ImageStreamBridge.status, h4.1]
  · intro hbr
    obtain ⟨f1, f2⟩ := h4.2.2 hbr
    simp [ImageStreamBridge.status, f1, f2]

/-- A gimbal holding a pose, the relay that has counted one datagram and a listening bridge
are stopped, the relay and the bridge being released by a receive error. -/
theorem stop_keeps_data_fields_witness :
    ((GimbalControl.stop sys_ok 32
        ((GimbalControl.start { yaw_ := 3 / 2, zoom_ := 2 }).get {})).get {}).status
        = { running := false, yaw := 3 / 2, pitch := 0, roll := 0, zoom := 2 }
      ∧ ((relay_counted.stop sys_ok (some ⟨none, 0, 0, clock0⟩)).get {}).status.running = false
      ∧ relay_counted.status.forwarded_packets
          ≤ ((relay_counted.stop sys_ok (some ⟨none, 0, 0, clock0⟩)).get
              {}).status.forwarded_packets
      ∧ ((bridge_listening.stop (some (none, 5)) (some (-1))).get {}).status.udp_running
          = false := by
  have h := stop_keeps_data_fields ((GimbalControl.start { yaw_ := 3 / 2, zoom_ := 2 }).get {})
    ((GimbalControl.stop sys_ok 32
      ((GimbalControl.start { yaw_ := 3 / 2, zoom_ := 2 }).get {})).get {})
    relay_counted ((relay_counted.stop sys_ok (some ⟨none, 0, 0, clock0⟩)).get {})
    bridge_listening ((bridge_listening.stop (some (none, 5)) (some (-1))).get {})
    sys_ok 32 (some ⟨none, 0, 0, clock0⟩) (some (none, 5)) (some (-1)) rfl rfl rfl
  exact ⟨h.1, h.2.1.1, h.2.1.2.1, h.2.2.2.2.1.1⟩

/-- C20 (as stated) fails for the relay and the bridge: the relay that has counted one
datagram and whose worker waits in `recvfrom` reports `forwarded_packets == 1` before
`stop()`; `stop()` does not return while nothing arrives, and when a datagram arrives it is
counted before `stop()` returns, so that `forwarded_packets == 2` right after it. A bridge
whose ingress worker is released by a datagram at time 100 reports that time after `stop()`. -/
theorem stop_counts_late_datagram :
    relay_counted.status.forwarded_packets = 1
      ∧ (relay_counted.stop sys_ok none).state.isNone = true
      ∧ (relay_counted.stop sys_ok (some late_datagram)).state.map
          (fun s => (s.status.running, s.status.forwarded_packets)) = some (false, 2)
      ∧ bridge_listening.status.last_frame_time = 0
      ∧ (bridge_listening.stop (some (some [7, 8, 9], 100)) none).state.map
          (fun s => (s.status.udp_running, s.status.last_frame_time)) = some (false, 100) := by
  refine ⟨rfl, rfl, rfl, rfl, rfl⟩


/-! ## Theorems: `start()` followed by `stop()` -/

/-- Whenever `stop()` returns, `status()` reports the service as not running, for the gimbal
transmitter, the relay and the image bridge; and a bridge that was running has both handles
negative. -/
theorem stop_returns_stopped (g g2 : GimbalControl) (r r2 : UdpRelay)
    (b b2 : ImageStreamBridge) (sys : Sys) (send_ret : Int) (wake : Option RelayEvent)
    (uw : Option (Option (List Nat) × Nat)) (tw : Option Int)
    (hg : g.stop sys send_ret = .returned g2) (hr : r.stop sys wake = .returned r2)
    (hb : b.stop uw tw = .returned b2) :
    g2.status.running = false ∧ r2.status.running = false
      ∧ b2.status.udp_running = false ∧ b2.status.tcp_running = false
      ∧ (b.running_ = true → b2.udp_socket_ < 0 ∧ b2.tcp_socket_ < 0) := by
  have h1 := gimbal_stop_data sys send_ret g g2 hg
  have h2 := relay_stop_running sys wake r r2 hr
  have h4 := bridge_stop_data uw tw b b2 hb
  refine ⟨h1.1, h2, ?_, ?_, h4.2.1⟩
  · simp [ImageStreamBridge.status, h4.1]
  · simp [ImageStreamBridge.status, h4.1]

/-- The gimbal transmitter, from every state in which a cleared `running_` comes with a handle
that is not joinable: `start()` returns, the following `stop()` returns, and `status()` then
reports `running == false` with no thread left to join. -/
theorem gimbal_start_stop_total (g : GimbalControl) (sys : Sys) (send_ret : Int)
    (hinv : g.running_ = false → g.worker_thread_ = none) :
    ∃ g1 g2, g.start = .returned g1 ∧ g1.stop sys send_ret = .returned g2
      ∧ g2.status.running = false ∧ g2.worker_thread_ = none := by
  have hjoin : ∀ (t : GimbalControl), t.running_ = false → t.worker_thread_ ≠ none →
      ∃ t2, t.join sys send_ret = .returned t2 ∧ t2.running_ = false
        ∧ t2.worker_thread_ = none := by
    intro t hr hne
    cases hpc : t.worker_thread_ with
    | none => exact absurd hpc hne
    | some pc =>
      cases pc with
      | entry =>
        cases hc : create_udp_socket sys <;>
        cases hm : make_address sys t.config_.generator_ip
          (static_cast_uint16 t.config_.generator_port) <;>
        simp [GimbalControl.join, GimbalControl.worker_entry, hpc, hc, hm,
          GimbalControl.worker_catch, GimbalControl.worker_loop_head, hr,
          GimbalControl.worker_send, GimbalControl.worker_wake]
      | cycle sock target =>
        simp [GimbalControl.join, GimbalControl.worker_entry, hpc,
          GimbalControl.worker_loop_head, hr, GimbalControl.worker_send,
          GimbalControl.worker_wake]
      | sleeping sock target =>
        simp [GimbalControl.join, GimbalControl.worker_entry, hpc,
          GimbalControl.worker_loop_head, hr, GimbalControl.worker_send,
          GimbalControl.worker_wake]
      | done =>
        simp [GimbalControl.join, GimbalControl.worker_entry, hpc,
          GimbalControl.worker_loop_head, hr, GimbalControl.worker_send,
          GimbalControl.worker_wake]
  have hstop : ∀ (t : GimbalControl), t.running_ = true →
      ∃ t2, t.stop sys send_ret = .returned t2 ∧ t2.status.running = false
        ∧ t2.worker_thread_ = none := by
    intro t hr
    cases hpc : t.worker_thread_ with
    | none => simp [GimbalControl.stop, hr, hpc, GimbalControl.status]
    | some pc =>
      obtain ⟨t2, e1, e2, e3⟩ := hjoin { t with running_ := false } rfl (by simp [hpc])
      refine ⟨{ t2 with logged := t2.logged ++ ["Gimbal control stopped"] }, ?_, e2, e3⟩
      simp only [GimbalControl.stop, hr, Bool.not_true, Bool.false_eq_true, if_false, hpc]
      rw [show ({ t with running_ := false } : GimbalControl)
        = { t with running_ := false } from rfl] at e1
      simp only [hpc] at e1
      rw [e1]
  cases hr : g.running_ with
  | true =>
    obtain ⟨g2, e1, e2, e3⟩ := hstop g hr
    exact ⟨g, g2, by simp [GimbalControl.start, hr], e1, e2, e3⟩
  | false =>
    have hn := hinv hr
    obtain ⟨g2, e1, e2, e3⟩ := hstop
      { g with running_ := true, worker_thread_ := some .entry,
               logged := g.logged ++ ["Gimbal control started"] } rfl
    exact ⟨_, g2, by simp [GimbalControl.start, hr, hn], e1, e2, e3⟩

/-- C11 at its failing inputs. A bridge whose stream `bind` failed in `start()`: after the
following `stop()`, `status()` reports both flags false but the datagram handle is still 3,
not -1. A relay whose worker failed to bind: `running_` is false and the thread handle is still
joinable, so the next `start()` ends the process before any `stop()` can follow. -/
theorem start_stop_after_failed_bind :
    (((ImageStreamBridge.start sys_tcp_bind_fails {}).get {}).stop none none).state.map
        (fun s => (s.status.udp_running, s.status.tcp_running, s.udp_socket_, s.tcp_socket_))
      = some (false, false, 3, -1)
    ∧ relay_bind_failed.status.running = false
    ∧ relay_bind_failed.worker_thread_ = some .done
    ∧ relay_bind_failed.start.is_terminated = true
    ∧ relay_bind_failed.start.state.isNone = true := by
  decide


/-! ## Theorems: the encoder, the ports and the logging flags -/

/-- C24: for every signed 32-bit integer `s`, negative ones included, the four bytes
`(s>>24)&0xFF, (s>>16)&0xFF, (s>>8)&0xFF, s&0xFF`, read back as a big-endian two's-complement
32-bit integer, equal `s`; and in the packet the four encoded fields lie at offsets 0, 4, 8 and
12 in the order yaw, pitch, roll, zoom. -/
theorem encode_scaled_roundtrip (s : Int) (yaw pitch roll zoom : ℚ) (h : fits_int32 s) :
    decode_be_int32 (encode_scaled s) = s
      ∧ (encode_scaled s).length = 4
      ∧ (∀ b ∈ encode_scaled s, b < 256)
      ∧ bytes_at (build_packet yaw pitch roll zoom) 0 = encode yaw
      ∧ bytes_at (build_packet yaw pitch roll zoom) 4 = encode pitch
      ∧ bytes_at (build_packet yaw pitch roll zoom) 8 = encode roll
      ∧ bytes_at (build_packet yaw pitch roll zoom) 12 = encode zoom := by
  refine ⟨decode_encode_scaled s h, rfl, ?_, ?_, ?_, ?_, ?_⟩
  · intro b hb
    rw [encode_scaled_eq] at hb
    simp only [List.mem_cons, List.mem_singleton, List.not_mem_nil, or_false] at hb
    rcases hb with hb | hb | hb | hb <;> (rw [hb]; omega)
  · rw [build_packet_bytes, bytes_at_0 _ _ (encode_length _)]
  · rw [build_packet_bytes, bytes_at_4 _ _ _ (encode_length _) (encode_length _)]
  · rw [build_packet_bytes,
      bytes_at_8 _ _ _ _ (encode_length _) (encode_length _) (encode_length _)]
  · rw [build_packet_bytes, bytes_at_12 _ _ _ _ _ (encode_length _) (encode_length _)
      (encode_length _) (encode_length _)]

/-- The value -150 is encoded as ff ff ff 6a and read back as -150. -/
theorem encode_scaled_roundtrip_witness :
    decode_be_int32 (encode_scaled (-150)) = -150
      ∧ encode_scaled (-150) = [255, 255, 255, 106] :=
  ⟨(encode_scaled_roundtrip (-150) 0 0 0 0 (by decide)).1, by rw [encode_scaled_eq]; decide⟩

/-- C29: a configured port `p` becomes the 16-bit port `p mod 65536` in every socket address a
service derives (gimbal target, the bridge's two bind addresses, the relay's bind, raw and proc
addresses); no value of `p` makes the derivation fail, 70000 becomes 4464, and a relay
configured with out-of-range ports starts listening with the wrapped ports. -/
theorem port_wraps_mod_65536 (p q b : Int) (sys : Sys) (g : GimbalControl)
    (br : ImageStreamBridge) (r : UdpRelay) :
    ((static_cast_uint16 p : Int) = p % 65536 ∧ static_cast_uint16 p < 65536)
      ∧ static_cast_uint16 70000 = 4464
      ∧ static_cast_uint16 (-1) = 65535
      ∧ g.target_address sys
          = (match sys.inet_pton g.config_.generator_ip with
              | some a => .ok ⟨a, (g.config_.generator_port % 65536).toNat⟩
              | none => .error ("Invalid IPv4 address: " ++ g.config_.generator_ip))
      ∧ br.udp_address sys
          = (match sys.inet_pton br.config_.ip with
              | some a => .ok ⟨a, (br.config_.udp_port % 65536).toNat⟩
              | none => .error ("Invalid IPv4 address: " ++ br.config_.ip))
      ∧ br.tcp_address sys
          = (match sys.inet_pton br.config_.ip with
              | some a => .ok ⟨a, (br.config_.tcp_port % 65536).toNat⟩
              | none => .error ("Invalid IPv4 address: " ++ br.config_.ip))
      ∧ r.bind_address sys
          = (match sys.inet_pton r.config_.bind_ip with
              | some a => .ok ⟨a, (r.config_.bind_port % 65536).toNat⟩
              | none => .error ("Invalid IPv4 address: " ++ r.config_.bind_ip))
      ∧ r.raw_address sys
          = (match sys.inet_pton r.config_.raw_ip with
              | some a => .ok ⟨a, (r.config_.raw_port % 65536).toNat⟩
              | none => .error ("Invalid IPv4 address: " ++ r.config_.raw_ip))
      ∧ r.proc_address sys
          = (match sys.inet_pton r.config_.proc_ip with
              | some a => .ok ⟨a, (r.config_.proc_port % 65536).toNat⟩
              | none => .error ("Invalid IPv4 address: " ++ r.config_.proc_ip))
      ∧ (UdpRelay.worker_entry sys_ok
            { config_ := { bind_port := b, raw_port := p, proc_port := q }, running_ := true,
              worker_thread_ := some .entry }).worker_thread_
          = some (.recv 3 ⟨2130706433, (p % 65536).toNat⟩ ⟨2130706433, (q % 65536).toNat⟩
              (List.replicate (64 * 1024) 0))
      ∧ (GimbalControl.worker_entry sys_ok
            { config_ := { generator_port := p }, running_ := true,
              worker_thread_ := some .entry }).worker_thread_
          = some (.cycle 3 ⟨2130706433, (p % 65536).toNat⟩) := by
  refine ⟨⟨?_, ?_⟩, by decide, by decide, ?_, ?_, ?_, ?_, ?_, ?_, ?_, ?_⟩
  · simp only [static_cast_uint16]; omega
  · simp only [static_cast_uint16]; omega
  · simp only [GimbalControl.target_address, make_address, static_cast_uint16]
  · simp only [ImageStreamBridge.udp_address, make_address, static_cast_uint16]
  · simp only [ImageStreamBridge.tcp_address, make_address, static_cast_uint16]
  · simp only [UdpRelay.bind_address, make_address, static_cast_uint16]
  · simp only [UdpRelay.raw_address, make_address, static_cast_uint16]
  · simp only [UdpRelay.proc_address, make_address, static_cast_uint16]
  · rfl
  · rfl

/-- C30: after the normalisation of `main`, `relay.log_packets` and `rover.enable_logging` are
not both true; when both were set, `relay.log_packets` is cleared, `rover.enable_logging` is
kept and every other field is as it was; otherwise nothing changes. The packet logger is
created exactly when one of the two flags is set, in the subdirectory `gazebo` when
`relay.log_packets` is set and `rover` otherwise. -/
theorem logging_flags_exclusive (config : AppConfig) (program_dir : String) :
    ¬ ((normalise_logging config).relay.log_packets = true
        ∧ (normalise_logging config).rover.enable_logging = true)
      ∧ normalise_logging config
          = (if config.relay.log_packets = true ∧ config.rover.enable_logging = true then
              { config with relay := { config.relay with log_packets := false } }
            else config)
      ∧ (normalise_logging config).rover = config.rover
      ∧ (normalise_logging config).bridge = config.bridge
      ∧ (normalise_logging config).gimbal = config.gimbal
      ∧ (normalise_logging config).console_hud = config.console_hud
      ∧ (normalise_logging config).hud_interval = config.hud_interval
      ∧ ((packet_logger_directory program_dir (normalise_logging config)).isSome = true
          ↔ ((normalise_logging config).relay.log_packets = true
              ∨ (normalise_logging config).rover.enable_logging = true))
      ∧ ((packet_logger_directory program_dir (normalise_logging config)).isSome = true
          ↔ (config.relay.log_packets = true ∨ config.rover.enable_logging = true))
      ∧ packet_logger_directory program_dir (normalise_logging config)
          = (if (normalise_logging config).relay.log_packets = true then
              some (join_path (if config.rover.log_directory.isEmpty then
                  join_path program_dir "savedata" else config.rover.log_directory) "gazebo")
            else if (normalise_logging config).rover.enable_logging = true then
              some (join_path (if config.rover.log_directory.isEmpty then
                  join_path program_dir "savedata" else config.rover.log_directory) "rover")
            else none) := by
  cases h1 : config.relay.log_packets <;> cases h2 : config.rover.enable_logging <;>
    simp [normalise_logging, packet_logger_directory, h1, h2]


/-! ## Theorems: the frames sent to connections and the connection count -/

theorem udp_loop_head_rest (buffer : List Nat) (s : ImageStreamBridge) :
    (s.udp_loop_head buffer).clients = s.clients ∧ (s.udp_loop_head buffer).sent = s.sent
      ∧ (s.udp_loop_head buffer).tcp_clients_ = s.tcp_clients_
      ∧ (s.udp_loop_head buffer).running_ = s.running_ := by
  unfold ImageStreamBridge.udp_loop_head
  split <;> simp

theorem client_loop_head_sent (i : Nat) (c : Client) (s : ImageStreamBridge) :
    (s.client_loop_head i c).sent = s.sent := by
  unfold ImageStreamBridge.client_loop_head ImageStreamBridge.client_exit
  split
  · rfl
  · simp only []
    split <;> rfl

theorem client_exit_sent (i : Nat) (c : Client) (s : ImageStreamBridge) :
    (s.client_exit i c).sent = s.sent := by
  unfold ImageStreamBridge.client_exit
  simp only []
  split <;> rfl

theorem client_iter_sent (s : ImageStreamBridge) (i : Nat) (c : Client) (send_ret : Int)
    (hc : s.clients[i]? = some c) (hloop : c.pc = .loop) :
    (s.client_iter i send_ret).sent
      = if s.last_frame_ = [] then s.sent
        else s.sent ++ [Sent.mk c.client_fd none s.last_frame_ send_ret] := by
  unfold ImageStreamBridge.client_iter
  simp only [hc, hloop]
  by_cases he : s.last_frame_ = []
  · simp [he, client_loop_head_sent]
  · have hne : s.last_frame_.isEmpty = false := by
      cases hl : s.last_frame_ with
      | nil => exact absurd hl he
      | cons a l => rfl
    simp only [hne, he, if_false, Bool.false_eq_true]
    split
    · rw [client_exit_sent]
    · rw [client_loop_head_sent]

theorem udp_loop_recv_datagram (s : ImageStreamBridge) (P : List Nat) (now : Nat)
    (buffer : List Nat) (hpc : s.udp_thread_ = some (.recv buffer))
    (hP : P.length ≤ buffer.length) (hrun : s.running_ = true) :
    (s.udp_loop_recv (some P) now).last_frame_ = P
      ∧ (s.udp_loop_recv (some P) now).last_frame_time_ = now
      ∧ (s.udp_loop_recv (some P) now).udp_thread_ = some (.recv (recv_into buffer P))
      ∧ (recv_into buffer P).length = buffer.length
      ∧ (s.udp_loop_recv (some P) now).clients = s.clients
      ∧ (s.udp_loop_recv (some P) now).sent = s.sent
      ∧ (s.udp_loop_recv (some P) now).running_ = true := by
  have hlen : (recv_into buffer P).length = buffer.length := by
    simp [recv_into, List.take_of_length_le hP]
    omega
  simp [ImageStreamBridge.udp_loop_recv, hpc, ImageStreamBridge.udp_loop_head, hrun,
    recv_packet_eq buffer P hP, hlen]

/-- C22: an iteration of a connection worker sends nothing when the frame buffer is empty and
otherwise hands to `send` exactly the frame buffer; a received datagram replaces the frame
buffer by its payload whatever the buffer held, and a receive error leaves it as it is, so
after two datagrams the worker sends the second one alone, whole. -/
theorem client_sends_latest_frame (s : ImageStreamBridge) (i : Nat) (c : Client)
    (send_ret : Int) (P1 P2 : List Nat) (t1 t2 t3 : Nat) (buffer : List Nat)
    (hc : s.clients[i]? = some c) (hloop : c.pc = .loop)
    (hpc : s.udp_thread_ = some (.recv buffer)) (hrun : s.running_ = true)
    (hbuf : buffer.length = 2 * 1024 * 1024)
    (hP1 : P1.length ≤ 2 * 1024 * 1024) (hP2 : P2.length ≤ 2 * 1024 * 1024) :
    (s.client_iter i send_ret).sent
        = (if s.last_frame_ = [] then s.sent
          else s.sent ++ [Sent.mk c.client_fd none s.last_frame_ send_ret])
      ∧ (s.udp_loop_recv (some P1) t1).last_frame_ = P1
      ∧ ((s.udp_loop_recv (some P1) t1).udp_loop_recv (some P2) t2).last_frame_ = P2
      ∧ (((s.udp_loop_recv (some P1) t1).udp_loop_recv (some P2) t2).udp_loop_recv none
          t3).last_frame_ = P2
      ∧ (((s.udp_loop_recv (some P1) t1).udp_loop_recv (some P2) t2).client_iter i
          send_ret).sent
        = (if P2 = [] then s.sent else s.sent ++ [Sent.mk c.client_fd none P2 send_ret]) := by
  have h1 := udp_loop_recv_datagram s P1 t1 buffer hpc (by omega) hrun
  obtain ⟨a1, _, a3, a4, a5, a6, a7⟩ := h1
  have h2 := udp_loop_recv_datagram (s.udp_loop_recv (some P1) t1) P2 t2 (recv_into buffer P1)
    a3 (by omega) a7
  obtain ⟨b1, _, b3, _, b5, b6, _⟩ := h2
  refine ⟨client_iter_sent s i c send_ret hc hloop, a1, b1, ?_, ?_⟩
  · have hs := (udp_loop_recv_same none t3
      ((s.udp_loop_recv (some P1) t1).udp_loop_recv (some P2) t2)).2 rfl
    rw [hs.1, b1]
  · rw [client_iter_sent _ i c send_ret (by rw [b5, a5]; exact hc) hloop, b1, b6, a6]

/-- A bridge with one connection receives 01 02 and then 07 08 09: the connection is sent
07 08 09. -/
theorem client_sends_latest_frame_witness :
    (ImageStreamBridge.client_iter 0 3
        (ImageStreamBridge.udp_loop_recv (some [7, 8, 9]) 11
          (ImageStreamBridge.udp_loop_recv (some [1, 2]) 10
            { running_ := true, udp_thread_ := some (.recv (List.replicate (2 * 1024 * 1024) 0)),
              clients := [Client.mk 5 .loop] }))).sent
      = [Sent.mk 5 none [7, 8, 9] 3] :=
  (client_sends_latest_frame
    { running_ := true, udp_thread_ := some (.recv (List.replicate (2 * 1024 * 1024) 0)),
      clients := [Client.mk 5 .loop] }
    0 (Client.mk 5 .loop) 3 [1, 2] [7, 8, 9] 10 11 12 (List.replicate (2 * 1024 * 1024) 0)
    rfl rfl rfl rfl (List.length_replicate _ _) (by decide) (by decide)).2.2.2.2


theorem countP_set_keep {α : Type} (p : α → Bool) (l : List α) (i : Nat) (c c2 : α)
    (hc : l[i]? = some c) (hp : p c2 = p c) : (l.set i c2).countP p = l.countP p := by
  induction l generalizing i with
  | nil => simp
  | cons a l ih =>
    cases i with
    | zero =>
      simp only [List.getElem?_cons_zero, Option.some.injEq] at hc
      subst hc
      simp [List.countP_cons, hp]
    | succ i =>
      simp only [List.getElem?_cons_succ] at hc
      simp [List.countP_cons, ih i hc]

theorem countP_set_drop {α : Type} (p : α → Bool) (l : List α) (i : Nat) (c c2 : α)
    (hc : l[i]? = some c) (hp : p c = true) (hp2 : p c2 = false) :
    (l.set i c2).countP p + 1 = l.countP p := by
  induction l generalizing i with
  | nil => simp at hc
  | cons a l ih =>
    cases i with
    | zero =>
      simp only [List.getElem?_cons_zero, Option.some.injEq] at hc
      subst hc
      simp [List.countP_cons, hp, hp2]
    | succ i =>
      simp only [List.getElem?_cons_succ] at hc
      have := ih i hc
      simp only [List.set_cons_succ, List.countP_cons]
      omega

theorem udp_loop_head_counted (buffer : List Nat) (s : ImageStreamBridge) :
    (s.udp_loop_head buffer).tcp_clients_ = s.tcp_clients_
      ∧ (s.udp_loop_head buffer).clients = s.clients := by
  unfold ImageStreamBridge.udp_loop_head
  split <;> simp

theorem udp_loop_entry_counted (s : ImageStreamBridge) :
    s.udp_loop_entry.tcp_clients_ = s.tcp_clients_ ∧ s.udp_loop_entry.clients = s.clients := by
  unfold ImageStreamBridge.udp_loop_entry
  split
  · exact udp_loop_head_counted _ s
  · exact ⟨rfl, rfl⟩

theorem udp_loop_recv_counted (d : Option (List Nat)) (now : Nat) (s : ImageStreamBridge) :
    (s.udp_loop_recv d now).tcp_clients_ = s.tcp_clients_
      ∧ (s.udp_loop_recv d now).clients = s.clients := by
  unfold ImageStreamBridge.udp_loop_recv
  split
  · split
    · exact udp_loop_head_counted _ s
    · simp only []
      exact udp_loop_head_counted _ _
  · exact ⟨rfl, rfl⟩

theorem tcp_loop_head_counted (s : ImageStreamBridge) :
    s.tcp_loop_head.tcp_clients_ = s.tcp_clients_ ∧ s.tcp_loop_head.clients = s.clients := by
  unfold ImageStreamBridge.tcp_loop_head
  split <;> simp

theorem tcp_loop_entry_counted (s : ImageStreamBridge) :
    s.tcp_loop_entry.tcp_clients_ = s.tcp_clients_ ∧ s.tcp_loop_entry.clients = s.clients := by
  unfold ImageStreamBridge.tcp_loop_entry
  split
  · exact tcp_loop_head_counted s
  · exact ⟨rfl, rfl⟩

theorem live_clients_of_clients (s s2 : ImageStreamBridge) (h : s2.clients = s.clients) :
    s2.live_clients = s.live_clients := by
  simp [ImageStreamBridge.live_clients, h]

/-- An accepted connection raises the count and the number of unfinished connection threads by
one; a failed `accept` changes neither. -/
theorem tcp_loop_accept_counted (fd : Int) (s : ImageStreamBridge) :
    ((s.tcp_loop_accept fd).tcp_clients_ = s.tcp_clients_
        ∧ (s.tcp_loop_accept fd).live_clients = s.live_clients)
      ∨ ((s.tcp_loop_accept fd).tcp_clients_ = s.tcp_clients_ + 1
        ∧ (s.tcp_loop_accept fd).live_clients = s.live_clients + 1) := by
  unfold ImageStreamBridge.tcp_loop_accept
  split
  · split
    · left
      exact ⟨(tcp_loop_head_counted s).1, live_clients_of_clients _ _ (tcp_loop_head_counted s).2⟩
    · right
      simp only []
      refine ⟨(tcp_loop_head_counted _).1, ?_⟩
      rw [live_clients_of_clients _ _ (tcp_loop_head_counted _).2]
      simp [ImageStreamBridge.live_clients, List.countP_append]
  · left
    exact ⟨rfl, rfl⟩

theorem client_exit_counted (i : Nat) (c : Client) (s : ImageStreamBridge)
    (hc : s.clients[i]? = some c) (hpc : c.pc ≠ .done)
    (h : s.tcp_clients_ = s.live_clients) :
    (s.client_exit i c).tcp_clients_ + 1 = s.tcp_clients_
      ∧ (s.client_exit i c).live_clients + 1 = s.live_clients := by
  have hd := countP_set_drop (fun c : Client => c.pc != .done) s.clients i c
    { c with pc := .done } hc (by simpa using hpc) (by simp)
  have hpos : 0 < s.tcp_clients_ := by
    rw [h]
    unfold ImageStreamBridge.live_clients
    omega
  unfold ImageStreamBridge.client_exit
  simp only [gt_iff_lt, hpos, if_true]
  refine ⟨by show s.tcp_clients_ - 1 + 1 = s.tcp_clients_; omega, ?_⟩
  simpa [ImageStreamBridge.live_clients] using hd

theorem client_exit_inv (i : Nat) (c : Client) (s : ImageStreamBridge)
    (hc : s.clients[i]? = some c) (hpc : c.pc ≠ .done)
    (h : s.tcp_clients_ = s.live_clients) :
    (s.client_exit i c).tcp_clients_ = (s.client_exit i c).live_clients := by
  have := client_exit_counted i c s hc hpc h
  omega

theorem client_loop_head_counted (i : Nat) (c : Client) (s : ImageStreamBridge)
    (hc : s.clients[i]? = some c) (hpc : c.pc ≠ .done)
    (h : s.tcp_clients_ = s.live_clients) :
    (s.client_loop_head i c).tcp_clients_ = (s.client_loop_head i c).live_clients := by
  unfold ImageStreamBridge.client_loop_head
  split
  · have hk := countP_set_keep (fun c : Client => c.pc != .done) s.clients i c
      { c with pc := .loop } hc (by
        have : (c.pc != ClientPc.done) = true := by simpa using hpc
        show (ClientPc.loop != ClientPc.done) = (c.pc != ClientPc.done)
        rw [this]
        rfl)
    simp only [ImageStreamBridge.live_clients] at h ⊢
    rw [hk]
    exact h
  · exact client_exit_inv i c s hc hpc h

theorem client_entry_counted (i : Nat) (s : ImageStreamBridge)
    (h : s.tcp_clients_ = s.live_clients) :
    (s.client_entry i).tcp_clients_ = (s.client_entry i).live_clients := by
  unfold ImageStreamBridge.client_entry
  cases hc : s.clients[i]? with
  | none => exact h
  | some c =>
    simp only []
    cases hp : c.pc with
    | entry =>
      simp only []
      exact client_loop_head_counted i c _ hc (by simp [hp]) h
    | loop => exact h
    | done => exact h

theorem client_iter_counted (i : Nat) (send_ret : Int) (s : ImageStreamBridge)
    (h : s.tcp_clients_ = s.live_clients) :
    (s.client_iter i send_ret).tcp_clients_ = (s.client_iter i send_ret).live_clients := by
  unfold ImageStreamBridge.client_iter
  cases hc : s.clients[i]? with
  | none => exact h
  | some c =>
    simp only []
    cases hp : c.pc with
    | entry => exact h
    | done => exact h
    | loop =>
      simp only []
      split
      · exact client_loop_head_counted i c _ hc (by simp [hp]) h
      · split
        · exact client_exit_inv i c
            { s with sent := s.sent ++ [Sent.mk c.client_fd none s.last_frame_ send_ret] }
            hc (by simp [hp]) h
        · exact client_loop_head_counted i c
            { s with sent := s.sent ++ [Sent.mk c.client_fd none s.last_frame_ send_ret] }
            hc (by simp [hp]) h

theorem join_udp_counted (uw : Option (Option (List Nat) × Nat)) (s s2 : ImageStreamBridge)
    (h : s.join_udp uw = .returned s2) :
    s2.tcp_clients_ = s.tcp_clients_ ∧ s2.clients = s.clients := by
  unfold ImageStreamBridge.join_udp at h
  split at h
  · simp only [Outcome.returned.injEq] at h
    rw [← h]
    exact ⟨rfl, rfl⟩
  · simp only at h
    have he := udp_loop_entry_counted s
    cases uw with
    | none =>
      simp only at h
      split at h
      · simp only [Outcome.returned.injEq] at h
        rw [← h]
        exact he
      · cases h
    | some w =>
      obtain ⟨d, now⟩ := w
      simp only at h
      have hr := udp_loop_recv_counted d now s.udp_loop_entry
      split at h
      · simp only [Outcome.returned.injEq] at h
        rw [← h]
        exact ⟨hr.1.trans he.1, hr.2.trans he.2⟩
      · cases h

theorem tcp_loop_accept_inv (fd : Int) (s : ImageStreamBridge)
    (h : s.tcp_clients_ = s.live_clients) :
    (s.tcp_loop_accept fd).tcp_clients_ = (s.tcp_loop_accept fd).live_clients := by
  rcases tcp_loop_accept_counted fd s with ⟨a, b⟩ | ⟨a, b⟩ <;> omega

theorem tcp_loop_entry_inv (s : ImageStreamBridge) (h : s.tcp_clients_ = s.live_clients) :
    s.tcp_loop_entry.tcp_clients_ = s.tcp_loop_entry.live_clients := by
  rw [(tcp_loop_entry_counted s).1, live_clients_of_clients _ _ (tcp_loop_entry_counted s).2]
  exact h

theorem join_tcp_counted (tw : Option Int) (s s2 : ImageStreamBridge)
    (hj : s.join_tcp tw = .returned s2) (h : s.tcp_clients_ = s.live_clients) :
    s2.tcp_clients_ = s2.live_clients := by
  unfold ImageStreamBridge.join_tcp at hj
  split at hj
  · simp only [Outcome.returned.injEq] at hj
    rw [← hj]
    exact h
  · simp only at hj
    have he := tcp_loop_entry_inv s h
    cases tw with
    | none =>
      simp only at hj
      split at hj
      · simp only [Outcome.returned.injEq] at hj
        rw [← hj]
        exact he
      · cases hj
    | some fd =>
      simp only at hj
      have hr := tcp_loop_accept_inv fd s.tcp_loop_entry he
      split at hj
      · simp only [Outcome.returned.injEq] at hj
        rw [← hj]
        exact hr
      · cases hj

theorem stop_signal_counted (s : ImageStreamBridge) :
    s.stop_signal.tcp_clients_ = s.tcp_clients_ ∧ s.stop_signal.clients = s.clients := by
  unfold ImageStreamBridge.stop_signal
  cases hr : s.running_ with
  | false => exact ⟨rfl, rfl⟩
  | true =>
    by_cases h1 : s.udp_socket_ ≥ 0 <;> by_cases h2 : s.tcp_socket_ ≥ 0 <;> simp [h1, h2]

theorem stop_eq_signal_then_joins (uw : Option (Option (List Nat) × Nat)) (tw : Option Int)
    (s : ImageStreamBridge) :
    s.stop uw tw
      = if !s.running_ then .returned s
        else
          match s.stop_signal.join_udp uw with
          | .returned s =>
            match s.join_tcp tw with
            | .returned s =>
              .returned { s with logged := s.logged ++ ["Image stream bridge stopped"] }
            | o => o
          | o => o := by
  unfold ImageStreamBridge.stop ImageStreamBridge.stop_signal
  cases hr : s.running_ <;> rfl

theorem stop_counted (uw : Option (Option (List Nat) × Nat)) (tw : Option Int)
    (s s2 : ImageStreamBridge) (hs : s.stop uw tw = .returned s2)
    (h : s.tcp_clients_ = s.live_clients) : s2.tcp_clients_ = s2.live_clients := by
  rw [stop_eq_signal_then_joins] at hs
  cases hr : s.running_ with
  | false =>
    simp only [hr, Bool.not_false, if_true, Outcome.returned.injEq] at hs
    rw [← hs]
    exact h
  | true =>
    simp only [hr, Bool.not_true, Bool.false_eq_true, if_false] at hs
    generalize hj : ImageStreamBridge.join_udp uw s.stop_signal = o at hs
    cases o with
    | returned s3 =>
      simp only at hs
      generalize hj2 : ImageStreamBridge.join_tcp tw s3 = o2 at hs
      cases o2 with
      | returned s4 =>
        simp only [Outcome.returned.injEq] at hs
        have h1 := join_udp_counted uw _ s3 hj
        have h0 := stop_signal_counted s
        have h3 : s3.tcp_clients_ = s3.live_clients := by
          rw [h1.1, live_clients_of_clients _ _ h1.2, h0.1, live_clients_of_clients _ _ h0.2]
          exact h
        have h4 := join_tcp_counted tw s3 s4 hj2 h3
        rw [← hs]
        exact h4
      | threw a b => cases hs
      | terminated => cases hs
      | blocked => cases hs
    | threw a b => cases hs
    | terminated => cases hs
    | blocked => cases hs

theorem start_counted (sys : Sys) (s s2 : ImageStreamBridge)
    (hs : s.start sys = .returned s2 ∨ ∃ what, s.start sys = .threw s2 what) :
    s2.tcp_clients_ = s.tcp_clients_ ∧ s2.clients = s.clients := by
  unfold ImageStreamBridge.start at hs
  cases hr : s.running_ with
  | true =>
    simp only [hr, if_true, Outcome.returned.injEq, exists_false, or_false, reduceCtorEq] at hs
    rw [← hs]
    exact ⟨rfl, rfl⟩
  | false =>
    simp only [hr, Bool.false_eq_true, if_false] at hs
    cases hu : create_udp_socket sys with
    | error e =>
      simp only [hu] at hs
      rcases hs with hs | ⟨w, hs⟩
      · cases hs
      · simp only [Outcome.threw.injEq] at hs
        rw [← hs.1]
        exact ⟨rfl, rfl⟩
    | ok fd =>
      simp only [hu] at hs
      cases ha : make_address sys s.config_.ip (static_cast_uint16 s.config_.udp_port) with
      | error e =>
        simp only [ha] at hs
        rcases hs with hs | ⟨w, hs⟩
        · cases hs
        · simp only [Outcome.threw.injEq] at hs
          rw [← hs.1]
          exact ⟨rfl, rfl⟩
      | ok a =>
        simp only [ha] at hs
        by_cases hb : sys.udp_bind_ret < 0
        · simp only [hb, if_true, Outcome.returned.injEq, exists_false, or_false,
            reduceCtorEq] at hs
          rw [← hs]
          exact ⟨rfl, rfl⟩
        · simp only [hb, if_false] at hs
          cases ht : create_tcp_socket sys with
          | error e =>
            simp only [ht] at hs
            rcases hs with hs | ⟨w, hs⟩
            · cases hs
            · simp only [Outcome.threw.injEq] at hs
              rw [← hs.1]
              exact ⟨rfl, rfl⟩
          | ok tfd =>
            simp only [ht] at hs
            cases ha2 : make_address sys s.config_.ip (static_cast_uint16 s.config_.tcp_port) with
            | error e =>
              simp only [ha2] at hs
              rcases hs with hs | ⟨w, hs⟩
              · cases hs
              · simp only [Outcome.threw.injEq] at hs
                rw [← hs.1]
                exact ⟨rfl, rfl⟩
            | ok a2 =>
              simp only [ha2] at hs
              by_cases hb2 : (sys.tcp_bind_ret < 0 || sys.listen_ret < 0) = true
              · simp only [hb2, if_true, Outcome.returned.injEq, exists_false, or_false,
                  reduceCtorEq] at hs
                rw [← hs]
                exact ⟨rfl, rfl⟩
              · rw [if_neg hb2] at hs
                cases hut : s.udp_thread_ <;> cases htt : s.tcp_thread_ <;>
                  simp only [hut, htt, Outcome.returned.injEq, exists_false, or_false,
                    reduceCtorEq, exists_const, or_self] at hs
                rw [← hs]
                exact ⟨rfl, rfl⟩

theorem apply_counted (op : BridgeOp) (s : ImageStreamBridge)
    (h : s.tcp_clients_ = s.live_clients) :
    (s.apply op).tcp_clients_ = (s.apply op).live_clients := by
  cases op with
  | start sys =>
    cases ho : s.start sys with
    | returned s2 =>
      have := start_counted sys s s2 (Or.inl ho)
      simp only [ImageStreamBridge.apply, ho]
      rw [this.1, live_clients_of_clients _ _ this.2]
      exact h
    | threw s2 w =>
      have := start_counted sys s s2 (Or.inr ⟨w, ho⟩)
      simp only [ImageStreamBridge.apply, ho]
      rw [this.1, live_clients_of_clients _ _ this.2]
      exact h
    | terminated =>
      simp only [ImageStreamBridge.apply, ho]
      exact h
    | blocked =>
      simp only [ImageStreamBridge.apply, ho]
      exact h
  | stop uw tw =>
    have hsig : s.stop_signal.tcp_clients_ = s.stop_signal.live_clients := by
      have h0 := stop_signal_counted s
      rw [h0.1, live_clients_of_clients _ _ h0.2]
      exact h
    cases ho : s.stop uw tw with
    | returned s2 =>
      simp only [ImageStreamBridge.apply, ho]
      exact stop_counted uw tw s s2 ho h
    | threw s2 w =>
      simp only [ImageStreamBridge.apply, ho]
      exact hsig
    | terminated =>
      simp only [ImageStreamBridge.apply, ho]
      exact hsig
    | blocked =>
      simp only [ImageStreamBridge.apply, ho]
      exact hsig
  | udp_entry =>
    have := udp_loop_entry_counted s
    show s.udp_loop_entry.tcp_clients_ = s.udp_loop_entry.live_clients
    rw [this.1, live_clients_of_clients _ _ this.2]
    exact h
  | udp_recv d now =>
    have := udp_loop_recv_counted d now s
    show (s.udp_loop_recv d now).tcp_clients_ = (s.udp_loop_recv d now).live_clients
    rw [this.1, live_clients_of_clients _ _ this.2]
    exact h
  | tcp_entry => exact tcp_loop_entry_inv s h
  | tcp_accept fd => exact tcp_loop_accept_inv fd s h
  | client_entry i => exact client_entry_counted i s h
  | client_iter i r => exact client_iter_counted i r s h

theorem run_counted (ops : List BridgeOp) (s : ImageStreamBridge)
    (h : s.tcp_clients_ = s.live_clients) :
    (ImageStreamBridge.run ops s).tcp_clients_ = (ImageStreamBridge.run ops s).live_clients := by
  induction ops generalizing s with
  | nil => exact h
  | cons op ops ih => exact ih (s.apply op) (apply_counted op s h)

/-- C23: in every state the bridge reaches from its construction by calls of `start()` and
`stop()` and steps of its threads, `status().clients` is the number of accepted connections
whose worker has not exited. An accepted connection raises it by exactly one and a failed
`accept` leaves it; a worker that exits (failed send, or the running flag found false) finds it
positive and lowers it by exactly one; a worker that stays in its loop leaves it. -/
theorem clients_count_is_live_connections (cfg : BridgeSettings) (ops : List BridgeOp)
    (s : ImageStreamBridge) (fd : Int) (i : Nat) (c : Client) (send_ret : Int)
    (hs : s = ImageStreamBridge.run ops { config_ := cfg }) :
    s.status.clients = s.live_clients
      ∧ (s.tcp_thread_ = some .accept → 0 ≤ fd →
          (s.tcp_loop_accept fd).status.clients = s.status.clients + 1
            ∧ (s.tcp_loop_accept fd).clients = s.clients ++ [Client.mk fd .entry])
      ∧ (s.tcp_thread_ = some .accept → fd < 0 →
          (s.tcp_loop_accept fd).status.clients = s.status.clients
            ∧ (s.tcp_loop_accept fd).clients = s.clients)
      ∧ (s.clients[i]? = some c → c.pc ≠ .done →
          0 < s.status.clients
            ∧ (s.client_exit i c).status.clients + 1 = s.status.clients
            ∧ (s.client_exit i c).live_clients + 1 = s.live_clients)
      ∧ (s.clients[i]? = some c → c.pc = .loop → s.last_frame_ ≠ [] → send_ret < 0 →
          s.client_iter i send_ret
            = { s with sent := s.sent ++ [Sent.mk c.client_fd none s.last_frame_ send_ret]
              }.client_exit i c)
      ∧ (s.clients[i]? = some c → c.pc = .loop → s.running_ = false →
          (s.client_iter i send_ret).status.clients + 1 = s.status.clients)
      ∧ (s.clients[i]? = some c → c.pc = .loop → s.running_ = true →
          (s.last_frame_ = [] ∨ 0 ≤ send_ret) →
          (s.client_iter i send_ret).status.clients = s.status.clients) := by
  have hinv : s.tcp_clients_ = s.live_clients := by
    rw [hs]
    exact run_counted ops _ rfl
  have hexit : ∀ s2 : ImageStreamBridge, s2.tcp_clients_ = s.tcp_clients_ →
      s2.clients = s.clients → s.clients[i]? = some c → c.pc ≠ .done →
      (s2.client_exit i c).tcp_clients_ + 1 = s.tcp_clients_ := by
    intro s2 e1 e2 hc hpc
    have := client_exit_counted i c s2 (by rw [e2]; exact hc) hpc
      (by rw [e1, live_clients_of_clients _ _ e2]; exact hinv)
    omega
  refine ⟨hinv, ?_, ?_, ?_, ?_, ?_, ?_⟩
  · intro ht hfd
    have hn : ¬ fd < 0 := by omega
    simp [ImageStreamBridge.status, ImageStreamBridge.tcp_loop_accept, ht, hn,
      (tcp_loop_head_counted _).1, (tcp_loop_head_counted _).2]
  · intro ht hfd
    simp [ImageStreamBridge.status, ImageStreamBridge.tcp_loop_accept, ht, hfd,
      (tcp_loop_head_counted _).1, (tcp_loop_head_counted _).2]
  · intro hc hpc
    have := client_exit_counted i c s hc hpc hinv
    simp only [ImageStreamBridge.status]
    omega
  · intro hc hpc hf hr
    have hne : s.last_frame_.isEmpty = false := by
      cases hl : s.last_frame_ with
      | nil => exact absurd hl hf
      | cons a l => rfl
    simp [ImageStreamBridge.client_iter, hc, hpc, hne, hr]
  · intro hc hpc hrun
    have hpc2 : c.pc ≠ .done := by simp [hpc]
    simp only [ImageStreamBridge.status, ImageStreamBridge.client_iter, hc, hpc,
      ImageStreamBridge.client_loop_head, hrun, Bool.false_eq_true, if_false]
    split
    · exact hexit s rfl rfl hc hpc2
    · split
      · exact hexit _ rfl rfl hc hpc2
      · exact hexit _ rfl rfl hc hpc2
  · intro hc hpc hrun hcont
    simp only [ImageStreamBridge.status, ImageStreamBridge.client_iter, hc, hpc,
      ImageStreamBridge.client_loop_head, hrun, if_true]
    split
    · rfl
    · rename_i hne
      have hr : ¬ send_ret < 0 := by
        rcases hcont with he | hr
        · simp [he] at hne
        · omega
      simp [hr]

/-- Two connections are accepted, the first worker enters its loop and leaves it after
`stop()`: one connection is left, and the count is one. -/
theorem clients_count_is_live_connections_witness :
    (ImageStreamBridge.run
        [.start sys_ok, .udp_entry, .tcp_entry, .tcp_accept 5, .tcp_accept 6, .client_entry 0,
          .stop (some (none, 7)) (some (-1)), .client_iter 0 0] {}).status.clients
      = (ImageStreamBridge.run
        [.start sys_ok, .udp_entry, .tcp_entry, .tcp_accept 5, .tcp_accept 6, .client_entry 0,
          .stop (some (none, 7)) (some (-1)), .client_iter 0 0] {}).live_clients
      ∧ (ImageStreamBridge.run
        [.start sys_ok, .udp_entry, .tcp_entry, .tcp_accept 5, .tcp_accept 6, .client_entry 0,
          .stop (some (none, 7)) (some (-1)), .client_iter 0 0] {}).live_clients = 1 :=
  ⟨(clients_count_is_live_connections {} _ _ 0 0 (Client.mk 0 .entry) 0 rfl).1, by decide⟩


/-! ## Theorems: `log_packet` called from several threads -/

theorem file_text_append (a b : List FileWrite) :
    file_text (a ++ b) = file_text a ++ file_text b := by
  simp [file_text]

theorem getElem?_middle {α : Type} (pre post : List α) (c : α) :
    (pre ++ c :: post)[pre.length]? = some c := by
  induction pre with
  | nil => simp
  | cons a l ih => simpa using ih

theorem set_middle {α : Type} (pre post : List α) (c d : α) :
    (pre ++ c :: post).set pre.length d = pre ++ d :: post := by
  simp

theorem log_packet_turn_middle (pre post : List LogCall) (c : LogCall) (s : RoverRelayLogger) :
    log_packet_turn (pre ++ c :: post, s) pre.length
      = (pre ++ (s.log_packet_step c).1 :: post, (s.log_packet_step c).2) := by
  simp only [log_packet_turn, getElem?_middle, set_middle]

/-- A call that runs its eight steps with no step of another call in between: the logger ends
as after `log_packet`, up to the division of the line into appends. -/
theorem log_packet_alone (t : Nat) (c : Clock × List Nat) (pre post : List LogCall)
    (s : RoverRelayLogger) (ht : pre.length = t)
    (hactive : s.active_ = true) (hopen : s.file_.is_open = true)
    (hgood : s.file_.fail = false) :
    ∃ s2 : RoverRelayLogger,
      (List.replicate 8 t).foldl log_packet_turn
          (pre ++ LogCall.mk c.1 c.2 .test :: post, s)
        = (pre ++ LogCall.mk c.1 c.2 .done :: post, s2)
      ∧ file_text s2.written = file_text s.written ++ log_line c.1 c.2
      ∧ count_lf s2.written = count_lf s.written + 1
      ∧ s2.lines_ = s.lines_ + 1
      ∧ s2.active_ = true ∧ s2.file_ = s.file_ := by
  subst ht
  refine ⟨{ s with
    written := s.written ++ [FileWrite.mk s.file_.path (timestamp_string c.1),
      FileWrite.mk s.file_.path ['\t', 'l', 'e', 'n', '='],
      FileWrite.mk s.file_.path (put_dec c.2.length),
      FileWrite.mk s.file_.path ['\t'],
      FileWrite.mk s.file_.path (hex_dump c.2),
      FileWrite.mk s.file_.path ['\n']],
    lines_ := s.lines_ + 1 }, ?_, ?_, ?_, rfl, hactive, rfl⟩
  · simp only [List.replicate, List.foldl, log_packet_turn_middle]
    simp [RoverRelayLogger.log_packet_step, RoverRelayLogger.put, hactive, hopen, hgood]
  · simp [file_text, log_line]
  · have h1 : (timestamp_string c.1).count '\n' = 0 :=
      List.count_eq_zero.mpr (timestamp_string_no_lf c.1)
    have h2 : (put_dec c.2.length).count '\n' = 0 :=
      List.count_eq_zero.mpr (toDigits_no_lf 10 _)
    have h3 : (hex_dump c.2).count '\n' = 0 :=
      List.count_eq_zero.mpr (hex_dump_loop_no_lf c.2 0 [] (by simp))
    simp [count_lf, h1, h2, h3]

theorem log_packet_serial (calls : List (Clock × List Nat)) (pre : List LogCall) (k : Nat)
    (s : RoverRelayLogger) (hk : pre.length = k)
    (hactive : s.active_ = true) (hopen : s.file_.is_open = true)
    (hgood : s.file_.fail = false) :
    ∃ s2 : RoverRelayLogger,
      ((List.range' k calls.length).flatMap (fun t => List.replicate 8 t)).foldl
          log_packet_turn (pre ++ fresh_calls calls, s)
        = (pre ++ done_calls calls, s2)
      ∧ file_text s2.written
          = file_text s.written ++ (calls.map (fun c => log_line c.1 c.2)).flatten
      ∧ count_lf s2.written = count_lf s.written + calls.length
      ∧ s2.lines_ = s.lines_ + calls.length := by
  induction calls generalizing pre k s with
  | nil => exact ⟨s, by simp [fresh_calls, done_calls], by simp, by simp, by simp⟩
  | cons c cs ih =>
    obtain ⟨s2, e1, e2, e3, e4, e5, e6⟩ :=
      log_packet_alone k c pre (fresh_calls cs) s hk hactive hopen hgood
    obtain ⟨s3, f1, f2, f3, f4⟩ := ih (pre ++ [LogCall.mk c.1 c.2 .done]) (k + 1) s2
      (by simp [hk]) e5 (by rw [e6]; exact hopen) (by rw [e6]; exact hgood)
    refine ⟨s3, ?_, ?_, ?_, ?_⟩
    · have hr : List.range' k (c :: cs).length = k :: List.range' (k + 1) cs.length := by
        simp [List.range']
      have hf : fresh_calls (c :: cs) = LogCall.mk c.1 c.2 .test :: fresh_calls cs := rfl
      have hd : done_calls (c :: cs) = LogCall.mk c.1 c.2 .done :: done_calls cs := rfl
      rw [hr, hf, hd, List.flatMap_cons, List.foldl_append, e1]
      have hp : pre ++ LogCall.mk c.1 c.2 .done :: fresh_calls cs
          = (pre ++ [LogCall.mk c.1 c.2 .done]) ++ fresh_calls cs := by simp
      rw [hp, f1]
      simp
    · rw [f2, e2]
      simp
    · rw [f3, e3]
      simp only [List.length_cons]
      omega
    · rw [f4, e4]
      simp only [List.length_cons]
      omega

theorem file_text_log_packets (calls : List (Clock × List Nat)) (s : RoverRelayLogger)
    (hactive : s.active_ = true) (hopen : s.file_.is_open = true)
    (hgood : s.file_.fail = false) :
    file_text (s.log_packets calls).written
        = file_text s.written ++ (calls.map (fun c => log_line c.1 c.2)).flatten
      ∧ (s.log_packets calls).lines_ = s.lines_ + calls.length := by
  induction calls generalizing s with
  | nil => simp [RoverRelayLogger.log_packets]
  | cons c rest ih =>
    have hstep := log_packet_open c.1 c.2 s hactive hopen hgood
    have hfold : s.log_packets (c :: rest) = (s.log_packet c.1 c.2).log_packets rest := rfl
    have h := ih (s.log_packet c.1 c.2) (by rw [hstep]; exact hactive) (by rw [hstep]; exact hopen)
      (by rw [hstep]; exact hgood)
    rw [hfold, h.1, h.2, hstep]
    simp only [file_text_append, List.length_cons, List.map_cons, List.flatten_cons]
    refine ⟨?_, by omega⟩
    simp [file_text]

/-- C21 (amended): when the calls of `log_packet` on an active logger with its file open do
not overlap, each taking all its steps before the next begins, the file receives the lines of
the calls whole and in the order of the calls, as if `log_packet` were one step, every call
returns, and `lines_written()` and the number of line terminators in the file both grow by the
number of calls. -/
theorem log_packet_serial_calls_whole_lines (calls : List (Clock × List Nat))
    (s : RoverRelayLogger) (hactive : s.active = true) (hopen : s.file_.is_open = true)
    (hgood : s.file_.fail = false) :
    (log_packet_sched (serial_schedule calls.length) (fresh_calls calls) s).1
        = done_calls calls
      ∧ file_text (log_packet_sched (serial_schedule calls.length) (fresh_calls calls)
            s).2.written
          = file_text s.written ++ (calls.map (fun c => log_line c.1 c.2)).flatten
      ∧ file_text (log_packet_sched (serial_schedule calls.length) (fresh_calls calls)
            s).2.written
          = file_text (s.log_packets calls).written
      ∧ (log_packet_sched (serial_schedule calls.length) (fresh_calls calls)
            s).2.lines_written = s.lines_written + calls.length
      ∧ (log_packet_sched (serial_schedule calls.length) (fresh_calls calls)
            s).2.lines_written = (s.log_packets calls).lines_written
      ∧ count_lf (log_packet_sched (serial_schedule calls.length) (fresh_calls calls)
            s).2.written = count_lf s.written + calls.length := by
  have hactive2 : s.active_ = true := hactive
  obtain ⟨s2, e1, e2, e3, e4⟩ := log_packet_serial calls [] 0 s rfl hactive2 hopen hgood
  have hl := file_text_log_packets calls s hactive2 hopen hgood
  have hrun : log_packet_sched (serial_schedule calls.length) (fresh_calls calls) s
      = (done_calls calls, s2) := by
    simp only [log_packet_sched, serial_schedule, List.range_eq_range']
    simpa using e1
  rw [hrun]
  exact ⟨rfl, e2, by rw [hl.1]; exact e2, e4, by
    simp only [RoverRelayLogger.lines_written]; rw [hl.2]; exact e4, e3⟩

/-- Two calls one after the other on an open logger: two whole lines, and a count of two. -/
theorem log_packet_serial_calls_whole_lines_witness :
    file_text (log_packet_sched (serial_schedule 2)
        (fresh_calls [(Clock.mk 2026 1 2 3 4 5 6, [1]), (Clock.mk 2026 1 2 3 4 5 7, [2])])
        { active_ := true, file_ := { is_open := true, path := ['f'] } }).2.written
      = log_line (Clock.mk 2026 1 2 3 4 5 6) [1] ++ log_line (Clock.mk 2026 1 2 3 4 5 7) [2]
      ∧ (log_packet_sched (serial_schedule 2)
        (fresh_calls [(Clock.mk 2026 1 2 3 4 5 6, [1]), (Clock.mk 2026 1 2 3 4 5 7, [2])])
        { active_ := true, file_ := { is_open := true, path := ['f'] } }).2.lines_written = 2 := by
  have h := log_packet_serial_calls_whole_lines
    [(Clock.mk 2026 1 2 3 4 5 6, [1]), (Clock.mk 2026 1 2 3 4 5 7, [2])]
    { active_ := true, file_ := { is_open := true, path := ['f'] } } rfl rfl rfl
  refine ⟨?_, h.2.2.2.1⟩
  rw [show serial_schedule 2 = serial_schedule
    [(Clock.mk 2026 1 2 3 4 5 6, [1]), (Clock.mk 2026 1 2 3 4 5 7, [2])].length from rfl,
    h.2.1]
  simp [file_text]

/-- C21 as stated fails: two calls on one active logger whose steps alternate after the
test and the timestamp. Both calls return and the counter ends at two, but the file holds
the two timestamps one after the other: it is neither call's line followed by the other's. -/
theorem log_packet_overlap_interleaves :
    (log_packet_sched [0, 0, 1, 1, 0, 0, 0, 0, 0, 0, 1, 1, 1, 1, 1, 1]
        (fresh_calls [(Clock.mk 2026 1 2 3 4 5 6, [1]), (Clock.mk 2026 1 2 3 4 5 7, [2])])
        { active_ := true, file_ := { is_open := true, path := ['f'] } }).1
      = done_calls [(Clock.mk 2026 1 2 3 4 5 6, [1]), (Clock.mk 2026 1 2 3 4 5 7, [2])]
      ∧ file_text (log_packet_sched [0, 0, 1, 1, 0, 0, 0, 0, 0, 0, 1, 1, 1, 1, 1, 1]
        (fresh_calls [(Clock.mk 2026 1 2 3 4 5 6, [1]), (Clock.mk 2026 1 2 3 4 5 7, [2])])
        { active_ := true, file_ := { is_open := true, path := ['f'] } }).2.written
        = "2026-01-02 03:04:05.0062026-01-02 03:04:05.007\tlen=1\t01\n\tlen=1\t02\n".toList
      ∧ file_text (log_packet_sched [0, 0, 1, 1, 0, 0, 0, 0, 0, 0, 1, 1, 1, 1, 1, 1]
        (fresh_calls [(Clock.mk 2026 1 2 3 4 5 6, [1]), (Clock.mk 2026 1 2 3 4 5 7, [2])])
        { active_ := true, file_ := { is_open := true, path := ['f'] } }).2.written
        ≠ log_line (Clock.mk 2026 1 2 3 4 5 6) [1] ++ log_line (Clock.mk 2026 1 2 3 4 5 7) [2]
      ∧ file_text (log_packet_sched [0, 0, 1, 1, 0, 0, 0, 0, 0, 0, 1, 1, 1, 1, 1, 1]
        (fresh_calls [(Clock.mk 2026 1 2 3 4 5 6, [1]), (Clock.mk 2026 1 2 3 4 5 7, [2])])
        { active_ := true, file_ := { is_open := true, path := ['f'] } }).2.written
        ≠ log_line (Clock.mk 2026 1 2 3 4 5 7) [2] ++ log_line (Clock.mk 2026 1 2 3 4 5 6) [1]
      ∧ (log_packet_sched [0, 0, 1, 1, 0, 0, 0, 0, 0, 0, 1, 1, 1, 1, 1, 1]
        (fresh_calls [(Clock.mk 2026 1 2 3 4 5 6, [1]), (Clock.mk 2026 1 2 3 4 5 7, [2])])
        { active_ := true, file_ := { is_open := true, path := ['f'] } }).2.lines_written = 2 := by
  refine ⟨by decide, by decide, by decide, by decide, by decide⟩


/-! ## Theorems: the configuration and its JSON form -/

theorem spec_string_find (obj : Object) (k : String) (cur : String) :
    spec_string (obj.find k) cur
      = if obj.count k then (obj.index k).as_string cur else cur := by
  unfold Object.count Object.index
  cases h : obj.find k with
  | none => rfl
  | some v => cases v <;> rfl

theorem spec_bool_find (obj : Object) (k : String) (cur : Bool) :
    spec_bool (obj.find k) cur = if obj.count k then (obj.index k).as_bool cur else cur := by
  unfold Object.count Object.index
  cases h : obj.find k with
  | none => rfl
  | some v => cases v <;> rfl

theorem spec_int_find (obj : Object) (k : String) (cur : Int) (hc : fits_int32 cur) :
    spec_int (obj.find k) cur
      = if obj.count k then
          static_cast_int32 ((obj.index k).as_number (static_cast_double cur))
        else cur := by
  have hcur : static_cast_int32 (static_cast_double cur) = cur := by
    unfold static_cast_int32 static_cast_double
    rw [trunc_toward_zero_intCast, wrap_int32_of_fits cur hc]
  unfold Object.count Object.index
  cases h : obj.find k with
  | none => rfl
  | some v => cases v <;> simp [spec_int, Value.as_number, hcur]

theorem count_nil (k : String) : Object.count [] k = false := rfl

theorem object_of_isEmpty (obj : Object) (h : obj.isEmpty = true) : obj = [] := by
  cases obj with
  | nil => rfl
  | cons a l => cases h

theorem from_json_bridge_eq (obj : Object) (cfg : AppConfig)
    (h1 : fits_int32 cfg.bridge.tcp_port) (h2 : fits_int32 cfg.bridge.udp_port) :
    from_json_bridge obj cfg
      = { cfg with bridge :=
          { ip := spec_string (obj.find "ip") cfg.bridge.ip,
            tcp_port := spec_int (obj.find "tcp_port") cfg.bridge.tcp_port,
            udp_port := spec_int (obj.find "udp_port") cfg.bridge.udp_port,
            realtime_dir := spec_string (obj.find "realtime_dir") cfg.bridge.realtime_dir,
            predefined_dir := spec_string (obj.find "predefined_dir") cfg.bridge.predefined_dir,
            image_source_mode :=
              spec_string (obj.find "image_source_mode") cfg.bridge.image_source_mode,
            console_echo := spec_bool (obj.find "console_echo") cfg.bridge.console_echo,
            show_hud := spec_bool (obj.find "show_hud") cfg.bridge.show_hud } } := by
  rw [spec_int_find obj _ _ h1, spec_int_find obj _ _ h2]
  simp only [spec_string_find, spec_bool_find]
  unfold from_json_bridge
  cases obj with
  | nil => rfl
  | cons a l => rfl

theorem from_json_gimbal_eq (obj : Object) (cfg : AppConfig)
    (h1 : fits_int32 cfg.gimbal.bind_port) (h2 : fits_int32 cfg.gimbal.generator_port) (h3 : fits_int32 cfg.gimbal.sensor_type) (h4 : fits_int32 cfg.gimbal.sensor_id) :
    from_json_gimbal obj cfg
      = { cfg with gimbal :=
          { bind_ip := spec_string (obj.find "bind_ip") cfg.gimbal.bind_ip,
            bind_port := spec_int (obj.find "bind_port") cfg.gimbal.bind_port,
            generator_ip := spec_string (obj.find "generator_ip") cfg.gimbal.generator_ip,
            generator_port := spec_int (obj.find "generator_port") cfg.gimbal.generator_port,
            sensor_type := spec_int (obj.find "sensor_type") cfg.gimbal.sensor_type,
            sensor_id := spec_int (obj.find "sensor_id") cfg.gimbal.sensor_id,
            control_method := spec_string (obj.find "gimbal_control_method") cfg.gimbal.control_method,
            show_packets := spec_bool (obj.find "show_packets") cfg.gimbal.show_packets } } := by
  rw [spec_int_find obj _ _ h1, spec_int_find obj _ _ h2, spec_int_find obj _ _ h3, spec_int_find obj _ _ h4]
  simp only [spec_string_find, spec_bool_find]
  unfold from_json_gimbal
  cases obj with
  | nil => rfl
  | cons a l => rfl

theorem from_json_relay_eq (obj : Object) (cfg : AppConfig)
    (h1 : fits_int32 cfg.relay.bind_port) (h2 : fits_int32 cfg.relay.raw_port) (h3 : fits_int32 cfg.relay.proc_port) :
    from_json_relay obj cfg
      = { cfg with relay :=
          { bind_ip := spec_string (obj.find "bind_ip") cfg.relay.bind_ip,
            bind_port := spec_int (obj.find "bind_port") cfg.relay.bind_port,
            raw_ip := spec_string (obj.find "raw_ip") cfg.relay.raw_ip,
            raw_port := spec_int (obj.find "raw_port") cfg.relay.raw_port,
            proc_ip := spec_string (obj.find "proc_ip") cfg.relay.proc_ip,
            proc_port := spec_int (obj.find "proc_port") cfg.relay.proc_port,
            enable := spec_bool (obj.find "enable") cfg.relay.enable,
            log_packets := spec_bool (obj.find "log_packets") cfg.relay.log_packets } } := by
  rw [spec_int_find obj _ _ h1, spec_int_find obj _ _ h2, spec_int_find obj _ _ h3]
  simp only [spec_string_find, spec_bool_find]
  unfold from_json_relay
  cases obj with
  | nil => rfl
  | cons a l => rfl

theorem from_json_rover_eq (obj : Object) (cfg : AppConfig) :
    from_json_rover obj cfg
      = { cfg with rover :=
          { enable_logging := spec_bool (obj.find "enable_logging") cfg.rover.enable_logging,
            log_directory := spec_string (obj.find "log_directory") cfg.rover.log_directory } } := by
  simp only [spec_string_find, spec_bool_find]
  unfold from_json_rover
  cases obj with
  | nil => rfl
  | cons a l => rfl

theorem section_object_eq (root : Object) (key : String) :
    section_object root key
      = .ok (match List.lookup key root with
          | some (.object sec) => sec
          | _ => []) := by
  unfold section_object Object.find object_or
  cases h : List.lookup key root with
  | none => rfl
  | some v => cases v <;> rfl

theorem supplied_object (root : Object) (sect key : String) :
    supplied (.object root) sect key
      = Object.find (match List.lookup sect root with
          | some (.object sec) => sec
          | _ => []) key := by
  unfold supplied Object.find
  simp only []
  cases List.lookup sect root with
  | none => simp
  | some v => cases v <;> simp

theorem from_json_object (root : Object) (base_dir : String) :
    AppConfig.from_json (.object root) base_dir
      = .ok (spec_from_json (.object root) base_dir) := by
  unfold AppConfig.from_json
  simp only [Value.is_object, Value.as_object, Bool.not_true, Bool.false_eq_true, if_false,
    section_object_eq]
  have hfit : ∀ n : Int, fits_int32 n → ∀ x : Int, x = n → fits_int32 x := by
    intro n hn x hx
    rw [hx]
    exact hn
  rw [from_json_bridge_eq, from_json_gimbal_eq, from_json_relay_eq, from_json_rover_eq]
  · unfold spec_from_json
    simp only [supplied_object, supplied_top, Object.find]
    cases h1 : List.lookup "console_hud" root with
    | none =>
      cases h2 : List.lookup "hud_interval" root with
      | none => rfl
      | some w => cases w <;> rfl
    | some u =>
      cases h2 : List.lookup "hud_interval" root with
      | none => cases u <;> rfl
      | some w => cases u <;> cases w <;> rfl
  · exact hfit 10707 (by decide) _ rfl
  · exact hfit 10708 (by decide) _ rfl
  · exact hfit 10709 (by decide) _ rfl
  · exact hfit 10705 (by decide) _ rfl
  · exact hfit 10706 (by decide) _ rfl
  · exact hfit 0 (by decide) _ rfl
  · exact hfit 1 (by decide) _ rfl
  · exact hfit 9999 (by decide) _ rfl
  · exact hfit 9998 (by decide) _ rfl

/-- C28: `AppConfig::from_json` returns a configuration for every JSON value and base
directory. For a value that is not an object it is the default configuration, whose
directories are `base_dir/SaveFile`, `base_dir/PreDefinedImageSet` and `base_dir/savedata`.
For an object, each field is the supplied value when its section is an object holding the
key with a value of the field's JSON type (an integer field takes the number converted to
`int`), and the default otherwise. -/
theorem from_json_falls_back (v : Value) (base_dir : String) :
    AppConfig.from_json v base_dir = .ok (spec_from_json v base_dir)
      ∧ (v.is_object = false → spec_from_json v base_dir = ConfigManager.defaults base_dir)
      ∧ ConfigManager.defaults base_dir
          = { bridge := { realtime_dir := join_path base_dir "SaveFile",
                          predefined_dir := join_path base_dir "PreDefinedImageSet" },
              rover := { log_directory := join_path base_dir "savedata" } } := by
  refine ⟨?_, ?_, rfl⟩
  · cases v with
    | object root => exact from_json_object root base_dir
    | null => rfl
    | bool b => rfl
    | number n => rfl
    | string s => rfl
    | array a => rfl
  · intro h
    cases v with
    | object root => cases h
    | null => rfl
    | bool b => rfl
    | number n => rfl
    | string s => rfl
    | array a => rfl


/-- A document whose `bridge` section gives a number for `ip` and 8000 for `tcp_port`, and
whose `gimbal` entry is a string: only `bridge.tcp_port` leaves its default. -/
theorem from_json_falls_back_witness :
    AppConfig.from_json
        (.object [("bridge", .object [("ip", .number 5), ("tcp_port", .number 8000)]),
          ("gimbal", .string "x")]) "/d"
      = .ok { bridge := { tcp_port := 8000, realtime_dir := join_path "/d" "SaveFile",
                          predefined_dir := join_path "/d" "PreDefinedImageSet" },
              rover := { log_directory := join_path "/d" "savedata" } }
      ∧ AppConfig.from_json (.array []) "/d" = .ok (ConfigManager.defaults "/d") := by
  refine ⟨(from_json_falls_back _ "/d").1.trans ?_, ?_⟩
  · have h : static_cast_int32 (8000 : ℚ) = 8000 := by
      have := trunc_toward_zero_intCast 8000
      simp only [Int.cast_ofNat] at this
      rw [static_cast_int32, this]
      decide
    simp [spec_from_json, supplied, supplied_top, spec_string, spec_int, spec_bool, spec_number,
      ConfigManager.defaults, List.lookup, h]
  · rw [(from_json_falls_back (.array []) "/d").1,
      (from_json_falls_back (.array []) "/d").2.1 rfl]

theorem to_json_eq (c : AppConfig) :
    c.to_json
      = .object
        [("bridge", .object
          [("ip", .string c.bridge.ip),
            ("tcp_port", .number (static_cast_double c.bridge.tcp_port)),
            ("udp_port", .number (static_cast_double c.bridge.udp_port)),
            ("realtime_dir", .string c.bridge.realtime_dir),
            ("predefined_dir", .string c.bridge.predefined_dir),
            ("image_source_mode", .string c.bridge.image_source_mode),
            ("console_echo", .bool c.bridge.console_echo),
            ("show_hud", .bool c.bridge.show_hud)]),
          ("gimbal", .object
          [("bind_ip", .string c.gimbal.bind_ip),
            ("bind_port", .number (static_cast_double c.gimbal.bind_port)),
            ("generator_ip", .string c.gimbal.generator_ip),
            ("generator_port", .number (static_cast_double c.gimbal.generator_port)),
            ("sensor_type", .number (static_cast_double c.gimbal.sensor_type)),
            ("sensor_id", .number (static_cast_double c.gimbal.sensor_id)),
            ("gimbal_control_method", .string c.gimbal.control_method),
            ("show_packets", .bool c.gimbal.show_packets)]),
          ("relay", .object
          [("bind_ip", .string c.relay.bind_ip),
            ("bind_port", .number (static_cast_double c.relay.bind_port)),
            ("raw_ip", .string c.relay.raw_ip),
            ("raw_port", .number (static_cast_double c.relay.raw_port)),
            ("proc_ip", .string c.relay.proc_ip),
            ("proc_port", .number (static_cast_double c.relay.proc_port)),
            ("enable", .bool c.relay.enable),
            ("log_packets", .bool c.relay.log_packets)]),
          ("rover", .object
          [("enable_logging", .bool c.rover.enable_logging),
            ("log_directory", .string c.rover.log_directory)]),
          ("console_hud", .bool c.console_hud),
          ("hud_interval", .number c.hud_interval)] := by
  rfl

theorem static_cast_int32_double (n : Int) (h : fits_int32 n) :
    static_cast_int32 (static_cast_double n) = n := by
  unfold static_cast_int32 static_cast_double
  rw [trunc_toward_zero_intCast, wrap_int32_of_fits n h]

/-- C25: for every configuration whose `int` fields hold `int` values and every base
directory, `from_json` applied to the result of `to_json` returns the configuration itself:
every field is written and read back under one key, and an integer field survives the
conversion to a number and back. -/
theorem from_json_to_json (c : AppConfig) (base_dir : String) (h : c.ints_fit) :
    AppConfig.from_json c.to_json base_dir = .ok c := by
  obtain ⟨h1, h2, h3, h4, h5, h6, h7, h8, h9⟩ := h
  rw [to_json_eq, from_json_object]
  have e : ∀ (n d : Int), fits_int32 n →
      spec_int (some (.number (static_cast_double n))) d = n := by
    intro n d hn
    exact static_cast_int32_double n hn
  obtain ⟨⟨b1, b2, b3, b4, b5, b6, b7, b8⟩, ⟨g1, g2, g3, g4, g5, g6, g7, g8⟩,
    ⟨r1, r2, r3, r4, r5, r6, r7, r8⟩, ⟨v1, v2⟩, ch, hi⟩ := c
  simp [spec_from_json, supplied, supplied_top, List.lookup, spec_string, spec_bool,
    spec_number, e, h1, h2, h3, h4, h5, h6, h7, h8, h9]

/-- A configuration with a changed port and a cleared flag comes back from its JSON form. -/
theorem from_json_to_json_witness :
    AppConfig.from_json
        (AppConfig.to_json { bridge := { tcp_port := 8000 }, console_hud := false }) "/d"
      = .ok { bridge := { tcp_port := 8000 }, console_hud := false } :=
  from_json_to_json { bridge := { tcp_port := 8000 }, console_hud := false } "/d"
    (by simp [AppConfig.ints_fit, fits_int32])


/-! ## Theorems: the JSON parser stays inside its text -/

theorem within_mono {α : Type} (n lo lo2 : Nat) (r : Res α) (h : r.within n lo)
    (hlo : lo2 ≤ lo) : r.within n lo2 := by
  cases r with
  | ok v p => exact ⟨Nat.le_trans hlo h.1, h.2⟩
  | error w p => exact h
  | out_of_bounds => exact h
  | out_of_fuel => exact h

theorem within_bind {α β : Type} (n lo : Nat) (r : Res α) (f : α → Nat → Res β)
    (h : r.within n lo) (hf : ∀ a p, lo ≤ p → p ≤ n → (f a p).within n p) :
    (r.bind f).within n lo := by
  cases r with
  | ok v p => exact within_mono n p lo _ (hf v p h.1 h.2) h.1
  | error w p => exact h
  | out_of_bounds => exact h
  | out_of_fuel => exact h

theorem text_at_lt (text : List Char) (pos : Nat) (h : pos < text.length) :
    ∃ ch, text_at text pos = some ch := by
  unfold text_at
  exact ⟨text[pos], List.getElem?_eq_getElem h⟩

theorem peek_bind_within {β : Type} (text : List Char) (pos : Nat) (f : Char → Nat → Res β)
    (hf : ∀ ch, (pos < text.length ∨ ch = Char.ofNat 0) → (f ch pos).within text.length pos) :
    ((peek text pos).bind f).within text.length pos := by
  unfold peek eof
  by_cases h : pos ≥ text.length
  · simp only [h, decide_True, if_true, Res.bind]
    exact hf _ (Or.inr rfl)
  · obtain ⟨ch, hch⟩ := text_at_lt text pos (by omega)
    simp only [h, decide_False, Bool.false_eq_true, if_false, hch, Res.bind]
    exact hf ch (Or.inl (by omega))

theorem advance_within (text : List Char) (pos : Nat) (h : pos < text.length) :
    (advance text pos).within text.length (pos + 1) := by
  obtain ⟨ch, hch⟩ := text_at_lt text pos h
  simp only [advance, hch, Res.within]
  omega

theorem advance_bind_within {β : Type} (text : List Char) (pos : Nat) (f : Char → Nat → Res β)
    (h : pos < text.length)
    (hf : ∀ ch, ((f ch (pos + 1)).within text.length (pos + 1))) :
    ((advance text pos).bind f).within text.length pos := by
  obtain ⟨ch, hch⟩ := text_at_lt text pos h
  simp only [advance, hch, Res.bind]
  exact within_mono _ _ _ _ (hf ch) (by omega)

theorem not_eof_and_bind_within {β : Type} (text : List Char) (p : Char → Bool) (pos : Nat)
    (f : Bool → Nat → Res β)
    (hf : ∀ b, (b = true → pos < text.length) → (f b pos).within text.length pos) :
    ((not_eof_and text p pos).bind f).within text.length pos := by
  unfold not_eof_and peek eof
  by_cases h : pos ≥ text.length
  · simp only [h, decide_True, if_true, Res.bind]
    exact hf false (fun hc => by cases hc)
  · obtain ⟨ch, hch⟩ := text_at_lt text pos (by omega)
    simp only [h, decide_False, Bool.false_eq_true, if_false, hch, Res.bind]
    exact hf (p ch) (fun _ => by omega)

theorem skip_ws_loop_within (text : List Char) (fuel pos : Nat) (hpos : pos ≤ text.length)
    (hfuel : text.length - pos < fuel) :
    (skip_ws_loop text fuel pos).within text.length pos := by
  induction fuel generalizing pos with
  | zero => omega
  | succ fuel ih =>
    unfold skip_ws_loop
    apply not_eof_and_bind_within
    intro b hb
    cases b with
    | false => exact ⟨Nat.le_refl _, hpos⟩
    | true =>
      have hlt := hb rfl
      simp only [if_true]
      apply advance_bind_within _ _ _ hlt
      intro ch
      exact ih (pos + 1) (by omega) (by omega)

theorem skip_ws_within (text : List Char) (pos : Nat) (hpos : pos ≤ text.length) :
    (skip_ws text pos).within text.length pos :=
  skip_ws_loop_within text _ pos hpos (by omega)

theorem digits_loop_within (text : List Char) (fuel pos : Nat) (hpos : pos ≤ text.length)
    (hfuel : text.length - pos < fuel) :
    (digits_loop text fuel pos).within text.length pos := by
  induction fuel generalizing pos with
  | zero => omega
  | succ fuel ih =>
    unfold digits_loop
    apply not_eof_and_bind_within
    intro b hb
    cases b with
    | false => exact ⟨Nat.le_refl _, hpos⟩
    | true =>
      have hlt := hb rfl
      simp only [if_true]
      apply advance_bind_within _ _ _ hlt
      intro ch
      exact ih (pos + 1) (by omega) (by omega)

theorem match_within (text token : List Char) (pos : Nat) (hpos : pos ≤ text.length) :
    (match_ text token pos).within text.length pos := by
  unfold match_
  simp only [show ¬ pos > text.length by omega, if_false]
  split
  · rename_i h
    have hl : ((text.drop pos).take token.length).length = token.length := by rw [h]
    simp only [List.length_take, List.length_drop] at hl
    exact ⟨by omega, by omega⟩
  · exact ⟨Nat.le_refl _, hpos⟩

theorem expect_within (text token : List Char) (pos : Nat) (hpos : pos ≤ text.length) :
    (expect text token pos).within text.length pos := by
  unfold expect
  apply within_bind _ _ _ _ (match_within text token pos hpos)
  intro b p h1 h2
  cases b with
  | false => exact h2
  | true => exact ⟨Nat.le_refl _, h2⟩

theorem expect_char_bind_within {β : Type} (text : List Char) (token : Char) (pos : Nat)
    (f : Unit → Nat → Res β) (hpos : pos ≤ text.length)
    (hf : pos < text.length → (f () (pos + 1)).within text.length (pos + 1)) :
    ((expect_char text token pos).bind f).within text.length pos := by
  unfold expect_char eof
  by_cases h : pos ≥ text.length
  · simp only [h, decide_True, if_true, Res.bind]
    exact hpos
  · obtain ⟨ch, hch⟩ := text_at_lt text pos (by omega)
    simp only [h, decide_False, Bool.false_eq_true, if_false, hch]
    by_cases hc : ch = token
    · simp only [hc, ne_eq, not_true_eq_false, if_false, Res.bind]
      exact within_mono _ _ _ _ (hf (by omega)) (by omega)
    · simp only [ne_eq, hc, not_false_eq_true, if_true, Res.bind]
      exact hpos

theorem parse_null_within (text : List Char) (pos : Nat) (hpos : pos ≤ text.length) :
    (parse_null text pos).within text.length pos := by
  unfold parse_null
  apply within_bind _ _ _ _ (expect_within text _ pos hpos)
  intro _ p h1 h2
  exact ⟨Nat.le_refl _, h2⟩

theorem parse_bool_within (text : List Char) (pos : Nat) (hpos : pos ≤ text.length) :
    (parse_bool text pos).within text.length pos := by
  unfold parse_bool
  apply within_bind _ _ _ _ (match_within text _ pos hpos)
  intro b p h1 h2
  cases b with
  | true => exact ⟨Nat.le_refl _, h2⟩
  | false =>
    simp only [Bool.false_eq_true, if_false]
    apply within_bind _ _ _ _ (expect_within text _ p h2)
    intro _ q g1 g2
    exact ⟨Nat.le_refl _, g2⟩


theorem opt_advance_within (text : List Char) (pos : Nat) (c : Prop) [Decidable c]
    (hc : c → pos < text.length) (hpos : pos ≤ text.length) :
    (if c then (advance text pos).bind fun _ pos => Res.ok () pos
      else Res.ok () pos).within text.length pos := by
  split
  · rename_i h
    apply advance_bind_within _ _ _ (hc h)
    intro ch
    exact ⟨Nat.le_refl _, by have := hc h; omega⟩
  · exact ⟨Nat.le_refl _, hpos⟩

theorem opt_digits_within (text : List Char) (pos : Nat) (b : Bool)
    (hb : b = true → pos < text.length) (hpos : pos ≤ text.length) :
    (if b = true then
        (advance text pos).bind fun _ pos => digits_loop text (text.length + 1) pos
      else Res.ok () pos).within text.length pos := by
  split
  · rename_i h
    apply advance_bind_within _ _ _ (hb h)
    intro ch
    exact digits_loop_within text _ _ (by have := hb h; omega) (by omega)
  · exact ⟨Nat.le_refl _, hpos⟩

theorem char_zero_ne (ch c : Char) (h : ch = c) (hc : c ≠ Char.ofNat 0)
    (pos n : Nat) (hz : pos < n ∨ ch = Char.ofNat 0) : pos < n := by
  rcases hz with hz | hz
  · exact hz
  · exact absurd (h.symm.trans hz) hc

theorem parse_number_within (stod : List Char → Except String ℚ) (text : List Char) (pos : Nat)
    (hpos : pos ≤ text.length) :
    (parse_number stod text pos).within text.length pos := by
  unfold parse_number
  simp only []
  apply peek_bind_within
  intro ch hch
  apply within_bind _ _ _ _
    (opt_advance_within text pos _ (fun h => char_zero_ne ch _ h (by decide) _ _ hch) hpos)
  intro _ p1 a1 a2
  apply within_bind _ _ _ _ (digits_loop_within text _ p1 a2 (by omega))
  intro _ p2 b1 b2
  apply not_eof_and_bind_within
  intro dot hdot
  apply within_bind _ _ _ _ (opt_digits_within text p2 dot hdot b2)
  intro _ p3 c1 c2
  apply not_eof_and_bind_within
  intro ex hex
  refine within_bind _ _ _ _ (?_ : Res.within text.length p3 _) ?_
  · split
    · rename_i he
      apply advance_bind_within _ _ _ (hex he)
      intro _
      have hlt := hex he
      apply not_eof_and_bind_within
      intro sign hsign
      apply within_bind _ _ _ _
        (opt_advance_within text (p3 + 1) _ hsign (by omega))
      intro _ p4 d1 d2
      exact digits_loop_within text _ p4 d2 (by omega)
    · exact ⟨Nat.le_refl _, c2⟩
  · intro _ p5 e1 e2
    cases stod (List.take (p5 - pos) (List.drop pos text)) with
    | ok v => exact ⟨Nat.le_refl _, e2⟩
    | error w => exact e2

theorem read_hex_within (text : List Char) (k : Nat) (hex : List Char) (pos : Nat)
    (hpos : pos ≤ text.length) : (read_hex text k hex pos).within text.length pos := by
  induction k generalizing hex pos with
  | zero => exact ⟨Nat.le_refl _, hpos⟩
  | succ k ih =>
    unfold read_hex eof
    by_cases h : pos ≥ text.length
    · simp only [h, decide_True, if_true]
      exact hpos
    · simp only [h, decide_False, Bool.false_eq_true, if_false]
      apply advance_bind_within _ _ _ (by omega)
      intro ch
      exact ih _ _ (by omega)

theorem parse_escape_within (text : List Char) (esc : Char) (pos : Nat)
    (hpos : pos ≤ text.length) : (parse_escape text esc pos).within text.length pos := by
  unfold parse_escape
  have hok : ∀ l : List Char, (Res.ok l pos).within text.length pos :=
    fun _ => ⟨Nat.le_refl _, hpos⟩
  repeat' split
  all_goals first
    | exact hok _
    | exact hpos
    | skip
  apply within_bind _ _ _ _ (read_hex_within text 4 [] pos hpos)
  intro hex p h1 h2
  cases stoi_hex hex with
  | ok v => exact ⟨Nat.le_refl _, h2⟩
  | error w => exact h2

theorem parse_string_loop_within (text : List Char) (fuel : Nat) (oss : List Char) (pos : Nat)
    (hpos : pos ≤ text.length) (hfuel : text.length - pos < fuel) :
    (parse_string_loop text fuel oss pos).within text.length pos := by
  induction fuel generalizing oss pos with
  | zero => omega
  | succ fuel ih =>
    unfold parse_string_loop eof
    by_cases h : pos ≥ text.length
    · simp only [h, decide_True, if_true]
      exact hpos
    · simp only [h, decide_False, Bool.false_eq_true, if_false]
      apply advance_bind_within _ _ _ (by omega)
      intro ch
      split
      · exact ⟨Nat.le_refl _, by omega⟩
      · split
        · by_cases h2 : pos + 1 ≥ text.length
          · simp only [h2, decide_True, if_true]
            show pos + 1 ≤ text.length
            omega
          · simp only [h2, decide_False, Bool.false_eq_true, if_false]
            apply advance_bind_within _ _ _ (by omega)
            intro esc
            apply within_bind _ _ _ _ (parse_escape_within text esc _ (by omega))
            intro put p g1 g2
            exact ih _ p g2 (by omega)
        · exact ih _ _ (by omega) (by omega)

theorem parse_string_within (text : List Char) (pos : Nat) (hpos : pos ≤ text.length) :
    (parse_string text pos).within text.length pos := by
  unfold parse_string
  apply expect_char_bind_within _ _ _ _ hpos
  intro hlt
  exact parse_string_loop_within text _ [] _ (by omega) (by omega)


theorem parse_array_loop_within (text : List Char) (pv : Nat → Res Value) (lo : Nat)
    (hpv : ∀ p, lo < p → p ≤ text.length → (pv p).within text.length p)
    (fuel : Nat) (arr : List Value) (pos : Nat) (hlo : lo < pos) (hpos : pos ≤ text.length)
    (hfuel : text.length - pos < fuel) :
    (parse_array_loop text pv fuel arr pos).within text.length pos := by
  induction fuel generalizing arr pos with
  | zero => omega
  | succ fuel ih =>
    unfold parse_array_loop
    apply within_bind _ _ _ _ (hpv pos hlo hpos)
    intro v p1 a1 a2
    simp only []
    apply within_bind _ _ _ _ (skip_ws_within text p1 a2)
    intro _ p2 b1 b2
    apply peek_bind_within
    intro ch hch
    split
    · rename_i hc
      have hlt := char_zero_ne ch _ hc (by decide) _ _ hch
      apply advance_bind_within _ _ _ hlt
      intro _
      apply within_bind _ _ _ _ (skip_ws_within text (p2 + 1) (by omega))
      intro _ p3 c1 c2
      exact ih _ p3 (by omega) c2 (by omega)
    · apply peek_bind_within
      intro ch2 hch2
      split
      · rename_i hc
        have hlt := char_zero_ne ch2 _ hc (by decide) _ _ hch2
        apply advance_bind_within _ _ _ hlt
        intro _
        exact ⟨Nat.le_refl _, by omega⟩
      · exact b2

theorem parse_array_within (text : List Char) (pv : Nat → Res Value) (pos : Nat)
    (hpv : ∀ p, pos < p → p ≤ text.length → (pv p).within text.length p)
    (hpos : pos ≤ text.length) :
    (parse_array text pv pos).within text.length pos := by
  unfold parse_array
  apply expect_char_bind_within _ _ _ _ hpos
  intro hlt
  simp only []
  apply within_bind _ _ _ _ (skip_ws_within text (pos + 1) (by omega))
  intro _ p1 a1 a2
  apply peek_bind_within
  intro ch hch
  split
  · rename_i hc
    have hlt := char_zero_ne ch _ hc (by decide) _ _ hch
    apply advance_bind_within _ _ _ hlt
    intro _
    exact ⟨Nat.le_refl _, by omega⟩
  · exact parse_array_loop_within text pv pos hpv _ _ p1 (by omega) a2 (by omega)

theorem parse_object_loop_within (text : List Char) (pv : Nat → Res Value) (lo : Nat)
    (hpv : ∀ p, lo < p → p ≤ text.length → (pv p).within text.length p)
    (fuel : Nat) (obj : Object) (pos : Nat) (hlo : lo < pos) (hpos : pos ≤ text.length)
    (hfuel : text.length - pos < fuel) :
    (parse_object_loop text pv fuel obj pos).within text.length pos := by
  induction fuel generalizing obj pos with
  | zero => omega
  | succ fuel ih =>
    unfold parse_object_loop
    apply within_bind _ _ _ _ (skip_ws_within text pos hpos)
    intro _ p0 z1 z2
    apply peek_bind_within
    intro ch0 hch0
    split
    · exact z2
    · apply within_bind _ _ _ _ (parse_string_within text p0 z2)
      intro k p1 a1 a2
      simp only []
      apply within_bind _ _ _ _ (skip_ws_within text p1 a2)
      intro _ p2 b1 b2
      apply expect_char_bind_within _ _ _ _ b2
      intro hlt2
      apply within_bind _ _ _ _ (skip_ws_within text (p2 + 1) (by omega))
      intro _ p3 c1 c2
      apply within_bind _ _ _ _ (hpv p3 (by omega) c2)
      intro v p4 d1 d2
      apply within_bind _ _ _ _ (skip_ws_within text p4 d2)
      intro _ p5 e1 e2
      apply peek_bind_within
      intro ch hch
      split
      · rename_i hc
        have hlt := char_zero_ne ch _ hc (by decide) _ _ hch
        apply advance_bind_within _ _ _ hlt
        intro _
        apply within_bind _ _ _ _ (skip_ws_within text (p5 + 1) (by omega))
        intro _ p6 f1 f2
        exact ih _ p6 (by omega) f2 (by omega)
      · apply peek_bind_within
        intro ch2 hch2
        split
        · rename_i hc
          have hlt := char_zero_ne ch2 _ hc (by decide) _ _ hch2
          apply advance_bind_within _ _ _ hlt
          intro _
          exact ⟨Nat.le_refl _, by omega⟩
        · exact e2

theorem parse_object_within (text : List Char) (pv : Nat → Res Value) (pos : Nat)
    (hpv : ∀ p, pos < p → p ≤ text.length → (pv p).within text.length p)
    (hpos : pos ≤ text.length) :
    (parse_object text pv pos).within text.length pos := by
  unfold parse_object
  apply expect_char_bind_within _ _ _ _ hpos
  intro hlt
  simp only []
  apply within_bind _ _ _ _ (skip_ws_within text (pos + 1) (by omega))
  intro _ p1 a1 a2
  apply peek_bind_within
  intro ch hch
  split
  · rename_i hc
    have hlt := char_zero_ne ch _ hc (by decide) _ _ hch
    apply advance_bind_within _ _ _ hlt
    intro _
    exact ⟨Nat.le_refl _, by omega⟩
  · exact parse_object_loop_within text pv pos hpv _ _ p1 (by omega) a2 (by omega)

theorem parse_value_within (stod : List Char → Except String ℚ) (text : List Char)
    (depth pos : Nat) (hpos : pos ≤ text.length) (hdepth : text.length - pos < depth) :
    (parse_value stod text depth pos).within text.length pos := by
  induction depth generalizing pos with
  | zero => omega
  | succ depth ih =>
    unfold parse_value
    apply within_bind _ _ _ _ (skip_ws_within text pos hpos)
    intro _ p1 a1 a2
    unfold eof
    by_cases h : p1 ≥ text.length
    · simp only [h, decide_True, if_true]
      exact a2
    · simp only [h, decide_False, Bool.false_eq_true, if_false]
      apply peek_bind_within
      intro ch hch
      have hpv : ∀ p, p1 < p → p ≤ text.length →
          (parse_value stod text depth p).within text.length p :=
        fun p hp1 hp2 => ih p hp2 (by omega)
      repeat' split
      · exact parse_null_within text p1 a2
      · exact parse_bool_within text p1 a2
      · exact parse_string_within text p1 a2
      · exact parse_object_within text _ p1 hpv a2
      · exact parse_array_within text _ p1 hpv a2
      · exact parse_number_within stod text p1 a2
      · exact a2

theorem ensure_consumed_within (text : List Char) (pos : Nat) (hpos : pos ≤ text.length) :
    (ensure_consumed text pos).within text.length pos := by
  unfold ensure_consumed
  apply within_bind _ _ _ _ (skip_ws_within text pos hpos)
  intro _ p1 a1 a2
  split
  · exact a2
  · exact ⟨Nat.le_refl _, a2⟩

theorem parse_within (stod : List Char → Except String ℚ) (text : List Char) :
    (parse stod text).within text.length 0 := by
  unfold parse
  apply within_bind _ _ _ _ (parse_value_within stod text _ 0 (Nat.zero_le _) (by omega))
  intro root p1 a1 a2
  apply within_bind _ _ _ _ (ensure_consumed_within text p1 a2)
  intro _ p2 b1 b2
  exact ⟨Nat.le_refl _, b2⟩

/-- C27: for every input text (and whatever `std::stod` does), `mini_json::parse` returns a
value or raises an exception: it never reads `text_` at an index at or beyond the length,
the nesting bound of the model is never reached, and `pos_` ends at most at the length. The
same holds for `parse_value`, `parse_string`, `parse_number` and `skip_ws` started at any
position up to the length. An unterminated string, a cut-off escape, a cut-off unicode
escape, a missing bracket or brace, and trailing data each end in an exception. -/
theorem parse_never_reads_past_text (stod : List Char → Except String ℚ) (text : List Char)
    (pos : Nat) (hpos : pos ≤ text.length) :
    (parse stod text).within text.length 0
      ∧ ((∃ v p, parse stod text = .ok v p ∧ p ≤ text.length)
          ∨ (∃ what p, parse stod text = .error what p ∧ p ≤ text.length))
      ∧ parse stod text ≠ .out_of_bounds
      ∧ parse stod text ≠ .out_of_fuel
      ∧ (parse_value stod text (text.length + 1) pos).within text.length pos
      ∧ (parse_string text pos).within text.length pos
      ∧ (parse_number stod text pos).within text.length pos
      ∧ (skip_ws text pos).within text.length pos
      ∧ parse stod ['"', 'a', 'b', 'c'] = .error "Unterminated string literal" 4
      ∧ parse stod ['"', 'a', 'b', '\\'] = .error "Invalid escape sequence" 4
      ∧ parse stod ['"', '\\', 'u', '0', '0'] = .error "Invalid unicode escape" 5
      ∧ parse stod ['[', 't', 'r', 'u', 'e'] = .error "Expected ',' or ']'" 5
      ∧ parse stod ['{', '"', 'a', '"', ':', 'n', 'u', 'l', 'l']
          = .error "Expected ',' or '\x7d' in object" 9
      ∧ parse stod ['[', 't', 'r', 'u', 'e', ','] = .error "Unexpected end of JSON input" 6
      ∧ parse stod ['n', 'u', 'l', 'l', ' ', 'x'] = .error "Extra data after JSON value" 5
      ∧ parse stod [] = .error "Unexpected end of JSON input" 0 := by
  have h := parse_within stod text
  refine ⟨h, ?_, ?_, ?_, parse_value_within stod text _ pos hpos (by omega),
    parse_string_within text pos hpos, parse_number_within stod text pos hpos,
    skip_ws_within text pos hpos, rfl, rfl, rfl, rfl, rfl, rfl, rfl, rfl⟩
  · cases hp : parse stod text with
    | ok v p =>
      rw [hp] at h
      exact Or.inl ⟨v, p, rfl, h.2⟩
    | error w p =>
      rw [hp] at h
      exact Or.inr ⟨w, p, rfl, h⟩
    | out_of_bounds =>
      rw [hp] at h
      exact absurd h (by simp [Res.within])
    | out_of_fuel =>
      rw [hp] at h
      exact absurd h (by simp [Res.within])
  · intro hp
    rw [hp] at h
    exact h
  · intro hp
    rw [hp] at h
    exact h

/-- The text `[true`, parsed from the start and from its second character. -/
theorem parse_never_reads_past_text_witness :
    (parse (fun _ => .ok 0) ['[', 't', 'r', 'u', 'e']).within 5 0
      ∧ (parse_value (fun _ => .ok 0) ['[', 't', 'r', 'u', 'e'] 6 1).within 5 1 :=
  ⟨(parse_never_reads_past_text (fun _ => .ok 0) ['[', 't', 'r', 'u', 'e'] 1 (by decide)).1,
    (parse_never_reads_past_text (fun _ => .ok 0) ['[', 't', 'r', 'u', 'e'] 1
      (by decide)).2.2.2.2.1⟩


/-! ## Theorems: escaped strings are read back -/

theorem text_at_mid (pre l tail : List Char) (k : Nat) (hk : k < l.length) :
    text_at (pre ++ l ++ tail) (pre.length + k) = l[k]? := by
  unfold text_at
  rw [List.append_assoc, List.getElem?_append_right (by omega)]
  simp only [Nat.add_sub_cancel_left]
  rw [List.getElem?_append_left hk]

theorem eof_mid (pre l tail : List Char) (k : Nat) (hk : k < l.length) :
    eof (pre ++ l ++ tail) (pre.length + k) = false := by
  unfold eof
  simp only [List.length_append, ge_iff_le, decide_eq_false_iff_not, not_le]
  omega

set_option maxRecDepth 100000 in
theorem hex4_roundtrip : ∀ k < 32,
    (∃ a b c d, setw_setfill 4 '0' (put_hex k) = [a, b, c, d])
      ∧ stoi_hex (setw_setfill 4 '0' (put_hex k)) = .ok (k : Int)
      ∧ put_code (static_cast_char16 (k : Int)) = [Char.ofNat k] := by
  intro k hk
  interval_cases k <;> exact ⟨⟨_, _, _, _, rfl⟩, rfl, rfl⟩

theorem step_plain (pre tail : List Char) (c : Char) (oss : List Char) (fuel : Nat)
    (hq : c ≠ '"') (hb : c ≠ '\\') :
    parse_string_loop (pre ++ [c] ++ tail) (fuel + 1) oss pre.length
      = parse_string_loop (pre ++ [c] ++ tail) fuel (oss ++ [c]) (pre.length + 1) := by
  have e0 := eof_mid pre [c] tail 0 (by simp)
  have t0 := text_at_mid pre [c] tail 0 (by simp)
  simp only [Nat.add_zero] at e0 t0
  rw [parse_string_loop]
  simp only [e0, advance, t0, Res.bind, Bool.false_eq_true, if_false, List.getElem?_cons_zero,
    hq, hb]

theorem step_escape2 (pre tail : List Char) (e c : Char) (oss : List Char) (fuel : Nat)
    (he : ∀ (text : List Char) (p : Nat), parse_escape text e p = .ok [c] p) :
    parse_string_loop (pre ++ ['\\', e] ++ tail) (fuel + 1) oss pre.length
      = parse_string_loop (pre ++ ['\\', e] ++ tail) fuel (oss ++ [c]) (pre.length + 2) := by
  have e0 := eof_mid pre ['\\', e] tail 0 (by simp)
  have t0 := text_at_mid pre ['\\', e] tail 0 (by simp)
  have e1 := eof_mid pre ['\\', e] tail 1 (by simp)
  have t1 := text_at_mid pre ['\\', e] tail 1 (by simp)
  simp only [Nat.add_zero] at e0 t0
  rw [parse_string_loop]
  simp only [e0, advance, t0, Res.bind, Bool.false_eq_true, if_false, List.getElem?_cons_zero,
    e1, t1, List.getElem?_cons_succ, he]
  simp

theorem step_unicode (pre tail : List Char) (a b c d ch : Char) (k : Int) (oss : List Char)
    (fuel : Nat) (hs : stoi_hex [a, b, c, d] = .ok k)
    (hp : put_code (static_cast_char16 k) = [ch]) :
    parse_string_loop (pre ++ ['\\', 'u', a, b, c, d] ++ tail) (fuel + 1) oss pre.length
      = parse_string_loop (pre ++ ['\\', 'u', a, b, c, d] ++ tail) fuel (oss ++ [ch])
          (pre.length + 6) := by
  have e0 := eof_mid pre ['\\', 'u', a, b, c, d] tail 0 (by simp)
  have t0 := text_at_mid pre ['\\', 'u', a, b, c, d] tail 0 (by simp)
  have e1 := eof_mid pre ['\\', 'u', a, b, c, d] tail 1 (by simp)
  have t1 := text_at_mid pre ['\\', 'u', a, b, c, d] tail 1 (by simp)
  have e2 := eof_mid pre ['\\', 'u', a, b, c, d] tail 2 (by simp)
  have t2 := text_at_mid pre ['\\', 'u', a, b, c, d] tail 2 (by simp)
  have e3 := eof_mid pre ['\\', 'u', a, b, c, d] tail 3 (by simp)
  have t3 := text_at_mid pre ['\\', 'u', a, b, c, d] tail 3 (by simp)
  have e4 := eof_mid pre ['\\', 'u', a, b, c, d] tail 4 (by simp)
  have t4 := text_at_mid pre ['\\', 'u', a, b, c, d] tail 4 (by simp)
  have e5 := eof_mid pre ['\\', 'u', a, b, c, d] tail 5 (by simp)
  have t5 := text_at_mid pre ['\\', 'u', a, b, c, d] tail 5 (by simp)
  simp only [Nat.add_zero] at e0 t0
  have hu : parse_escape (pre ++ ['\\', 'u', a, b, c, d] ++ tail) 'u' (pre.length + 1 + 1)
      = .ok [ch] (pre.length + 6) := by
    simp only [parse_escape, read_hex, Nat.add_assoc, e2, advance, t2, Res.bind, e3, t3, e4,
      t4, e5, t5, Bool.false_eq_true, if_false, List.getElem?_cons_succ,
      List.getElem?_cons_zero, List.nil_append, List.cons_append, hs, hp, Nat.reduceAdd,
      Char.reduceEq, if_true]
  rw [parse_string_loop]
  simp only [e0, advance, t0, Res.bind, Bool.false_eq_true, if_false, List.getElem?_cons_zero,
    e1, t1, List.getElem?_cons_succ, Char.reduceEq, if_true, hu]

theorem char_ofNat_toNat (c : Char) : Char.ofNat c.toNat = c := Char.ofNat_toNat c

theorem parse_string_step (pre tail : List Char) (c : Char) (oss : List Char) (fuel : Nat) :
    parse_string_loop (pre ++ escape_char c ++ tail) (fuel + 1) oss pre.length
      = parse_string_loop (pre ++ escape_char c ++ tail) fuel (oss ++ [c])
          (pre.length + (escape_char c).length) := by
  by_cases h1 : c = '\\'
  · subst h1
    exact step_escape2 pre tail _ _ oss fuel (fun _ _ => rfl)
  by_cases h2 : c = '"'
  · subst h2
    exact step_escape2 pre tail _ _ oss fuel (fun _ _ => rfl)
  by_cases h3 : c = '\x08'
  · subst h3
    exact step_escape2 pre tail _ _ oss fuel (fun _ _ => rfl)
  by_cases h4 : c = '\x0c'
  · subst h4
    exact step_escape2 pre tail _ _ oss fuel (fun _ _ => rfl)
  by_cases h5 : c = '\n'
  · subst h5
    exact step_escape2 pre tail _ _ oss fuel (fun _ _ => rfl)
  by_cases h6 : c = '\r'
  · subst h6
    exact step_escape2 pre tail _ _ oss fuel (fun _ _ => rfl)
  by_cases h7 : c = '\t'
  · subst h7
    exact step_escape2 pre tail _ _ oss fuel (fun _ _ => rfl)
  by_cases h8 : c.toNat < 0x20
  · obtain ⟨⟨a, b, x, d, hex⟩, hs, hp⟩ := hex4_roundtrip c.toNat h8
    have he : escape_char c = ['\\', 'u', a, b, x, d] := by
      simp only [escape_char, h1, h2, h3, h4, h5, h6, h7, h8, if_false, if_true, hex]
      rfl
    rw [he]
    rw [hex] at hs
    rw [char_ofNat_toNat] at hp
    exact step_unicode pre tail a b x d c _ oss fuel hs hp
  · have he : escape_char c = [c] := by
      simp only [escape_char, h1, h2, h3, h4, h5, h6, h7, h8, if_false]
    rw [he]
    exact step_plain pre tail c oss fuel h2 h1

theorem escape_char_length_pos (c : Char) : 0 < (escape_char c).length := by
  unfold escape_char
  repeat' split
  all_goals simp

theorem parse_string_loop_escaped (chars pre post oss : List Char) (fuel : Nat)
    (hfuel : (chars.flatMap escape_char).length < fuel) :
    parse_string_loop (pre ++ chars.flatMap escape_char ++ '"' :: post) fuel oss pre.length
      = .ok (.string (String.mk (oss ++ chars)))
          (pre.length + (chars.flatMap escape_char).length + 1) := by
  induction chars generalizing pre oss fuel with
  | nil =>
    cases fuel with
    | zero => simp at hfuel
    | succ fuel =>
      have e0 := eof_mid pre ['"'] post 0 (by simp)
      have t0 := text_at_mid pre ['"'] post 0 (by simp)
      simp only [Nat.add_zero, List.append_assoc, List.singleton_append] at e0 t0
      rw [parse_string_loop]
      simp only [List.flatMap_nil, List.append_nil, e0, advance, t0, Res.bind,
        Bool.false_eq_true, if_false, List.getElem?_cons_zero, if_true, List.length_nil,
        Nat.add_zero]
  | cons c cs ih =>
    cases fuel with
    | zero => simp at hfuel
    | succ fuel =>
      have hpos := escape_char_length_pos c
      simp only [List.flatMap_cons, List.length_append] at hfuel
      have hstep := parse_string_step pre (cs.flatMap escape_char ++ '"' :: post) c oss fuel
      have htext : pre ++ (c :: cs).flatMap escape_char ++ '"' :: post
          = pre ++ escape_char c ++ (cs.flatMap escape_char ++ '"' :: post) := by
        simp [List.flatMap_cons]
      rw [htext, hstep]
      have htext2 : pre ++ escape_char c ++ (cs.flatMap escape_char ++ '"' :: post)
          = (pre ++ escape_char c) ++ cs.flatMap escape_char ++ '"' :: post := by
        simp
      have hlen : pre.length + (escape_char c).length = (pre ++ escape_char c).length := by
        simp
      rw [htext2, hlen, ih (pre ++ escape_char c) (oss ++ [c]) fuel (by omega)]
      simp only [List.length_append, List.flatMap_cons, List.append_assoc, List.singleton_append]
      congr 1
      omega

theorem escape_string_eq (s : String) :
    escape_string s = ['"'] ++ s.toList.flatMap escape_char ++ '"' :: [] := by
  have h : ∀ (l init : List Char),
      l.foldl (fun oss ch => oss ++ escape_char ch) init = init ++ l.flatMap escape_char := by
    intro l
    induction l with
    | nil => intro init; simp
    | cons a l ih => intro init; simp [ih, List.flatMap_cons]
  simp only [escape_string, h]

theorem skip_ws_at_end (text : List Char) : skip_ws text text.length = .ok () text.length := by
  simp [skip_ws, skip_ws_loop, not_eof_and, eof, Res.bind]

theorem skip_ws_at_quote (tail : List Char) : skip_ws ('"' :: tail) 0 = .ok () 0 := by
  have h : isspace '"' = false := by decide
  simp [skip_ws, skip_ws_loop, not_eof_and, eof, Res.bind, peek, text_at, h]

/-- C26: for every string `s` (and whatever `std::stod` does), `mini_json::parse` applied to
the literal `escape_string(s)` returns the string value `s`, having read the whole literal.
A quote, a backslash, `\b`, `\f`, `\n`, `\r` and `\t` are written as a backslash and one
character, any other character below 0x20 as `\u00XX` with lowercase hexadecimal digits, and
every other character as itself. -/
theorem parse_escape_string (stod : List Char → Except String ℚ) (s : String) (c : Char) :
    parse stod (escape_string s) = .ok (.string s) (escape_string s).length
      ∧ escape_char '"' = ['\\', '"']
      ∧ escape_char '\\' = ['\\', '\\']
      ∧ escape_char '\x08' = ['\\', 'b']
      ∧ escape_char '\x0c' = ['\\', 'f']
      ∧ escape_char '\n' = ['\\', 'n']
      ∧ escape_char '\r' = ['\\', 'r']
      ∧ escape_char '\t' = ['\\', 't']
      ∧ escape_char '\x01' = ['\\', 'u', '0', '0', '0', '1']
      ∧ escape_char '\x1f' = ['\\', 'u', '0', '0', '1', 'f']
      ∧ (c.toNat < 0x20 ∨ c = '"' ∨ c = '\\' ∨ escape_char c = [c]) := by
  refine ⟨?_, rfl, rfl, rfl, rfl, rfl, rfl, rfl, rfl, rfl, ?_⟩
  · rw [escape_string_eq]
    have hloop := parse_string_loop_escaped s.toList ['"'] [] []
      ((['"'] ++ s.toList.flatMap escape_char ++ ['"']).length + 1)
      (by simp only [List.length_append, List.length_singleton]; omega)
    generalize hesc : s.toList.flatMap escape_char = esc at hloop ⊢
    have hlen : (['"'] ++ esc ++ ['"']).length = esc.length + 2 := by
      simp only [List.length_append, List.length_singleton]
      omega
    have hcons : ['"'] ++ esc ++ ['"'] = '"' :: (esc ++ ['"']) := by simp
    have hend := skip_ws_at_end (['"'] ++ esc ++ ['"'])
    have hstart := skip_ws_at_quote (esc ++ ['"'])
    rw [← hcons] at hstart
    have hstr : parse_string (['"'] ++ esc ++ ['"']) 0
        = .ok (.string s) (['"'] ++ esc ++ ['"']).length := by
      unfold parse_string
      have hx : expect_char (['"'] ++ esc ++ ['"']) '"' 0 = .ok () 1 := by
        simp [expect_char, eof, text_at]
      rw [hx]
      simp only [Res.bind]
      have h1 : (['"'] : List Char).length = 1 := rfl
      rw [h1] at hloop
      rw [hloop, hlen]
      simp only [List.nil_append]
      congr 1
      omega
    unfold parse
    rw [parse_value]
    rw [hstart]
    have he0 : eof (['"'] ++ esc ++ ['"']) 0 = false := by simp [eof]
    have hp0 : peek (['"'] ++ esc ++ ['"']) 0 = .ok '"' 0 := by simp [peek, eof, text_at]
    simp only [Res.bind, he0, hp0, Bool.false_eq_true, if_false, Char.reduceEq, or_self,
      if_true, hstr]
    unfold ensure_consumed
    rw [hend]
    simp [Res.bind, eof]
  · by_cases h8 : c.toNat < 0x20
    · exact Or.inl h8
    by_cases h2 : c = '"'
    · exact Or.inr (Or.inl h2)
    by_cases h1 : c = '\\'
    · exact Or.inr (Or.inr (Or.inl h1))
    refine Or.inr (Or.inr (Or.inr ?_))
    have h3 : c ≠ '\x08' := fun h => h8 (by rw [h]; decide)
    have h4 : c ≠ '\x0c' := fun h => h8 (by rw [h]; decide)
    have h5 : c ≠ '\n' := fun h => h8 (by rw [h]; decide)
    have h6 : c ≠ '\r' := fun h => h8 (by rw [h]; decide)
    have h7 : c ≠ '\t' := fun h => h8 (by rw [h]; decide)
    simp only [escape_char, h1, h2, h3, h4, h5, h6, h7, h8, if_false]

end core
